import Mathlib

/-!
Verification development for the GF2 logic-simulator front end
(`names.py`, `scanner.py`, `parse.py`).

The Python source is shallowly embedded: the input file becomes a
`List Char`, the scanner/parser objects become explicit state records, and
every loop is written as structural recursion on an explicit fuel
parameter (`none` = fuel exhausted).  The collaborator modules
`devices.py`, `network.py` and `monitors.py` are not part of the sources;
they are modelled from the specification (see the definitions marked
"Modelled from the spec").

Output that the Python code only prints (diagnostic text, caret lines,
"previous definition here" blocks, the message-format dictionary) is not
reconstructed character by character; the model keeps the observable data
the tests compare: the error code, line number, column, the ordered
structured record list of test mode, and a count of diagnostics that were
printed rather than recorded.
-/

set_option maxHeartbeats 2000000

/-! ## Character classes (ASCII reading of Python's str predicates) -/

/-- Python `str.isspace` restricted to ASCII. -/
def pyIsSpace (c : Char) : Bool :=
  c = ' ' || c = '\t' || c = '\n' || c = '\r' || c = '\x0b' || c = '\x0c'

/-- Python `str.isalpha` restricted to ASCII. -/
def pyIsAlpha (c : Char) : Bool := c.isAlpha

/-- Python `str.isdigit` restricted to ASCII. -/
def pyIsDigit (c : Char) : Bool := c.isDigit

/-- Python `str.isalnum` restricted to ASCII. -/
def pyIsAlnum (c : Char) : Bool := pyIsAlpha c || pyIsDigit c

/-! ## names.py : the Names table

`Names.name_list` is a list of strings; ids are list indices. -/

/-- `list.index`: index of the first occurrence of `s`. -/
def namesIndex (s : String) : List String → Option Nat
  | [] => none
  | t :: rest => if t = s then some 0 else (namesIndex s rest).map (· + 1)

/-- `Names.query`: id of a present string, `None` otherwise. -/
def namesQuery (l : List String) (s : String) : Option Nat :=
  if s ∈ l then namesIndex s l else none

/-- `Names.lookup` on a single string (the non-list branch): append the
string if absent, then return its id (always present afterwards, hence the
unreachable `0` arm). -/
def namesLookupOne (l : List String) (s : String) : Nat × List String :=
  let l' := if s ∈ l then l else l ++ [s]
  (match namesQuery l' s with
   | some i => i
   | none => 0,  -- unreachable: s is a member of l'
   l')

/-- `Names.lookup` on a list of strings. -/
def namesLookupList (l : List String) : List String → List Nat × List String
  | [] => ([], l)
  | s :: rest =>
    let (i, l1) := namesLookupOne l s
    let (is, l2) := namesLookupList l1 rest
    (i :: is, l2)

/-- `Names.get_name_string`: the string at a valid id, `None` otherwise. -/
def namesGetString (l : List String) (i : Nat) : Option String :=
  if i < l.length then l.get? i else none

/-! ## scanner.py : state and primitive operations -/

/-- The reserved keywords interned by `Scanner.__init__`. -/
def keywordsList : List String :=
  ["DEVICE", "CONNECT", "MONITOR", "CLOCK", "SWITCH", "RC", "AND", "NAND",
   "OR", "NOR", "DTYPE", "XOR", "NOT", "is", "are", "to", "(", ")", "."]

/-- The lexical-error message strings interned by `Scanner.__init__`. -/
def errorStringList : List String :=
  ["Unrecogonized character", "Number starting with 0", "Unterminated comment"]

/-- `symbol_type` values (`range(6)` in the source, one tag per value). -/
inductive SymbolType where
  | KEYWORD | NAME | NUMBER | PUNCTUATION | SYNTAX_ERROR | EOF
  deriving DecidableEq, Repr

/-- Scanner state: `input` is the unread part of the file, `cur` is
`current_character` (`none` for Python's `''`), and the shared `Names`
object travels with the scanner as `names`. -/
structure ScannerSt where
  input : List Char
  cur : Option Char
  curLine : List Char
  lineNum : Nat
  prevLines : List (List Char)
  names : List String
  deriving DecidableEq, Repr

/-- `Scanner.advance`. -/
def advance (s : ScannerSt) : ScannerSt :=
  let s1 :=
    match s.cur with
    | some c =>
      if c = '\n' then
        { s with prevLines := s.prevLines ++ [s.curLine], curLine := [],
                 lineNum := s.lineNum + 1 }
      else { s with curLine := s.curLine ++ [c] }
    | none =>
      { s with prevLines := s.prevLines ++ [s.curLine], curLine := [],
               lineNum := s.lineNum + 1 }
  match s1.input with
  | [] => { s1 with cur := none }
  | c :: rest => { s1 with cur := some c, input := rest }

/-- `Scanner.__init__` for a given file content: intern the keywords and
error strings, then `advance()` once. -/
def initScanner (inp : List Char) : ScannerSt :=
  let n1 := (namesLookupList [] keywordsList).2
  let n2 := (namesLookupList n1 errorStringList).2
  advance { input := inp, cur := none, curLine := [], lineNum := 0,
            prevLines := [], names := n2 }

/-- `Scanner.skip_spaces`. -/
def skip_spaces (fuel : Nat) (s : ScannerSt) : Option ScannerSt :=
  match fuel with
  | 0 => none
  | fuel + 1 =>
    match s.cur with
    | some c => if pyIsSpace c then skip_spaces fuel (advance s) else some s
    | none => some s

/-- `Scanner.get_name`: accumulate alphanumeric characters. -/
def get_name (fuel : Nat) (s : ScannerSt) : Option (List Char × ScannerSt) :=
  match fuel with
  | 0 => none
  | fuel + 1 =>
    match s.cur with
    | some c =>
      if pyIsAlnum c then do
        let (rest, s') ← get_name fuel (advance s)
        some (c :: rest, s')
      else some ([], s)
    | none => some ([], s)

/-- The digit-accumulating loop of `Scanner.get_number`. -/
def read_digits (fuel : Nat) (s : ScannerSt) : Option (List Char × ScannerSt) :=
  match fuel with
  | 0 => none
  | fuel + 1 =>
    match s.cur with
    | some c =>
      if pyIsDigit c then do
        let (rest, s') ← read_digits fuel (advance s)
        some (c :: rest, s')
      else some ([], s)
    | none => some ([], s)

/-- `int(number)` on a digit string. -/
def digitsToNat (ds : List Char) : Nat :=
  ds.foldl (fun n c => n * 10 + (c.toNat - '0'.toNat)) 0

/-- `Scanner.get_number`: `-1` flags a number with a leading zero.  The
empty-accumulator arm is Python's `number[0]` `IndexError`; it is
unreachable because `get_symbol` only calls this with a digit current. -/
def get_number (fuel : Nat) (s : ScannerSt) : Option (Int × ScannerSt) := do
  let (ds, s') ← read_digits fuel s
  match ds with
  | [] => none
  | d :: rest =>
    if d = '0' ∧ rest ≠ [] then some (-1, s')
    else some ((digitsToNat (d :: rest) : Int), s')

/-- The `//` branch of `Scanner.skip_comment`: consume to end of line. -/
def skip_line_comment (fuel : Nat) (s : ScannerSt) : Option ScannerSt :=
  match fuel with
  | 0 => none
  | fuel + 1 =>
    match s.cur with
    | some c => if c = '\n' then some s else skip_line_comment fuel (advance s)
    | none => some s

/-- The `/* ... */` loop of `Scanner.skip_comment`: `prev` is
`previous_character` (initially the opening `*` itself, exactly as in the
source). -/
def skip_comment_star (fuel : Nat) (prev : Option Char) (s : ScannerSt) :
    Option (Nat × ScannerSt) :=
  match fuel with
  | 0 => none
  | fuel + 1 =>
    if prev = some '*' ∧ s.cur = some '/' then some (1, advance s)
    else
      let prev' := s.cur
      let s' := advance s
      if s'.cur = none then some (2, s')
      else skip_comment_star fuel prev' s'

/-- `Scanner.skip_comment`: outcome 1 = comment skipped, 2 = unterminated
block comment, 3 = lone `/`. -/
def skip_comment (fuel : Nat) (s : ScannerSt) : Option (Nat × ScannerSt) :=
  let s1 := advance s
  if s1.cur ≠ some '/' ∧ s1.cur ≠ some '*' then some (3, s1)
  else if s1.cur = some '/' then do
    let s2 ← skip_line_comment fuel s1
    some (1, s2)
  else skip_comment_star fuel (some '*') (advance s1)

/-- `Scanner.get_symbol`.  The `none` arms after `namesQuery` are Python
states whose `symbol_id` would be `None`; they are unreachable because the
queried strings are interned by `Scanner.__init__`. -/
def get_symbol (fuel : Nat) (s : ScannerSt) :
    Option ((SymbolType × Nat) × ScannerSt) :=
  match fuel with
  | 0 => none
  | fuel + 1 => do
    let s1 ← skip_spaces fuel s
    match s1.cur with
    | none => some ((.EOF, 1), s1)
    | some c =>
      if pyIsAlpha c then do
        let (nm, s2) ← get_name fuel s1
        let nmStr := String.mk nm
        if nmStr ∈ keywordsList then
          match namesQuery s2.names nmStr with
          | some i => some ((.KEYWORD, i), s2)
          | none => none
        else
          let (i, names') := namesLookupOne s2.names nmStr
          some ((.NAME, i), { s2 with names := names' })
      else if pyIsDigit c then do
        let (v, s2) ← get_number fuel s1
        if v = -1 then
          match namesQuery s2.names "Number starting with 0" with
          | some i => some ((.SYNTAX_ERROR, i), s2)
          | none => none
        else some ((.NUMBER, v.toNat), s2)
      else if c = '(' ∨ c = ')' ∨ c = '.' then
        match namesQuery s1.names (String.mk [c]) with
        | some i => some ((.PUNCTUATION, i), advance s1)
        | none => none
      else if c = '/' then do
        let (r, s2) ← skip_comment fuel s1
        if r = 1 then get_symbol fuel s2
        else if r = 2 then
          match namesQuery s2.names "Unterminated comment" with
          | some i => some ((.SYNTAX_ERROR, i), s2)
          | none => none
        else
          match namesQuery s2.names "Unrecogonized character" with
          | some i => some ((.SYNTAX_ERROR, i), s2)
          | none => none
      else
        match namesQuery s1.names "Unrecogonized character" with
        | some i => some ((.SYNTAX_ERROR, i), advance s1)
        | none => none

/-- The read-ahead loop of `Scanner.complete_current_line`: extend `line`
with characters drawn from the file copy until a newline or end of file. -/
def completeLineLoop : List Char → Option Char → List Char → List Char
  | line, none, _ => line
  | line, some ch, [] => if ch = '\n' then line else line ++ [ch]
  | line, some ch, f :: fs =>
    if ch = '\n' then line else completeLineLoop (line ++ [ch]) (some f) fs

/-- `Scanner.complete_current_line`: record the cursor (`tell`), read to
the end of the current line, seek back, and return the full line together
with the column where the previous token ended. -/
def complete_current_line (s : ScannerSt) : (List Char × Nat) × ScannerSt :=
  let savedCursor := s.input
  let line := completeLineLoop s.curLine s.cur s.input
  ((line, s.curLine.length), { s with input := savedCursor })

/-! ## Collaborators (devices.py / network.py / monitors.py are not in the
sources; the registry, network and monitor models below follow §3, §4.2
and §6 of the specification) -/

/-- Device kinds known to the parser (`devices.CLOCK`, ... in the source). -/
inductive DeviceKind where
  | CLOCK | SWITCH | AND | NAND | OR | NOR | RC | D_TYPE | XOR | NOT
  deriving DecidableEq, Repr

/-- Modelled from the spec: the device record a `DeviceHandle` exposes —
its kind, the set of input port names, and the set of output port names
(`none` is the implicit default output of non-DTYPE devices). -/
structure Device where
  deviceKind : DeviceKind
  inputs : List Nat
  outputs : List (Option Nat)
  deriving DecidableEq, Repr

/-- First value bound to a key in an association list. -/
def assocGet {α β : Type} [DecidableEq α] (l : List (α × β)) (k : α) : Option β :=
  match l with
  | [] => none
  | (a, b) :: rest => if a = k then some b else assocGet rest k

/-- Dictionary assignment `d[k] = v` (replace or append). -/
def assocSet {α β : Type} [DecidableEq α] (l : List (α × β)) (k : α) (v : β) :
    List (α × β) :=
  match l with
  | [] => [(k, v)]
  | (a, b) :: rest => if a = k then (k, v) :: rest else (a, b) :: assocSet rest k v

/-- `DeviceRegistry.get` (`devices.get_device`). -/
def devicesGet (devs : List (Nat × Device)) (did : Nat) : Option Device :=
  assocGet devs did

/-- Modelled from the spec: which (kind, qualifier) pairs the Device
Registry accepts — gates take 1..16 inputs, a switch's initial state is 0
or 1, clock/RC periods are positive, and the unqualified kinds take no
qualifier (§4.2, glossary). -/
def qualifierValid (dk : DeviceKind) (q : Option Nat) : Bool :=
  match dk, q with
  | .AND, some n => 1 ≤ n ∧ n ≤ 16
  | .NAND, some n => 1 ≤ n ∧ n ≤ 16
  | .OR, some n => 1 ≤ n ∧ n ≤ 16
  | .NOR, some n => 1 ≤ n ∧ n ≤ 16
  | .SWITCH, some n => n ≤ 1
  | .CLOCK, some n => 1 ≤ n
  | .RC, some n => 1 ≤ n
  | .D_TYPE, none => true
  | .XOR, none => true
  | .NOT, none => true
  | _, _ => false

/-- Gate input port names `I1` ... `In`. -/
def gateInputNames (n : Nat) : List String :=
  (List.range n).map (fun i => "I" ++ toString (i + 1))

/-- Modelled from the spec: the port names of a freshly created device,
interned in the shared names table (gates have inputs `I1..In` and the
implicit output; DTYPE has inputs CLK, SET, CLEAR, DATA and outputs Q and
QBAR; XOR has two inputs, NOT one; clock/switch/RC are sources). -/
def devicePorts (names : List String) (dk : DeviceKind) (q : Option Nat) :
    (List Nat × List (Option Nat)) × List String :=
  match dk with
  | .AND | .NAND | .OR | .NOR =>
    let (ins, names') := namesLookupList names (gateInputNames (q.getD 0))
    ((ins, [none]), names')
  | .XOR =>
    let (ins, names') := namesLookupList names (gateInputNames 2)
    ((ins, [none]), names')
  | .NOT =>
    let (ins, names') := namesLookupList names (gateInputNames 1)
    ((ins, [none]), names')
  | .D_TYPE =>
    let (ins, names') := namesLookupList names ["CLK", "SET", "CLEAR", "DATA"]
    let (outs, names'') := namesLookupList names' ["Q", "QBAR"]
    ((ins, outs.map some), names'')
  | .CLOCK | .SWITCH | .RC => (([], [none]), names)

/-- Result of `devices.make_device` as the parser consumes it. -/
inductive DevResult where
  | noerr | invalidQualifier
  deriving DecidableEq, Repr

/-- Modelled from the spec: `DeviceRegistry.create` — reject an invalid
(kind, qualifier) pair with INVALID_QUALIFIER, otherwise record the device
with its ports. -/
def make_device (names : List String) (devs : List (Nat × Device))
    (did : Nat) (dk : DeviceKind) (q : Option Nat) :
    DevResult × List String × List (Nat × Device) :=
  if qualifierValid dk q then
    let ((ins, outs), names') := devicePorts names dk q
    (.noerr, names', devs ++ [(did, ⟨dk, ins, outs⟩)])
  else (.invalidQualifier, names, devs)

/-- Result of `network.make_connection` as the parser consumes it. -/
inductive NetResult where
  | noerr | inputConnected | inputToInput | outputToOutput
  deriving DecidableEq, Repr

/-- A terminal names an input port of its device. -/
def terminalIsInput (devs : List (Nat × Device)) (d : Nat) (pt : Option Nat) :
    Bool :=
  match devicesGet devs d, pt with
  | some dev, some x => x ∈ dev.inputs
  | _, _ => false

/-- Modelled from the spec: `Network.connect` — two inputs clash, two
outputs clash, an already-driven input clashes, and otherwise the
connection (input terminal ↦ output terminal) is recorded. -/
def make_connection (devs : List (Nat × Device))
    (driven : List ((Nat × Option Nat) × (Nat × Option Nat)))
    (d1 : Nat) (pt1 : Option Nat) (d2 : Nat) (pt2 : Option Nat) :
    NetResult × List ((Nat × Option Nat) × (Nat × Option Nat)) :=
  let i1 := terminalIsInput devs d1 pt1
  let i2 := terminalIsInput devs d2 pt2
  if i1 ∧ i2 then (.inputToInput, driven)
  else if ¬ i1 ∧ ¬ i2 then (.outputToOutput, driven)
  else
    let inp := if i1 then (d1, pt1) else (d2, pt2)
    let out := if i1 then (d2, pt2) else (d1, pt1)
    match assocGet driven inp with
    | some _ => (.inputConnected, driven)
    | none => (.noerr, driven ++ [(inp, out)])

/-- Modelled from the spec: `Network.unconnected_inputs` — every declared
input port that no connection drives. -/
def find_unconnected_inputs (devs : List (Nat × Device))
    (driven : List ((Nat × Option Nat) × (Nat × Option Nat))) :
    List (Nat × Nat) :=
  devs.flatMap (fun dp =>
    dp.2.inputs.filterMap (fun i =>
      match assocGet driven (dp.1, some i) with
      | some _ => none
      | none => some (dp.1, i)))

/-- Result of `monitors.make_monitor` as the parser consumes it. -/
inductive MonResult where
  | noerr | alreadyMonitored
  deriving DecidableEq, Repr

/-- Modelled from the spec: `Monitors.add` — reject a duplicate monitor,
otherwise record the terminal. -/
def make_monitor (dict : List (Nat × Option Nat)) (d : Nat) (pt : Option Nat) :
    MonResult × List (Nat × Option Nat) :=
  if (d, pt) ∈ dict then (.alreadyMonitored, dict)
  else (.noerr, dict ++ [(d, pt)])

/-! ## parse.py : parser state -/

/-- The 32 parser error codes (`names.unique_error_codes(32)` in the
source gives them distinct identities; here each is a tag). -/
inductive ErrorCode where
  | NO_ERROR | BAD_CHARACTER | BAD_COMMENT | BAD_NUMBER | DEVICE_REDEFINED
  | DEVICE_TYPE_ABSENT | DEVICE_UNDEFINED | EMPTY_DEVICE_LIST | EMPTY_FILE
  | EMPTY_MONITOR_LIST | EMPTY_STATEMENT | EXPECT_DEVICE_TERMINAL_NAME
  | EXPECT_KEYWORD_IS_ARE | EXPECT_KEYWORD_TO | EXPECT_LEFT_PAREN
  | EXPECT_NO_QUALIFIER | EXPECT_PORT_NAME | EXPECT_PORT_NAME_DTYPE
  | EXPECT_QUALIFIER | EXPECT_RIGHT_PAREN | INPUT_CONNECTED | INPUT_TO_INPUT
  | INPUT_UNCONNECTED | INVALID_DEVICE_NAME | INVALID_DEVICE_TYPE
  | INVALID_FUNCTION_NAME | INVALID_PORT_NAME | INVALID_QUALIFIER
  | KEYWORD_AS_DEVICE_NAME | MONITOR_NOT_OUTPUT | MONITOR_PRESENT
  | OUTPUT_TO_OUTPUT
  deriving DecidableEq, Repr

/-- Parser state.  `symbolType = none` is the pre-`parse_network` state
(Python's `None`); `symbolId` is only read after the first
`move_to_next_symbol`.  `errorTuples` is `error_tuple_list` (test mode)
and `printedDiagnostics` counts diagnostics the Python code prints instead
of recording (human-mode `error_display` output and the unconnected-input
summary).  The message-format dictionary of the source only feeds printed
text and is not modelled. -/
structure ParserSt where
  scanner : ScannerSt
  symbolType : Option SymbolType
  symbolId : Nat
  errorCode : ErrorCode
  errorCount : Nat
  lastErrorPosOverwrite : Bool
  lastErrorPos : Nat
  lastErrorLinum : Nat
  testMode : Bool
  errorTuples : List (ErrorCode × Nat × Nat)
  printedDiagnostics : Nat
  devices : List (Nat × Device)
  driven : List ((Nat × Option Nat) × (Nat × Option Nat))
  monitorsDict : List (Nat × Option Nat)
  deviceLocations : List (Nat × (Nat × Nat))
  connectLocations : List ((Nat × Option Nat) × (Nat × Nat))
  monitorLocations : List ((Nat × Option Nat) × (Nat × Nat))
  deviceId : Nat
  portId : Option Nat
  deriving DecidableEq, Repr

/-- `Parser.__init__` over a freshly constructed scanner. -/
def initParserSt (inp : List Char) (testMode : Bool) : ParserSt :=
  { scanner := initScanner inp, symbolType := none, symbolId := 0,
    errorCode := .NO_ERROR, errorCount := 0, lastErrorPosOverwrite := false,
    lastErrorPos := 0, lastErrorLinum := 0, testMode := testMode,
    errorTuples := [], printedDiagnostics := 0, devices := [], driven := [],
    monitorsDict := [], deviceLocations := [], connectLocations := [],
    monitorLocations := [], deviceId := 0, portId := none }

/-- `Parser.get_name_string` (`None` both for a missing name and for the
pre-initialisation `TypeError`). -/
def ParserSt.nameString (p : ParserSt) : Option String :=
  if p.symbolType = some .NUMBER then some (toString p.symbolId)
  else namesGetString p.scanner.names p.symbolId

/-- `Parser.is_target_name`. -/
def is_target_name (p : ParserSt) (t : String) : Bool :=
  p.nameString = some t

/-- `Parser.is_left_paren`. -/
def is_left_paren (p : ParserSt) : Bool :=
  p.symbolType = some .PUNCTUATION ∧
    namesGetString p.scanner.names p.symbolId = some "("

/-- `Parser.is_right_paren`. -/
def is_right_paren (p : ParserSt) : Bool :=
  p.symbolType = some .PUNCTUATION ∧
    namesGetString p.scanner.names p.symbolId = some ")"

/-- `Parser.is_dot`. -/
def is_dot (p : ParserSt) : Bool :=
  p.symbolType = some .PUNCTUATION ∧
    namesGetString p.scanner.names p.symbolId = some "."

/-- `Parser.is_keyword`. -/
def is_keyword (p : ParserSt) : Bool := p.symbolType = some .KEYWORD

/-- `Parser.is_name`. -/
def is_name (p : ParserSt) : Bool := p.symbolType = some .NAME

/-- `Parser.is_number`. -/
def is_number (p : ParserSt) : Bool := p.symbolType = some .NUMBER

/-- `Parser.is_EOF`. -/
def is_EOF (p : ParserSt) : Bool := p.symbolType = some .EOF

/-- `device_with_qualifier` keyed by the device-type string. -/
def device_with_qualifier : String → Option DeviceKind
  | "CLOCK" => some .CLOCK
  | "SWITCH" => some .SWITCH
  | "AND" => some .AND
  | "NAND" => some .NAND
  | "OR" => some .OR
  | "NOR" => some .NOR
  | "RC" => some .RC
  | _ => none

/-- `device_no_qualifier` keyed by the device-type string. -/
def device_no_qualifier : String → Option DeviceKind
  | "DTYPE" => some .D_TYPE
  | "XOR" => some .XOR
  | "NOT" => some .NOT
  | _ => none

/-- `Parser.move_to_next_symbol`: remember where the previous token ended,
then pull the next symbol from the scanner. -/
def move_to_next_symbol (fuel : Nat) (p : ParserSt) : Option ParserSt := do
  let lep := p.scanner.curLine.length
  let lel := p.scanner.lineNum
  let ((t, i), s') ← get_symbol fuel p.scanner
  some { p with scanner := s', symbolType := some t, symbolId := i,
                lastErrorPos := lep, lastErrorLinum := lel }

/-- `Parser.error_display`: count the diagnostic, fix its position
(honouring `last_error_pos_overwrite`), and either record it (test mode)
or print it. -/
def error_display (p : ParserSt) : ParserSt :=
  let p := { p with errorCount := p.errorCount + 1 }
  let res := complete_current_line p.scanner
  let p := { p with scanner := res.2 }
  let linePos := res.1.2
  let pos := if p.lastErrorPosOverwrite then p.lastErrorPos else linePos
  let linum := if p.lastErrorPosOverwrite then p.lastErrorLinum
               else p.scanner.lineNum
  let p := if p.lastErrorPosOverwrite then { p with lastErrorPosOverwrite := false }
           else p
  if p.testMode then
    { p with errorTuples := p.errorTuples ++ [(p.errorCode, linum, pos)] }
  else
    { p with printedDiagnostics := p.printedDiagnostics + 1 }

/-! ## parse.py : grammar rules -/

/-- Insert into the `new_device_ids` set. -/
def addSet (ids : List Nat) (d : Nat) : List Nat :=
  if d ∈ ids then ids else ids ++ [d]

/-- `Parser.add_device_location`. -/
def add_device_location (p : ParserSt) : ParserSt :=
  let loc := (p.scanner.lineNum, p.scanner.curLine.length)
  { p with deviceLocations := assocSet p.deviceLocations p.symbolId loc }

/-- `Parser.get_first_device_id`: the mandatory first device name. -/
def get_first_device_id (fuel : Nat) (p : ParserSt) (ids : List Nat) :
    Option (Option Nat × List Nat × ParserSt) := do
  if ¬ is_name p then
    if is_keyword p then
      if p.nameString = some "is" ∨ p.nameString = some "are" then
        some (none, ids, { p with errorCode := .EMPTY_DEVICE_LIST })
      else some (none, ids, { p with errorCode := .KEYWORD_AS_DEVICE_NAME })
    else if is_right_paren p ∨ is_EOF p then
      some (none, ids, { p with errorCode := .EMPTY_DEVICE_LIST })
    else some (none, ids, { p with errorCode := .INVALID_DEVICE_NAME })
  else
    let did := p.symbolId
    match devicesGet p.devices did with
    | some _ => some (none, ids, { p with errorCode := .DEVICE_REDEFINED })
    | none => do
      let ids := addSet ids did
      let p := add_device_location p
      let p ← move_to_next_symbol fuel p
      some (some did, ids, p)

/-- `Parser.get_optional_device_id`: a further device name, if any. -/
def get_optional_device_id (fuel : Nat) (p : ParserSt) (ids : List Nat) :
    Option (Option Nat × List Nat × ParserSt) := do
  if ¬ is_name p then some (none, ids, p)
  else
    let did := p.symbolId
    if (devicesGet p.devices did).isSome ∨ did ∈ ids then
      some (none, ids, { p with errorCode := .DEVICE_REDEFINED })
    else do
      let ids := addSet ids did
      let p := add_device_location p
      let p ← move_to_next_symbol fuel p
      some (some did, ids, p)

/-- `Parser.check_keyword_is_are`. -/
def check_keyword_is_are (p : ParserSt) : Bool × ParserSt :=
  if ¬ is_keyword p then
    if is_left_paren p ∨ is_right_paren p then
      (false, { p with errorCode := .EXPECT_KEYWORD_IS_ARE })
    else (false, { p with errorCode := .INVALID_DEVICE_NAME })
  else if ¬ (p.nameString = some "is" ∨ p.nameString = some "are") then
    if (p.nameString.bind (fun nm => device_with_qualifier nm)).isSome then
      (false, { p with errorCode := .EXPECT_KEYWORD_IS_ARE })
    else if (p.nameString.bind (fun nm => device_no_qualifier nm)).isSome then
      (false, { p with errorCode := .EXPECT_KEYWORD_IS_ARE })
    else (false, { p with errorCode := .KEYWORD_AS_DEVICE_NAME })
  else (true, p)

/-- `Parser.get_device_type`: parse the device type and its qualifier;
`none` in the first component is Python's `(None, None)` failure. -/
def get_device_type (fuel : Nat) (p : ParserSt) :
    Option (Option (DeviceKind × Option Nat) × ParserSt) := do
  let dts := p.nameString
  if is_right_paren p then
    some (none, { p with errorCode := .DEVICE_TYPE_ABSENT,
                         lastErrorPosOverwrite := true })
  else if ¬ is_keyword p then
    some (none, { p with errorCode := .INVALID_DEVICE_TYPE })
  else
    match dts.bind (fun nm => device_with_qualifier nm) with
    | some dk => do
      let p ← move_to_next_symbol fuel p
      if ¬ is_number p then
        some (none, { p with errorCode := .EXPECT_QUALIFIER,
                             lastErrorPosOverwrite := true })
      else do
        let q := p.symbolId
        let p ← move_to_next_symbol fuel p
        some (some (dk, some q), p)
    | none =>
      match dts.bind (fun nm => device_no_qualifier nm) with
      | some dk => do
        let p ← move_to_next_symbol fuel p
        if is_number p then
          some (none, { p with errorCode := .EXPECT_NO_QUALIFIER })
        else some (some (dk, none), p)
      | none =>
        -- the source also calls complete_current_line here, discarding it
        some (none, { p with errorCode := .INVALID_DEVICE_TYPE,
                             scanner := (complete_current_line p.scanner).2 })

/-- The `for device_id in new_device_ids` loop at the end of
`Parser.device`. -/
def makeDevicesLoop (dk : DeviceKind) (q : Option Nat) :
    List Nat → ParserSt → Bool × ParserSt
  | [], p => (true, p)
  | d :: rest, p =>
    let (r, names', devs') := make_device p.scanner.names p.devices d dk q
    let p := { p with scanner := { p.scanner with names := names' },
                      devices := devs' }
    match r with
    | .invalidQualifier =>
      (false, { p with errorCode := .INVALID_QUALIFIER,
                       lastErrorPosOverwrite := true })
    | .noerr => makeDevicesLoop dk q rest p

/-- The `while True` name-collecting loop of `Parser.device`. -/
def deviceNameLoop (fuel : Nat) (ids : List Nat) (p : ParserSt) :
    Option (Bool × List Nat × ParserSt) :=
  match fuel with
  | 0 => none
  | fuel + 1 => do
    let (r, ids, p) ← get_optional_device_id fuel p ids
    match r with
    | none =>
      if p.errorCode = .NO_ERROR then some (true, ids, p)
      else some (false, ids, p)
    | some d => deviceNameLoop fuel (addSet ids d) p

/-- `Parser.device`. -/
def device (fuel : Nat) (p : ParserSt) : Option (Bool × ParserSt) := do
  if p.errorCode ≠ .NO_ERROR then some (false, p)
  else if ¬ (is_keyword p ∧ is_target_name p "DEVICE") then some (false, p)
  else do
    let p ← move_to_next_symbol fuel p
    let (r, ids, p) ← get_first_device_id fuel p []
    match r with
    | none => some (false, p)
    | some _ => do
      let (ok, ids, p) ← deviceNameLoop fuel ids p
      if ¬ ok then some (false, p)
      else
        let (ok2, p) := check_keyword_is_are p
        if ¬ ok2 then some (false, p)
        else do
          let p ← move_to_next_symbol fuel p
          let (dt, p) ← get_device_type fuel p
          match dt with
          | none => some (false, p)
          | some (dk, q) => some (makeDevicesLoop dk q ids p)

/-- `Parser.device_terminal`: parse `NAME ['.' NAME]`; `none` in the first
component is Python's `(None, None)`. -/
def device_terminal (fuel : Nat) (monitorMode : Bool) (p : ParserSt) :
    Option (Option (Nat × Option Nat) × ParserSt) := do
  if ¬ is_name p then some (none, p)
  else
    let did := p.symbolId
    let p := { p with deviceId := did }
    match devicesGet p.devices did with
    | none => some (none, { p with errorCode := .DEVICE_UNDEFINED })
    | some dev => do
      let p ← move_to_next_symbol fuel p
      if is_dot p then do
        let p ← move_to_next_symbol fuel p
        if is_target_name p "to" ∨ is_right_paren p then
          some (none, { p with errorCode := .EXPECT_PORT_NAME,
                               lastErrorPosOverwrite := true })
        else
          let pid := p.symbolId
          let p := { p with portId := some pid }
          if ¬ (pid ∈ dev.inputs ∨ some pid ∈ dev.outputs) then
            some (none, { p with errorCode := .INVALID_PORT_NAME })
          else if monitorMode ∧ ¬ (some pid ∈ dev.outputs) then
            some (none, { p with errorCode := .MONITOR_NOT_OUTPUT })
          else if monitorMode ∧ (did, some pid) ∈ p.monitorsDict then
            some (none, { p with errorCode := .MONITOR_PRESENT })
          else do
            let p :=
              if monitorMode then
                let loc := (p.scanner.lineNum, p.scanner.curLine.length)
                { p with monitorLocations :=
                    assocSet p.monitorLocations (did, some pid) loc }
              else p
            let p ← move_to_next_symbol fuel p
            some (some (did, some pid), p)
      else
        let p := { p with portId := none }
        if ¬ ((none : Option Nat) ∈ dev.outputs) then
          some (none, { p with errorCode := .EXPECT_PORT_NAME_DTYPE,
                               lastErrorPosOverwrite := true })
        else if monitorMode then
          if (did, (none : Option Nat)) ∈ p.monitorsDict then
            some (none, { p with errorCode := .MONITOR_PRESENT,
                                 lastErrorPosOverwrite := true })
          else
            let loc := (p.lastErrorLinum, p.lastErrorPos)
            some (some (did, none),
              { p with monitorLocations :=
                  assocSet p.monitorLocations (did, none) loc })
        else some (some (did, none), p)

/-- `Parser.connect`. -/
def connect (fuel : Nat) (p : ParserSt) : Option (Bool × ParserSt) := do
  if p.errorCode ≠ .NO_ERROR then some (false, p)
  else if ¬ (is_keyword p ∧ is_target_name p "CONNECT") then some (false, p)
  else do
    let p ← move_to_next_symbol fuel p
    let (t1, p) ← device_terminal fuel false p
    match t1 with
    | none =>
      if p.errorCode = .NO_ERROR then
        some (false, { p with errorCode := .EXPECT_DEVICE_TERMINAL_NAME })
      else some (false, p)
    | some (d1, pt1) =>
      let firstLoc := (p.lastErrorLinum, p.lastErrorPos)
      if ¬ (is_keyword p ∧ is_target_name p "to") then
        some (false, { p with errorCode := .EXPECT_KEYWORD_TO })
      else do
        let p ← move_to_next_symbol fuel p
        let (t2, p) ← device_terminal fuel false p
        match t2 with
        | none =>
          if p.errorCode = .NO_ERROR then
            some (false, { p with errorCode := .EXPECT_DEVICE_TERMINAL_NAME })
          else some (false, p)
        | some (d2, pt2) =>
          let secondLoc := (p.lastErrorLinum, p.lastErrorPos)
          let (r, driven') := make_connection p.devices p.driven d1 pt1 d2 pt2
          match r with
          | .noerr =>
            some (true,
              { p with driven := driven',
                       connectLocations :=
                         assocSet (assocSet p.connectLocations (d1, pt1) firstLoc)
                           (d2, pt2) secondLoc })
          | .inputConnected =>
            -- identify the input side and point the caret at it; the
            -- "already connected to" message text itself is only printed
            match devicesGet p.devices d1 with
            | none => some (false, p)  -- unreachable: the terminal was validated
            | some fdev =>
              let firstIsInput : Bool :=
                match pt1 with
                | some x => x ∈ fdev.inputs
                | none => false
              let inTerm := if firstIsInput then (d1, pt1) else (d2, pt2)
              let inLoc := if firstIsInput then firstLoc else secondLoc
              some (false,
                { p with errorCode := .INPUT_CONNECTED,
                         deviceId := inTerm.1, portId := inTerm.2,
                         lastErrorLinum := inLoc.1, lastErrorPos := inLoc.2,
                         lastErrorPosOverwrite := true })
          | .inputToInput =>
            some (false, { p with errorCode := .INPUT_TO_INPUT,
                                  lastErrorPosOverwrite := true })
          | .outputToOutput =>
            some (false, { p with errorCode := .OUTPUT_TO_OUTPUT,
                                  lastErrorPosOverwrite := true })

/-- The `while True` loop of `Parser.monitor`.  The `alreadyMonitored`
arm is the source's `raise ValueError`; it is unreachable because
`device_terminal` in monitor mode has just checked the dictionary. -/
def monitorLoop (fuel : Nat) (p : ParserSt) : Option (Bool × ParserSt) :=
  match fuel with
  | 0 => none
  | fuel + 1 => do
    let (t, p) ← device_terminal fuel true p
    match t with
    | none =>
      if p.errorCode = .NO_ERROR then some (true, p) else some (false, p)
    | some (d, pt) =>
      let (r, dict') := make_monitor p.monitorsDict d pt
      match r with
      | .alreadyMonitored => some (false, p)
      | .noerr => monitorLoop fuel { p with monitorsDict := dict' }

/-- `Parser.monitor`. -/
def monitor (fuel : Nat) (p : ParserSt) : Option (Bool × ParserSt) := do
  if p.errorCode ≠ .NO_ERROR then some (false, p)
  else if ¬ (is_keyword p ∧ is_target_name p "MONITOR") then some (false, p)
  else do
    let p ← move_to_next_symbol fuel p
    let (t, p) ← device_terminal fuel true p
    match t with
    | none =>
      if p.errorCode = .NO_ERROR then
        if is_right_paren p then
          some (false, { p with errorCode := .EMPTY_MONITOR_LIST })
        else some (false, { p with errorCode := .INVALID_DEVICE_NAME })
      else some (false, p)
    | some (d, pt) =>
      let (r, dict') := make_monitor p.monitorsDict d pt
      match r with
      | .alreadyMonitored => some (false, p)  -- source: raise (unreachable)
      | .noerr => monitorLoop fuel { p with monitorsDict := dict' }

/-- `Parser.statement`. -/
def statement (fuel : Nat) (p : ParserSt) : Option (Bool × ParserSt) := do
  if ¬ is_left_paren p then
    some (false, { p with errorCode := .EXPECT_LEFT_PAREN })
  else do
    let p ← move_to_next_symbol fuel p
    -- `self.device() or self.connect() or self.monitor()` (short-circuit)
    let (ok, p) ← do
      let (b1, p) ← device fuel p
      if b1 then pure (true, p)
      else do
        let (b2, p) ← connect fuel p
        if b2 then pure (true, p)
        else monitor fuel p
    if ¬ ok then
      if p.errorCode = .NO_ERROR then
        if is_right_paren p then
          some (false, { p with errorCode := .EMPTY_STATEMENT })
        else some (false, { p with errorCode := .INVALID_FUNCTION_NAME })
      else some (false, p)
    else if ¬ is_right_paren p then
      some (false, { p with errorCode := .EXPECT_RIGHT_PAREN,
                            lastErrorPosOverwrite := true,
                            lastErrorPos := p.lastErrorPos + 1 })
    else do
      let p ← move_to_next_symbol fuel p
      some (true, p)

/-- The resynchronisation loop of `Parser.parse_network`: skip symbols
until the next `(` or EOF. -/
def recoveryLoop (fuel : Nat) (p : ParserSt) : Option ParserSt :=
  match fuel with
  | 0 => none
  | fuel + 1 =>
    if ¬ is_left_paren p ∧ ¬ is_EOF p then do
      let p ← move_to_next_symbol fuel p
      recoveryLoop fuel p
    else some p

/-- The lexical-error reclassification step inlined in
`Parser.parse_network`: a failed statement whose current token is the
scanner's SYNTAX_ERROR token is reported as BAD_CHARACTER, BAD_NUMBER or
BAD_COMMENT according to the token's message string. -/
def reclassify (p : ParserSt) : ParserSt :=
  if p.symbolType = some .SYNTAX_ERROR then
    let p := { p with lastErrorPosOverwrite := false }
    if is_target_name p "Unrecogonized character" then
      { p with errorCode := .BAD_CHARACTER }
    else if is_target_name p "Number starting with 0" then
      { p with errorCode := .BAD_NUMBER }
    else { p with errorCode := .BAD_COMMENT }
  else p

/-- The `while not self.is_EOF()` statement loop of
`Parser.parse_network`, including the lexical-error reclassification,
diagnostic emission, error-state reset and resynchronisation. -/
def parseLoop (fuel : Nat) (p : ParserSt) : Option ParserSt :=
  match fuel with
  | 0 => none
  | fuel + 1 =>
    if is_EOF p then some p
    else do
      let (b, p) ← statement fuel p
      if b then parseLoop fuel p
      else do
        let p := reclassify p
        let p := error_display p
        let p := { p with errorCode := .NO_ERROR }
        let p ← recoveryLoop fuel p
        parseLoop fuel p

/-- `Parser.parse_network`.  The final unconnected-inputs check prints its
summary (in both modes) and forces the error count to 1; the closing
"N errors generated" banner is print-only and not modelled. -/
def parse_network (fuel : Nat) (p : ParserSt) : Option (Bool × ParserSt) := do
  let p ← move_to_next_symbol fuel p
  if is_EOF p then
    let p := { p with errorCode := .EMPTY_FILE }
    let p := error_display p
    some (false, p)
  else do
    let p ← parseLoop fuel p
    let p :=
      if p.errorCount = 0 then
        if (find_unconnected_inputs p.devices p.driven).length > 0 then
          { p with printedDiagnostics := p.printedDiagnostics + 1,
                   errorCount := 1 }
        else p
      else p
    if p.errorCount > 0 then some (false, p) else some (true, p)

/-- Fuel that is ample for every loop on a given input. -/
def bigFuel (inp : List Char) : Nat := inp.length + 5

/-- Construct the parser and run `parse_network` on a file content. -/
def runParse (inp : List Char) (testMode : Bool) : Option (Bool × ParserSt) :=
  parse_network (bigFuel inp) (initParserSt inp testMode)

/-! ## Lemmas about the Names table -/

/-- A mutating operation on the Names table (queries and
`get_name_string` do not mutate; `unique_error_codes` touches only the
separate error-code counter). -/
inductive NamesOp where
  | one (s : String)
  | many (ss : List String)
  deriving DecidableEq, Repr

/-- Apply one Names operation, keeping the resulting table. -/
def applyNamesOp (l : List String) : NamesOp → List String
  | .one s => (namesLookupOne l s).2
  | .many ss => (namesLookupList l ss).2

/-- Apply a sequence of Names operations. -/
def applyNamesOps (l : List String) : List NamesOp → List String
  | [] => l
  | op :: ops => applyNamesOps (applyNamesOp l op) ops

/-- The line text `complete_current_line` computes: the accumulated line
buffer extended with the unread remainder of the current line. -/
def lineSnapshotSpec (s : ScannerSt) : List Char :=
  match s.cur with
  | none => s.curLine
  | some ch => s.curLine ++ (ch :: s.input).takeWhile (· ≠ '\n')
/-- The maximal digit string starting at the current character. -/
def maximalDigits (s : ScannerSt) : List Char :=
  match s.cur with
  | some c => if pyIsDigit c then c :: s.input.takeWhile pyIsDigit else []
  | none => []
/-- The names table as `Scanner.__init__` leaves it: 19 keywords
(ids 0–18) followed by the three lexical-error strings (ids 19–21). -/
def initNames : List String :=
  (namesLookupList (namesLookupList [] keywordsList).2 errorStringList).2

/-- A parser state used to instantiate theorems: the current symbol is a
keyword (id 7 = NAND by default) and the scanner is about to read `3)`. -/
def c7Base (kid : Nat) : ParserSt :=
  { initParserSt [] true with scanner := initScanner "3)".toList,
                              symbolType := some SymbolType.KEYWORD,
                              symbolId := kid }

/-- Default parser state used as a `getD` fallback in closed instances. -/
def dfltP : ParserSt := initParserSt [] true

/-- States along the parse of `(DEVICE )`, used to instantiate the
statement-level error-precedence theorem. -/
def c1P : ParserSt :=
  (move_to_next_symbol 20 (initParserSt "(DEVICE )".toList true)).getD dfltP

def c1P0 : ParserSt := (move_to_next_symbol 20 c1P).getD dfltP

def c1P1 : ParserSt := ((device 20 c1P0).getD (false, dfltP)).2

def c1P2 : ParserSt := ((connect 20 c1P1).getD (false, dfltP)).2

def c1P3 : ParserSt := ((monitor 20 c1P2).getD (false, dfltP)).2

/-- A names table and registry holding one DTYPE device named by id 28,
as `make_device` builds them. -/
def c1Names : List String :=
  (make_device initNames [] 28 DeviceKind.D_TYPE none).2.1

def c1Devs : List (Nat × Device) :=
  (make_device initNames [] 28 DeviceKind.D_TYPE none).2.2

/-- A parser state whose current symbol is the CONNECT keyword and whose
scanner is about to read `A.DATA to )` with `A` a declared DTYPE. -/
def c1Q : ParserSt :=
  { initParserSt [] true with
      scanner := { initScanner "A.DATA to )".toList with names := c1Names },
      symbolType := some SymbolType.KEYWORD,
      symbolId := 1,
      devices := c1Devs }

def c1Q0 : ParserSt := (move_to_next_symbol 20 c1Q).getD dfltP

def c1Q1 : ParserSt := ((device_terminal 20 false c1Q0).getD (none, dfltP)).2

def c1Q2 : ParserSt := (move_to_next_symbol 20 c1Q1).getD dfltP

def c1Q3 : ParserSt := ((device_terminal 20 false c1Q2).getD (none, dfltP)).2

/-! ## Measures and invariants for the termination analysis -/

/-- Characters still to be consumed: the unread input plus the current
character. -/
def meas (s : ScannerSt) : Nat :=
  s.input.length + (if s.cur.isSome then 1 else 0)

/-- A reachable scanner state: once the current character is exhausted the
unread input is too (every `advance` result satisfies this). -/
def wfSc (s : ScannerSt) : Prop := s.cur = none → s.input = []

/-- The names table extends the initial table, so every keyword and
lexical-error string stays interned. -/
def goodNames (s : ScannerSt) : Prop := ∃ ext, s.names = initNames ++ ext

/-- Count the symbols `get_symbol` delivers, up to and including the EOF
symbol. -/
def tokenCountF (fuel : Nat) (s : ScannerSt) : Option Nat :=
  match fuel with
  | 0 => none
  | fuel + 1 => do
    let ((t, _), s') ← get_symbol fuel s
    if t = SymbolType.EOF then some 1
    else do
      let n ← tokenCountF fuel s'
      some (n + 1)

/-- The number of tokens in a scanner's stream, computed with ample fuel. -/
def tokenCount (s : ScannerSt) : Nat := (tokenCountF (meas s + 3) s).getD 0

/-- Parser-level character measure: unread characters plus one for the
current symbol unless it is EOF. -/
def pm (p : ParserSt) : Nat :=
  meas p.scanner + (if is_EOF p then 0 else 1)

/-- Parser-level well-formedness: the scanner state is reachable, its
names table extends the initial one, and an EOF current symbol means the
scanner is exhausted. -/
def wfP (p : ParserSt) : Prop :=
  wfSc p.scanner ∧ goodNames p.scanner ∧
    (is_EOF p = true → meas p.scanner = 0)

/-- Tokens the statement loop can still consume: the current symbol
(unless it is EOF) plus the scanner's stream. -/
def remBudget (p : ParserSt) : Nat :=
  if is_EOF p then 0 else tokenCount p.scanner + 1

/-- A grammar-rule call keeps the state well-formed, consumes no budget it
does not have, and emits no diagnostic. -/
def RuleOk (p q : ParserSt) : Prop :=
  wfP q ∧ pm q ≤ pm p ∧ remBudget q ≤ remBudget p ∧ q.errorCount = p.errorCount

/-- A grammar-rule call that also consumed at least one token. -/
def RuleProg (p q : ParserSt) : Prop :=
  wfP q ∧ pm q < pm p ∧ remBudget q < remBudget p ∧ q.errorCount = p.errorCount

theorem namesIndex_isSome_of_mem {s : String} {l : List String} (h : s ∈ l) :
    (namesIndex s l).isSome := by
  induction l with
  | nil => cases h
  | cons t rest ih =>
    by_cases ht : t = s
    · simp [namesIndex, ht]
    · rcases List.mem_cons.mp h with h' | h'
      · exact absurd h'.symm ht
      · simp only [namesIndex, if_neg ht]
        have hs := ih h'
        cases hi : namesIndex s rest with
        | none => rw [hi] at hs; simp at hs
        | some j => simp

theorem namesIndex_append_of_mem {s : String} {l ext : List String}
    (h : s ∈ l) : namesIndex s (l ++ ext) = namesIndex s l := by
  induction l with
  | nil => cases h
  | cons t rest ih =>
    by_cases ht : t = s
    · simp [namesIndex, ht]
    · rcases List.mem_cons.mp h with h' | h'
      · exact absurd h'.symm ht
      · simp [namesIndex, ht, ih h']

theorem namesQuery_append_of_mem {s : String} {l ext : List String}
    (h : s ∈ l) : namesQuery (l ++ ext) s = namesQuery l s := by
  simp [namesQuery, h, List.mem_append.mpr (Or.inl h),
        namesIndex_append_of_mem h]

theorem namesIndex_get {s : String} {l : List String} {i : Nat}
    (h : namesIndex s l = some i) : l.get? i = some s := by
  induction l generalizing i with
  | nil => simp [namesIndex] at h
  | cons t rest ih =>
    by_cases ht : t = s
    · simp [namesIndex, ht] at h
      simp [← h, ht]
    · simp only [namesIndex, if_neg ht, Option.map_eq_some'] at h
      rcases h with ⟨j, hj, rfl⟩
      simpa using ih hj

theorem namesGetString_of_query {s : String} {l : List String} {i : Nat}
    (h : namesQuery l s = some i) : namesGetString l i = some s := by
  have hmem : s ∈ l := by
    by_contra hm
    simp [namesQuery, hm] at h
  have hidx : namesIndex s l = some i := by simpa [namesQuery, hmem] using h
  have hget := namesIndex_get hidx
  have hlt : i < l.length := by
    by_contra hge
    rw [List.get?_eq_none.mpr (Nat.le_of_not_lt hge)] at hget
    cases hget
  rw [namesGetString, if_pos hlt]
  exact hget

theorem namesQuery_inj {s t : String} {l : List String} {i : Nat}
    (hs : namesQuery l s = some i) (ht : namesQuery l t = some i) : s = t := by
  have h1 := namesGetString_of_query hs
  have h2 := namesGetString_of_query ht
  rw [h1] at h2
  exact (Option.some.injEq _ _ ▸ h2).symm ▸ rfl

theorem namesLookupOne_mem (l : List String) (s : String) :
    s ∈ (namesLookupOne l s).2 := by
  by_cases h : s ∈ l <;> simp [namesLookupOne, h]

theorem namesLookupOne_query (l : List String) (s : String) :
    namesQuery (namesLookupOne l s).2 s = some (namesLookupOne l s).1 := by
  have hmem := namesLookupOne_mem l s
  have hq : (namesQuery (namesLookupOne l s).2 s).isSome := by
    simpa [namesQuery, hmem] using namesIndex_isSome_of_mem hmem
  rcases Option.isSome_iff_exists.mp hq with ⟨i, hi⟩
  rw [hi,
    show (namesLookupOne l s).1 =
        (match namesQuery (namesLookupOne l s).2 s with
         | some j => j
         | none => 0) from rfl, hi]

theorem namesLookupOne_fst_of_query {l : List String} {s : String} {i : Nat}
    (hm : s ∈ l) (h : namesQuery l s = some i) :
    (namesLookupOne l s).1 = i := by
  simp [namesLookupOne, hm, h]

theorem namesLookupOne_extends (l : List String) (s : String) :
    ∃ ext, (namesLookupOne l s).2 = l ++ ext := by
  by_cases h : s ∈ l
  · exact ⟨[], by simp [namesLookupOne, h]⟩
  · exact ⟨[s], by simp [namesLookupOne, h]⟩

theorem namesLookupList_extends (l : List String) (ss : List String) :
    ∃ ext, (namesLookupList l ss).2 = l ++ ext := by
  induction ss generalizing l with
  | nil => exact ⟨[], by simp [namesLookupList]⟩
  | cons s rest ih =>
    rcases namesLookupOne_extends l s with ⟨e1, h1⟩
    rcases ih (namesLookupOne l s).2 with ⟨e2, h2⟩
    refine ⟨e1 ++ e2, ?_⟩
    rw [show (namesLookupList l (s :: rest)).2 =
          (namesLookupList (namesLookupOne l s).2 rest).2 from rfl,
        h2, h1, List.append_assoc]

theorem applyNamesOps_extends (l : List String) (ops : List NamesOp) :
    ∃ ext, applyNamesOps l ops = l ++ ext := by
  induction ops generalizing l with
  | nil => exact ⟨[], by simp [applyNamesOps]⟩
  | cons op rest ih =>
    have hop : ∃ e, applyNamesOp l op = l ++ e := by
      cases op with
      | one s => exact namesLookupOne_extends l s
      | many ss => exact namesLookupList_extends l ss
    rcases hop with ⟨e1, h1⟩
    rcases ih (applyNamesOp l op) with ⟨e2, h2⟩
    refine ⟨e1 ++ e2, ?_⟩
    rw [show applyNamesOps l (op :: rest) =
          applyNamesOps (applyNamesOp l op) rest from rfl,
        h2, h1, List.append_assoc]

/-- C8.  Name interning round-trip and stability: a first lookup of `s`
(over any prior table contents) assigns an id `i`; after any further
sequence of interning operations, `query` still answers `i`, a repeated
`lookup` returns the same `i` without changing anything for `s`,
`get_name_string i` returns `s` itself, and distinct strings never share
an id. -/
theorem C8_names_round_trip :
    (∀ (l : List String) (s : String) (ops : List NamesOp),
      namesQuery (namesLookupOne l s).2 s = some (namesLookupOne l s).1 ∧
      namesQuery (applyNamesOps (namesLookupOne l s).2 ops) s =
        some (namesLookupOne l s).1 ∧
      (namesLookupOne (applyNamesOps (namesLookupOne l s).2 ops) s).1 =
        (namesLookupOne l s).1 ∧
      namesGetString (applyNamesOps (namesLookupOne l s).2 ops)
        (namesLookupOne l s).1 = some s) ∧
    (∀ (l : List String) (s t : String) (i : Nat),
      namesQuery l s = some i → namesQuery l t = some i → s = t) := by
  constructor
  · intro l s ops
    have hq := namesLookupOne_query l s
    rcases applyNamesOps_extends (namesLookupOne l s).2 ops with ⟨ext, hext⟩
    have hmem := namesLookupOne_mem l s
    have hq' : namesQuery (applyNamesOps (namesLookupOne l s).2 ops) s =
        some (namesLookupOne l s).1 := by
      rw [hext, namesQuery_append_of_mem hmem, hq]
    have hmem' : s ∈ applyNamesOps (namesLookupOne l s).2 ops := by
      rw [hext]; exact List.mem_append.mpr (Or.inl hmem)
    exact ⟨hq, hq', namesLookupOne_fst_of_query hmem' hq',
           namesGetString_of_query hq'⟩
  · intro l s t i hs ht
    exact namesQuery_inj hs ht

/-- Closed instance of C8 discharging its hypotheses: `i = j` forces the
two strings to coincide on a concrete table. -/
theorem C8_names_round_trip_witness :
    namesQuery ["a", "b"] "b" = some 1 ∧ namesQuery ["a", "b"] "b" = some 1 ∧
    "b" = "b" :=
  ⟨by decide, by decide,
    C8_names_round_trip.2 ["a", "b"] "b" "b" 1 (by decide) (by decide)⟩

/-! ## C9 : complete_current_line is a pure snapshot -/

theorem completeLineLoop_none (line : List Char) (file : List Char) :
    completeLineLoop line none file = line := by
  cases file <;> rfl

theorem completeLineLoop_spec (file : List Char) :
    ∀ (line : List Char) (ch : Char),
      completeLineLoop line (some ch) file =
        line ++ (ch :: file).takeWhile (· ≠ '\n') := by
  induction file with
  | nil =>
    intro line ch
    by_cases h : ch = '\n' <;> simp [completeLineLoop, h, List.takeWhile]
  | cons f fs ih =>
    intro line ch
    by_cases h : ch = '\n'
    · simp [completeLineLoop, h, List.takeWhile]
    · simp only [completeLineLoop, if_neg h, ih]
      simp [List.takeWhile, h]

/-- C9.  Snapshot purity: `complete_current_line` returns the full text of
the line containing the current scan position (current line buffer plus
the unread rest of the line) paired with the column where the previous
token ended, and restores the scanner state exactly, so every subsequent
`get_symbol` behaves as if it had never been called. -/
theorem C9_complete_current_line_pure :
    ∀ s : ScannerSt,
      (complete_current_line s).2 = s ∧
      (complete_current_line s).1.1 = lineSnapshotSpec s ∧
      (complete_current_line s).1.2 = s.curLine.length ∧
      ∀ fuel : Nat, get_symbol fuel (complete_current_line s).2 =
        get_symbol fuel s := by
  intro s
  have hframe : (complete_current_line s).2 = s := rfl
  have hline : (complete_current_line s).1.1 = lineSnapshotSpec s := by
    cases h : s.cur with
    | none =>
      simp [complete_current_line, lineSnapshotSpec, h, completeLineLoop_none]
    | some ch =>
      simp [complete_current_line, lineSnapshotSpec, h,
            completeLineLoop_spec s.input s.curLine ch]
  exact ⟨hframe, hline, rfl, fun fuel => by rw [hframe]⟩

/-! ## C4 : the unterminated-comment check at input `/*/` -/

/-- C4 probe.  On the three-character input `/*/` the remaining input
after the opening `/*` contains no terminator, yet `skip_comment` reports
outcome 1 (complete comment), `get_symbol` returns the EOF token instead
of the unterminated-comment SYNTAX_ERROR token, and the whole parse
reports EMPTY_FILE: the opening `*` is reused as the first half of the
terminator because `previous_character` starts as the opener itself. -/
theorem C4_unterminated_comment_slash_star_slash :
    (skip_comment 10 (initScanner ['/', '*', '/'])).map Prod.fst = some 1 ∧
    (get_symbol 10 (initScanner ['/', '*', '/'])).map (fun r => r.1.1) =
      some SymbolType.EOF ∧
    (runParse ['/', '*', '/'] true).map (fun r => (r.1, r.2.errorTuples)) =
      some (false, [(ErrorCode.EMPTY_FILE, 1, 3)]) := by
  refine ⟨by decide, by decide, by decide⟩

/-! ## Scanner utility lemmas -/

theorem pyIsAlpha_eq_false_of_digit {c : Char} (h : pyIsDigit c = true) :
    pyIsAlpha c = false := by
  simp only [pyIsDigit, Char.isDigit, Bool.and_eq_true, decide_eq_true_eq] at h
  have h1 : 48 ≤ c.val.toNat := h.1
  have h2 : c.val.toNat ≤ 57 := h.2
  simp only [pyIsAlpha, Char.isAlpha, Char.isUpper, Char.isLower,
    Bool.or_eq_false_iff, Bool.and_eq_false_iff, decide_eq_false_iff_not,
    not_le]
  constructor
  · left
    intro hc
    have hc' : 65 ≤ c.val.toNat := hc
    omega
  · left
    intro hc
    have hc' : 97 ≤ c.val.toNat := hc
    omega

theorem pyIsSpace_eq_false_of_digit {c : Char} (h : pyIsDigit c = true) :
    pyIsSpace c = false := by
  simp only [pyIsDigit, Char.isDigit, Bool.and_eq_true, decide_eq_true_eq] at h
  have h1 : 48 ≤ c.val.toNat := h.1
  have h2 : c.val.toNat ≤ 57 := h.2
  simp only [pyIsSpace, Bool.or_eq_false_iff, decide_eq_false_iff_not]
  refine ⟨⟨⟨⟨⟨?_, ?_⟩, ?_⟩, ?_⟩, ?_⟩, ?_⟩ <;>
    · intro hc
      subst hc
      exact absurd h1 (by decide)

theorem advance_cur (s : ScannerSt) : (advance s).cur = s.input.head? := by
  unfold advance
  cases s.cur with
  | none => cases s.input <;> simp
  | some c => by_cases h : c = '\n' <;> cases s.input <;> simp [h]

theorem advance_input (s : ScannerSt) : (advance s).input = s.input.tail := by
  unfold advance
  cases s.cur with
  | none => cases s.input <;> simp
  | some c => by_cases h : c = '\n' <;> cases s.input <;> simp [h]

theorem advance_names (s : ScannerSt) : (advance s).names = s.names := by
  unfold advance
  cases s.cur with
  | none => cases s.input <;> simp
  | some c => by_cases h : c = '\n' <;> cases s.input <;> simp [h]

theorem skip_spaces_not_space {fuel : Nat} {s : ScannerSt} {c : Char}
    (hc : s.cur = some c) (hns : pyIsSpace c = false) :
    skip_spaces (fuel + 1) s = some s := by
  simp [skip_spaces, hc, hns]

theorem read_digits_spec : ∀ (fuel : Nat) (s : ScannerSt) (ds : List Char)
    (s' : ScannerSt), read_digits fuel s = some (ds, s') →
    ds = maximalDigits s ∧ s'.names = s.names := by
  intro fuel
  induction fuel with
  | zero => intro s ds s' h; simp [read_digits] at h
  | succ f ih =>
    intro s ds s' h
    cases hcur : s.cur with
    | none =>
      rw [read_digits, hcur] at h
      simp at h
      simp [maximalDigits, hcur, h.1.symm, h.2.symm]
    | some c =>
      by_cases hd : pyIsDigit c
      · rw [read_digits, hcur] at h
        simp only [hd, if_pos] at h
        cases hrd : read_digits f (advance s) with
        | none => rw [hrd] at h; simp at h
        | some pr =>
          obtain ⟨rest, s₂⟩ := pr
          rw [hrd] at h
          simp at h
          obtain ⟨hds, hs₂⟩ := h
          have hrec := ih (advance s) rest s₂ hrd
          have hmd : maximalDigits (advance s) = s.input.takeWhile pyIsDigit := by
            rw [maximalDigits, advance_cur, advance_input]
            cases s.input with
            | nil => simp
            | cons d r =>
              by_cases hdd : pyIsDigit d <;> simp [List.takeWhile, hdd]
          constructor
          · rw [← hds, hrec.1, hmd, maximalDigits, hcur]
            simp [hd]
          · rw [← hs₂, hrec.2, advance_names]
      · rw [read_digits, hcur] at h
        simp only [hd] at h
        simp at h
        simp [maximalDigits, hcur, hd, h.1.symm, h.2.symm]

/-! ## C6 : malformed numbers -/

/-- C6.  Malformed-number lexing and reporting: starting at a digit, the
scanner accumulates the maximal digit string; with a leading zero and
length greater than one `get_symbol` yields the leading-zero SYNTAX_ERROR
token (carrying the id of "Number starting with 0"), otherwise a NUMBER
token holding the literal value; and the full parse of
`(DEVICE A B are NAND 007)` reports exactly one diagnostic, BAD_NUMBER at
line 1, column 24. -/
theorem C6_malformed_number :
    (∀ (fuel : Nat) (s : ScannerSt) (c : Char) (tok : SymbolType × Nat)
        (s₂ : ScannerSt),
      s.cur = some c → pyIsDigit c = true →
      get_symbol fuel s = some (tok, s₂) →
      if c = '0' ∧ s.input.takeWhile pyIsDigit ≠ [] then
        tok.1 = SymbolType.SYNTAX_ERROR ∧
          namesQuery s.names "Number starting with 0" = some tok.2
      else tok = (SymbolType.NUMBER,
                  digitsToNat (c :: s.input.takeWhile pyIsDigit))) ∧
    (runParse "(DEVICE A B are NAND 007)".toList true).map
        (fun r => (r.1, r.2.errorTuples, r.2.errorCount)) =
      some (false, [(ErrorCode.BAD_NUMBER, 1, 24)], 1) := by
  constructor
  · intro fuel s c tok s₂ hc hd h
    match fuel with
    | 0 => simp [get_symbol] at h
    | F + 1 =>
      rw [get_symbol] at h
      match F with
      | 0 => simp [skip_spaces] at h
      | g + 1 =>
        rw [skip_spaces_not_space hc (pyIsSpace_eq_false_of_digit hd)] at h
        simp only [Option.bind_eq_bind, Option.some_bind, hc,
          pyIsAlpha_eq_false_of_digit hd, hd, Bool.false_eq_true, if_false,
          if_true, reduceIte] at h
        unfold get_number at h
        cases hrd : read_digits (g + 1) s with
        | none => rw [hrd] at h; simp at h
        | some pr =>
          obtain ⟨ds, s'⟩ := pr
          rw [hrd] at h
          have hspec := read_digits_spec _ _ _ _ hrd
          have hds : ds = c :: s.input.takeWhile pyIsDigit := by
            rw [hspec.1, maximalDigits, hc]
            simp [hd]
          subst hds
          simp only [Option.bind_eq_bind, Option.some_bind] at h
          by_cases hz : c = '0' ∧ s.input.takeWhile pyIsDigit ≠ []
          · rw [if_pos hz]
            rw [if_pos hz] at h
            simp only [Option.bind_eq_bind, Option.some_bind, reduceIte] at h
            cases hq : namesQuery s'.names "Number starting with 0" with
            | none => simp [hq] at h
            | some i =>
              simp only [hq] at h
              have : tok = (SymbolType.SYNTAX_ERROR, i) := by
                simp at h
                exact h.1.symm
              rw [this]
              exact ⟨rfl, by rw [← hspec.2, hq]⟩
          · rw [if_neg hz]
            rw [if_neg hz] at h
            have hne : (digitsToNat (c :: s.input.takeWhile pyIsDigit) : Int)
                ≠ -1 := by
              simp
            simp only [Option.bind_eq_bind, Option.some_bind, hne, if_false,
              reduceIte] at h
            simp at h
            exact h.1.symm
  · decide

/-- Closed instance of C6 discharging its hypotheses at the input `007`:
the maximal digit string has a leading zero, so the token is the
leading-zero SYNTAX_ERROR token (id 20). -/
theorem C6_malformed_number_witness :
    if '0' = '0' ∧ "07".toList.takeWhile pyIsDigit ≠ [] then
      (SymbolType.SYNTAX_ERROR, 20).1 = SymbolType.SYNTAX_ERROR ∧
        namesQuery (initScanner "007".toList).names "Number starting with 0" =
          some (SymbolType.SYNTAX_ERROR, 20).2
    else
      (SymbolType.SYNTAX_ERROR, 20) =
        (SymbolType.NUMBER,
         digitsToNat ('0' :: "07".toList.takeWhile pyIsDigit)) :=
  C6_malformed_number.1 10 (initScanner "007".toList) '0'
    (SymbolType.SYNTAX_ERROR, 20)
    ((get_symbol 10 (initScanner "007".toList)).getD
      ((SymbolType.EOF, 1), initScanner [])).2
    (by decide) (by decide) (by decide)

/-! ## Names preservation along the scanner -/

theorem skip_spaces_names : ∀ (fuel : Nat) (s s' : ScannerSt),
    skip_spaces fuel s = some s' → s'.names = s.names := by
  intro fuel
  induction fuel with
  | zero => intro s s' h; simp [skip_spaces] at h
  | succ f ih =>
    intro s s' h
    cases hcur : s.cur with
    | none => rw [skip_spaces, hcur] at h; simp at h; rw [h]
    | some c =>
      rw [skip_spaces, hcur] at h
      by_cases hsp : pyIsSpace c
      · simp only [hsp, if_pos] at h
        rw [ih (advance s) s' h, advance_names]
      · simp only [hsp] at h
        simp at h
        rw [h]

theorem skip_line_comment_names : ∀ (fuel : Nat) (s s' : ScannerSt),
    skip_line_comment fuel s = some s' → s'.names = s.names := by
  intro fuel
  induction fuel with
  | zero => intro s s' h; simp [skip_line_comment] at h
  | succ f ih =>
    intro s s' h
    cases hcur : s.cur with
    | none => rw [skip_line_comment, hcur] at h; simp at h; rw [h]
    | some c =>
      rw [skip_line_comment, hcur] at h
      by_cases hnl : c = '\n'
      · simp only [hnl, if_pos] at h
        simp at h
        rw [h]
      · simp only [hnl, if_neg, if_false, reduceIte] at h
        rw [ih (advance s) s' h, advance_names]

theorem skip_comment_star_props : ∀ (fuel : Nat) (prev : Option Char)
    (s : ScannerSt) (r : Nat) (s' : ScannerSt),
    skip_comment_star fuel prev s = some (r, s') →
    s'.names = s.names ∧ (r = 2 → s'.cur = none ∧ s'.input = []) := by
  intro fuel
  induction fuel with
  | zero => intro prev s r s' h; simp [skip_comment_star] at h
  | succ f ih =>
    intro prev s r s' h
    rw [skip_comment_star] at h
    by_cases hdone : prev = some '*' ∧ s.cur = some '/'
    · rw [if_pos hdone] at h
      simp at h
      obtain ⟨h1, h2⟩ := h
      subst h2
      exact ⟨advance_names s, fun h2 => absurd h1.symm (by omega)⟩
    · rw [if_neg hdone] at h
      by_cases hend : (advance s).cur = none
      · simp only [hend, if_pos, reduceIte] at h
        simp at h
        obtain ⟨h1, h2⟩ := h
        subst h2
        refine ⟨advance_names s, fun _ => ⟨hend, ?_⟩⟩
        have := advance_cur s
        rw [hend] at this
        cases hin : s.input with
        | nil => rw [advance_input, hin]; rfl
        | cons a as => rw [hin] at this; simp at this
      · simp only [hend, if_neg, if_false, reduceIte] at h
        have := ih s.cur (advance s) r s' h
        exact ⟨by rw [this.1, advance_names], this.2⟩

theorem skip_comment_props {fuel : Nat} {s : ScannerSt} {r : Nat}
    {s' : ScannerSt} (h : skip_comment fuel s = some (r, s')) :
    s'.names = s.names ∧ (r = 2 → s'.cur = none ∧ s'.input = []) := by
  rw [skip_comment] at h
  by_cases h3 : (advance s).cur ≠ some '/' ∧ (advance s).cur ≠ some '*'
  · rw [if_pos h3] at h
    simp at h
    obtain ⟨h1, h2⟩ := h
    subst h2
    exact ⟨advance_names s, fun h2 => absurd h1.symm (by omega)⟩
  · rw [if_neg h3] at h
    by_cases hsl : (advance s).cur = some '/'
    · rw [if_pos hsl] at h
      cases hlc : skip_line_comment fuel (advance s) with
      | none => rw [hlc] at h; simp at h
      | some s2 =>
        rw [hlc] at h
        simp at h
        obtain ⟨h1, h2⟩ := h
        subst h2
        refine ⟨?_, fun h2 => absurd h1.symm (by omega)⟩
        rw [skip_line_comment_names _ _ _ hlc, advance_names]
    · rw [if_neg hsl] at h
      have hprops := skip_comment_star_props fuel (some '*')
        (advance (advance s)) r s' h
      exact ⟨by rw [hprops.1, advance_names, advance_names], hprops.2⟩

theorem initScanner_names (inp : List Char) :
    (initScanner inp).names = initNames := by
  unfold initScanner
  rw [advance_names]
  rfl

/-- A SYNTAX_ERROR token with the unterminated-comment id (21, over the
initial names table) is only produced at end of input, with the scanner
exhausted and the names table untouched. -/
theorem get_symbol_unterminated : ∀ (fuel : Nat) (s s' : ScannerSt),
    s.names = initNames →
    get_symbol fuel s = some ((SymbolType.SYNTAX_ERROR, 21), s') →
    s'.cur = none ∧ s'.input = [] ∧ s'.names = initNames := by
  intro fuel
  induction fuel with
  | zero => intro s s' hn h; simp [get_symbol] at h
  | succ f ih =>
    intro s s' hn h
    rw [get_symbol] at h
    cases hss : skip_spaces f s with
    | none => rw [hss] at h; simp at h
    | some s1 =>
      rw [hss] at h
      simp only [Option.bind_eq_bind, Option.some_bind] at h
      have hn1 : s1.names = initNames := by
        rw [skip_spaces_names f s s1 hss, hn]
      cases hcur : s1.cur with
      | none => rw [hcur] at h; simp at h
      | some c =>
        rw [hcur] at h
        by_cases ha : pyIsAlpha c
        · simp only [ha, if_true, reduceIte] at h
          cases hgn : get_name f s1 with
          | none => rw [hgn] at h; simp at h
          | some pr =>
            obtain ⟨nm, s2⟩ := pr
            rw [hgn] at h
            simp only [Option.bind_eq_bind, Option.some_bind] at h
            by_cases hk : String.mk nm ∈ keywordsList
            · simp only [hk, if_true, reduceIte] at h
              cases hq : namesQuery s2.names (String.mk nm) with
              | none => rw [hq] at h; simp at h
              | some i => rw [hq] at h; simp at h
            · simp only [hk, if_false, reduceIte] at h
              simp at h
        · by_cases hd : pyIsDigit c
          · simp only [ha, hd, Bool.false_eq_true, if_false, if_true,
              reduceIte] at h
            unfold get_number at h
            cases hrd : read_digits f s1 with
            | none => rw [hrd] at h; simp at h
            | some pr =>
              obtain ⟨ds, s2⟩ := pr
              rw [hrd] at h
              have hn2 : s2.names = initNames := by
                rw [(read_digits_spec f s1 ds s2 hrd).2, hn1]
              cases ds with
              | nil => simp at h
              | cons d rest =>
                simp only [Option.bind_eq_bind, Option.some_bind] at h
                by_cases hz : d = '0' ∧ rest ≠ []
                · rw [if_pos hz] at h
                  simp only [Option.bind_eq_bind, Option.some_bind,
                    reduceIte] at h
                  rw [hn2, show namesQuery initNames "Number starting with 0" =
                      some 20 from by decide] at h
                  simp at h
                · rw [if_neg hz] at h
                  have hne : ((digitsToNat (d :: rest) : Int)) ≠ -1 := by simp
                  simp only [Option.bind_eq_bind, Option.some_bind, hne,
                    if_false, reduceIte] at h
                  simp at h
          · by_cases hp : c = '(' ∨ c = ')' ∨ c = '.'
            · simp only [ha, hd, hp, Bool.false_eq_true, if_false, if_true,
                reduceIte] at h
              cases hq : namesQuery s1.names (String.mk [c]) with
              | none => rw [hq] at h; simp at h
              | some i => rw [hq] at h; simp at h
            · by_cases hsl : c = '/'
              · subst hsl
                simp only [ha, hd, hp, Bool.false_eq_true, if_false,
                  if_true, reduceIte] at h
                cases hsc : skip_comment f s1 with
                | none =>
                  rw [hsc] at h
                  simp only [Option.bind_eq_bind, Option.none_bind] at h
                  cases h
                | some pr =>
                  obtain ⟨r, s2⟩ := pr
                  rw [hsc] at h
                  have hprops := skip_comment_props hsc
                  have hn2 : s2.names = initNames := by
                    rw [hprops.1, hn1]
                  simp only [Option.bind_eq_bind, Option.some_bind] at h
                  by_cases hr1 : r = 1
                  · simp only [hr1, reduceIte] at h
                    exact ih s2 s' hn2 h
                  · by_cases hr2 : r = 2
                    · simp only [hr1, hr2, if_false, reduceIte] at h
                      rw [hn2, show namesQuery initNames
                          "Unterminated comment" = some 21 from by decide] at h
                      simp at h
                      subst h
                      exact ⟨(hprops.2 hr2).1, (hprops.2 hr2).2, hn2⟩
                    · simp only [hr1, hr2, if_false, reduceIte] at h
                      rw [hn2, show namesQuery initNames
                          "Unrecogonized character" = some 19 from by decide]
                        at h
                      simp at h
              · simp only [ha, hd, hp, hsl, Bool.false_eq_true, if_false,
                  reduceIte] at h
                rw [hn1, show namesQuery initNames "Unrecogonized character" =
                    some 19 from by decide] at h
                simp at h

theorem skip_spaces_at_none {fuel : Nat} {s : ScannerSt} (hc : s.cur = none)
    (hf : 1 ≤ fuel) : skip_spaces fuel s = some s := by
  match fuel, hf with
  | f + 1, _ => rw [skip_spaces, hc]

/-- At end of input `get_symbol` returns the EOF token and leaves the
scanner untouched. -/
theorem get_symbol_at_eof {fuel : Nat} {s : ScannerSt} (hc : s.cur = none)
    (hf : 2 ≤ fuel) : get_symbol fuel s = some ((SymbolType.EOF, 1), s) := by
  match fuel, hf with
  | f + 2, _ =>
    rw [get_symbol, skip_spaces_at_none hc (by omega)]
    simp only [Option.bind_eq_bind, Option.some_bind]
    rw [hc]

theorem complete_current_line_snd (s : ScannerSt) :
    (complete_current_line s).2 = s := rfl

/-- After a first token that is the unterminated-comment SYNTAX_ERROR, the
statement loop reports exactly one BAD_COMMENT diagnostic and stops at the
EOF that follows. -/
theorem parseLoop_unterminated_first (F : Nat) (p : ParserSt)
    (hsym : p.symbolType = some SymbolType.SYNTAX_ERROR)
    (hid : p.symbolId = 21)
    (hnm : p.scanner.names = initNames)
    (hcur : p.scanner.cur = none)
    (hov : p.lastErrorPosOverwrite = false)
    (htm : p.testMode = true) :
    parseLoop (F + 4) p = some
      { p with errorCode := ErrorCode.NO_ERROR,
               symbolType := some SymbolType.EOF, symbolId := 1,
               lastErrorPos := p.scanner.curLine.length,
               lastErrorLinum := p.scanner.lineNum,
               errorCount := p.errorCount + 1,
               errorTuples := p.errorTuples ++ [(ErrorCode.BAD_COMMENT,
                 p.scanner.lineNum, (complete_current_line p.scanner).1.2)] } := by
  rw [parseLoop]
  have heof : is_EOF p = false := by simp [is_EOF, hsym]
  rw [heof]
  have hlp : is_left_paren p = false := by simp [is_left_paren, hsym]
  have hstmt : statement (F + 3) p =
      some (false, { p with errorCode := ErrorCode.EXPECT_LEFT_PAREN }) := by
    rw [statement]
    simp [hlp]
  rw [hstmt]
  simp only [Option.bind_eq_bind, Option.some_bind, Bool.false_eq_true,
    if_false, reduceIte]
  have hname : namesGetString initNames 21 = some "Unterminated comment" := by
    decide
  simp only [hsym, hid]
  simp [reclassify, is_target_name, ParserSt.nameString, hnm, hname,
    error_display, htm, hov, complete_current_line_snd]
  rw [recoveryLoop]
  simp only [is_left_paren, is_EOF]
  simp only [move_to_next_symbol, get_symbol_at_eof hcur
    (by omega : 2 ≤ F + 2), Option.bind_eq_bind, Option.some_bind]
  rw [recoveryLoop]
  simp only [is_left_paren, is_EOF]
  simp only [decide_False, decide_True, false_and, Bool.not_false,
    Bool.not_true, and_true, and_false, if_true, if_false, reduceIte,
    Option.bind_eq_bind, Option.some_bind]
  simp [parseLoop, is_EOF]

/-- C3.  EMPTY_FILE versus BAD_COMMENT: if the first scanned token is EOF,
`parse_network` reports exactly one EMPTY_FILE diagnostic and fails; if
the first token is the unterminated-comment SYNTAX_ERROR token,
`parse_network` reports exactly one BAD_COMMENT diagnostic (never
EMPTY_FILE) and fails. -/
theorem C3_empty_file_vs_bad_comment :
    (∀ (inp : List Char) (fuel : Nat) (i : Nat) (s' : ScannerSt),
      get_symbol fuel (initScanner inp) = some ((SymbolType.EOF, i), s') →
      ∃ p', parse_network fuel (initParserSt inp true) = some (false, p') ∧
        p'.errorCount = 1 ∧
        ∃ ln ps, p'.errorTuples = [(ErrorCode.EMPTY_FILE, ln, ps)]) ∧
    (∀ (inp : List Char) (fuel : Nat) (s' : ScannerSt),
      4 ≤ fuel →
      get_symbol fuel (initScanner inp) =
        some ((SymbolType.SYNTAX_ERROR, 21), s') →
      ∃ p', parse_network fuel (initParserSt inp true) = some (false, p') ∧
        p'.errorCount = 1 ∧
        ∃ ln ps, p'.errorTuples = [(ErrorCode.BAD_COMMENT, ln, ps)]) := by
  constructor
  · intro inp fuel i s' h
    unfold parse_network move_to_next_symbol
    rw [show (initParserSt inp true).scanner = initScanner inp from rfl, h]
    simp only [Option.bind_eq_bind, Option.some_bind]
    simp only [is_EOF, initParserSt, reduceIte, error_display, if_true]
    refine ⟨_, rfl, ?_, ?_⟩
    · rfl
    · exact ⟨_, _, rfl⟩
  · intro inp fuel s' hf h
    obtain ⟨hcur, hinp, hnm⟩ := get_symbol_unterminated fuel (initScanner inp)
      s' (initScanner_names inp) h
    match fuel, hf with
    | F + 4, _ =>
      unfold parse_network move_to_next_symbol
      rw [show (initParserSt inp true).scanner = initScanner inp from rfl, h]
      simp only [Option.bind_eq_bind, Option.some_bind]
      simp only [is_EOF, initParserSt, reduceCtorEq, Option.some.injEq,
        reduceIte, if_false]
      rw [parseLoop_unterminated_first F
        { scanner := s', symbolType := some SymbolType.SYNTAX_ERROR,
          symbolId := 21, errorCode := ErrorCode.NO_ERROR, errorCount := 0,
          lastErrorPosOverwrite := false,
          lastErrorPos := (initScanner inp).curLine.length,
          lastErrorLinum := (initScanner inp).lineNum, testMode := true,
          errorTuples := [], printedDiagnostics := 0, devices := [],
          driven := [], monitorsDict := [], deviceLocations := [],
          connectLocations := [], monitorLocations := [], deviceId := 0,
          portId := none } rfl rfl hnm hcur rfl rfl]
      simp only [decide_False, if_false, Option.bind_eq_bind,
        Option.some_bind, Bool.false_eq_true, Nat.reduceAdd, reduceIte,
        gt_iff_lt, Nat.zero_lt_one, Nat.lt_irrefl, List.nil_append]
      exact ⟨_, rfl, rfl, _, _, rfl⟩

/-- Closed instance of C3 discharging its hypotheses: an empty file
reports EMPTY_FILE; the lone unterminated comment `/*x` reports
BAD_COMMENT. -/
theorem C3_empty_file_vs_bad_comment_witness :
    (∃ p', parse_network 5 (initParserSt [] true) = some (false, p') ∧
      p'.errorCount = 1 ∧
      ∃ ln ps, p'.errorTuples = [(ErrorCode.EMPTY_FILE, ln, ps)]) ∧
    (∃ p', parse_network 8 (initParserSt "/*x".toList true) =
        some (false, p') ∧
      p'.errorCount = 1 ∧
      ∃ ln ps, p'.errorTuples = [(ErrorCode.BAD_COMMENT, ln, ps)]) :=
  ⟨C3_empty_file_vs_bad_comment.1 [] 5 1 (initScanner []) (by decide),
   C3_empty_file_vs_bad_comment.2 "/*x".toList 8
     ((get_symbol 8 (initScanner "/*x".toList)).getD
       ((SymbolType.EOF, 1), initScanner [])).2
     (by omega) (by decide)⟩

/-! ## C7 : qualifier partition -/

/-- C7.  Qualifier partition: after a qualified device-type keyword
(CLOCK, SWITCH, AND, NAND, OR, NOR, RC) the next token must be a NUMBER —
otherwise `get_device_type` fails with EXPECT_QUALIFIER; after an
unqualified type (DTYPE, XOR, NOT) a NUMBER is an error
(EXPECT_NO_QUALIFIER); when the Device Registry rejects a (kind,
qualifier) pair the device loop reports INVALID_QUALIFIER, keeping the
recorded qualifier-token position and setting the position-overwrite flag
so the diagnostic points at the qualifier; and the full parse of
`(DEVICE A is NAND 0)` reports INVALID_QUALIFIER at line 1, column 19
(the end of the qualifier token). -/
theorem C7_qualifier_partition :
    (∀ (fuel : Nat) (p mid : ParserSt) (K : String) (dk : DeviceKind)
        (r : Option (DeviceKind × Option Nat)) (p' : ParserSt),
      is_keyword p = true → p.nameString = some K →
      device_with_qualifier K = some dk →
      move_to_next_symbol fuel p = some mid →
      get_device_type fuel p = some (r, p') →
      (is_number mid = false → r = none ∧
        p'.errorCode = ErrorCode.EXPECT_QUALIFIER ∧
        p'.lastErrorPosOverwrite = true) ∧
      (is_number mid = true → r = some (dk, some mid.symbolId))) ∧
    (∀ (fuel : Nat) (p mid : ParserSt) (K : String) (dk : DeviceKind)
        (r : Option (DeviceKind × Option Nat)) (p' : ParserSt),
      is_keyword p = true → p.nameString = some K →
      device_no_qualifier K = some dk → device_with_qualifier K = none →
      move_to_next_symbol fuel p = some mid →
      get_device_type fuel p = some (r, p') →
      (is_number mid = true → r = none ∧
        p'.errorCode = ErrorCode.EXPECT_NO_QUALIFIER) ∧
      (is_number mid = false → r = some (dk, none))) ∧
    (∀ (dk : DeviceKind) (q : Option Nat) (ids : List Nat) (p p' : ParserSt),
      makeDevicesLoop dk q ids p = (false, p') →
      p'.errorCode = ErrorCode.INVALID_QUALIFIER ∧
      p'.lastErrorPosOverwrite = true ∧
      p'.lastErrorPos = p.lastErrorPos ∧
      p'.lastErrorLinum = p.lastErrorLinum ∧
      qualifierValid dk q = false) ∧
    (runParse "(DEVICE A is NAND 0)".toList true).map
        (fun r => (r.1, r.2.errorTuples)) =
      some (false, [(ErrorCode.INVALID_QUALIFIER, 1, 19)]) := by
  refine ⟨?_, ?_, ?_, by decide⟩
  · intro fuel p mid K dk r p' hkw hns hwq hmv h
    have hsym : p.symbolType = some SymbolType.KEYWORD := by
      simpa [is_keyword] using hkw
    have hrp : is_right_paren p = false := by simp [is_right_paren, hsym]
    rw [get_device_type] at h
    simp only [hrp, Bool.false_eq_true, if_false, is_keyword, hsym, hns, hwq,
      Option.some_bind, reduceIte, reduceCtorEq, Option.bind_eq_bind] at h
    rw [hmv] at h
    simp only [Option.bind_eq_bind, Option.some_bind] at h
    by_cases hn : is_number mid
    · simp only [hn, Bool.true_eq_false, if_true, reduceIte,
        Bool.not_true] at h
      cases hmv2 : move_to_next_symbol fuel mid with
      | none => rw [hmv2] at h; simp at h
      | some p2 =>
        rw [hmv2] at h
        simp at h
        exact ⟨fun hc => absurd hn (by simp [hc]), fun _ => h.1.symm⟩
    · simp only [hn, Bool.false_eq_true, if_false, reduceIte,
        Bool.not_false] at h
      simp at h
      refine ⟨fun _ => ⟨h.1.symm, ?_, ?_⟩, fun hc => absurd hc (by simp [hn])⟩
      · rw [← h.2]
      · rw [← h.2]
  · intro fuel p mid K dk r p' hkw hns hnq hwq hmv h
    have hsym : p.symbolType = some SymbolType.KEYWORD := by
      simpa [is_keyword] using hkw
    have hrp : is_right_paren p = false := by simp [is_right_paren, hsym]
    rw [get_device_type] at h
    simp only [hrp, Bool.false_eq_true, if_false, is_keyword, hsym, hns, hwq,
      hnq, Option.some_bind, reduceIte, reduceCtorEq, Option.bind_eq_bind] at h
    rw [hmv] at h
    simp only [Option.bind_eq_bind, Option.some_bind] at h
    by_cases hn : is_number mid
    · simp only [hn, if_true, reduceIte] at h
      simp at h
      exact ⟨fun _ => ⟨h.1.symm, by rw [← h.2]⟩,
             fun hc => absurd hn (by simp [hc])⟩
    · simp only [hn, Bool.false_eq_true, if_false, reduceIte] at h
      simp at h
      exact ⟨fun hc => absurd hc (by simp [hn]), fun _ => h.1.symm⟩
  · intro dk q ids
    induction ids with
    | nil => intro p p' h; simp [makeDevicesLoop] at h
    | cons d rest ih =>
      intro p p' h
      rw [makeDevicesLoop] at h
      unfold make_device at h
      by_cases hv : qualifierValid dk q
      · simp only [hv, if_true, reduceIte] at h
        have := ih _ _ h
        simpa using this
      · simp only [hv, Bool.false_eq_true, if_false, reduceIte] at h
        simp at h
        subst h
        simp [hv]

/-- Closed instance of C7 discharging its hypotheses: a NAND keyword
followed by the number 3 yields the qualified pair, and the registry
rejection of NAND with qualifier 0 yields INVALID_QUALIFIER with the
position kept. -/
theorem C7_qualifier_partition_witness :
    ((is_number ((move_to_next_symbol 10 (c7Base 7)).getD
        (initParserSt [] true)) = false →
      ((get_device_type 10 (c7Base 7)).getD
        (none, initParserSt [] true)).1 = none ∧
      (((get_device_type 10 (c7Base 7)).getD
        (none, initParserSt [] true)).2).errorCode =
          ErrorCode.EXPECT_QUALIFIER ∧
      (((get_device_type 10 (c7Base 7)).getD
        (none, initParserSt [] true)).2).lastErrorPosOverwrite = true) ∧
     (is_number ((move_to_next_symbol 10 (c7Base 7)).getD
        (initParserSt [] true)) = true →
      ((get_device_type 10 (c7Base 7)).getD
        (none, initParserSt [] true)).1 =
        some (DeviceKind.NAND, some ((move_to_next_symbol 10 (c7Base 7)).getD
          (initParserSt [] true)).symbolId))) ∧
    ((makeDevicesLoop DeviceKind.NAND (some 0) [5]
        (initParserSt [] true)).2.errorCode = ErrorCode.INVALID_QUALIFIER ∧
     (makeDevicesLoop DeviceKind.NAND (some 0) [5]
        (initParserSt [] true)).2.lastErrorPosOverwrite = true ∧
     (makeDevicesLoop DeviceKind.NAND (some 0) [5]
        (initParserSt [] true)).2.lastErrorPos =
       (initParserSt [] true).lastErrorPos ∧
     (makeDevicesLoop DeviceKind.NAND (some 0) [5]
        (initParserSt [] true)).2.lastErrorLinum =
       (initParserSt [] true).lastErrorLinum ∧
     qualifierValid DeviceKind.NAND (some 0) = false) :=
  ⟨C7_qualifier_partition.1 10 (c7Base 7)
      ((move_to_next_symbol 10 (c7Base 7)).getD (initParserSt [] true))
      "NAND" DeviceKind.NAND
      ((get_device_type 10 (c7Base 7)).getD (none, initParserSt [] true)).1
      ((get_device_type 10 (c7Base 7)).getD (none, initParserSt [] true)).2
      (by decide) (by decide) (by decide) (by decide) (by decide),
   C7_qualifier_partition.2.2.1 DeviceKind.NAND (some 0) [5]
      (initParserSt [] true)
      (makeDevicesLoop DeviceKind.NAND (some 0) [5] (initParserSt [] true)).2
      (by decide)⟩

/-! ## C1 : error precedence -/

/-- C1.  Error-precedence invariant: once `device`/`connect`/`monitor`
have failed leaving a specific error code, `statement` returns it
untouched — EMPTY_STATEMENT or INVALID_FUNCTION_NAME is assigned only
when the error code is still NO_ERROR; inside `connect`, a failed second
terminal yields EXPECT_DEVICE_TERMINAL_NAME only when the terminal
sub-rule set no more specific error, and otherwise the sub-rule's error
survives; and for `(CONNECT A.DATA to )` with `A` a declared DTYPE device
the single reported diagnostic is EXPECT_DEVICE_TERMINAL_NAME at line 2,
column 20, right after `to`. -/
theorem C1_error_precedence :
    (∀ (fuel : Nat) (p p0 p1 p2 p3 : ParserSt),
      is_left_paren p = true →
      move_to_next_symbol fuel p = some p0 →
      device fuel p0 = some (false, p1) →
      connect fuel p1 = some (false, p2) →
      monitor fuel p2 = some (false, p3) →
      (p3.errorCode ≠ ErrorCode.NO_ERROR →
        statement fuel p = some (false, p3)) ∧
      (p3.errorCode = ErrorCode.NO_ERROR →
        statement fuel p = some (false,
          { p3 with errorCode :=
              if is_right_paren p3 then ErrorCode.EMPTY_STATEMENT
              else ErrorCode.INVALID_FUNCTION_NAME }))) ∧
    (∀ (fuel : Nat) (q q0 q1 q2 q3 : ParserSt) (t1 : Nat × Option Nat),
      q.errorCode = ErrorCode.NO_ERROR →
      is_keyword q = true → is_target_name q "CONNECT" = true →
      move_to_next_symbol fuel q = some q0 →
      device_terminal fuel false q0 = some (some t1, q1) →
      is_keyword q1 = true → is_target_name q1 "to" = true →
      move_to_next_symbol fuel q1 = some q2 →
      device_terminal fuel false q2 = some (none, q3) →
      (q3.errorCode ≠ ErrorCode.NO_ERROR →
        connect fuel q = some (false, q3)) ∧
      (q3.errorCode = ErrorCode.NO_ERROR →
        connect fuel q = some (false,
          { q3 with errorCode := ErrorCode.EXPECT_DEVICE_TERMINAL_NAME }))) ∧
    (runParse "(DEVICE A is DTYPE)\n(CONNECT A.DATA to )".toList true).map
        (fun r => (r.1, r.2.errorTuples, r.2.errorCount)) =
      some (false, [(ErrorCode.EXPECT_DEVICE_TERMINAL_NAME, 2, 20)], 1) := by
  refine ⟨?_, ?_, by decide⟩
  · intro fuel p p0 p1 p2 p3 hlp hmv hdev hcon hmon
    have hbody : statement fuel p =
        (if p3.errorCode = ErrorCode.NO_ERROR then
          (if is_right_paren p3 = true then
            some (false, { p3 with errorCode := ErrorCode.EMPTY_STATEMENT })
           else
            some (false,
              { p3 with errorCode := ErrorCode.INVALID_FUNCTION_NAME }))
         else some (false, p3)) := by
      rw [statement, hlp]
      simp only [Bool.not_true, Bool.false_eq_true, if_false, if_true,
        reduceIte, Option.bind_eq_bind, Option.some_bind]
      rw [hmv]
      simp only [Option.bind_eq_bind, Option.some_bind]
      rw [hdev]
      simp only [Option.bind_eq_bind, Option.some_bind, Bool.false_eq_true,
        if_false, reduceIte]
      rw [hcon]
      simp only [Option.bind_eq_bind, Option.some_bind, Bool.false_eq_true,
        if_false, reduceIte]
      rw [hmon]
      simp only [Option.bind_eq_bind, Option.some_bind, Bool.false_eq_true,
        if_false, reduceIte, Bool.not_false, if_true]
      by_cases he3 : p3.errorCode = ErrorCode.NO_ERROR <;>
        by_cases hrp3 : is_right_paren p3 <;> simp [he3, hrp3]
    constructor
    · intro he3
      rw [hbody, if_neg he3]
    · intro he3
      rw [hbody, if_pos he3]
      by_cases hrp3 : is_right_paren p3 <;> simp [hrp3]
  · intro fuel q q0 q1 q2 q3 t1 he hkw htn hmv ht1 hkw2 hto hmv2 ht2
    have hbody : connect fuel q =
        (if q3.errorCode = ErrorCode.NO_ERROR then
          some (false,
            { q3 with errorCode := ErrorCode.EXPECT_DEVICE_TERMINAL_NAME })
         else some (false, q3)) := by
      rw [connect]
      simp only [he, hkw, htn, and_self, if_true, reduceIte, Bool.not_true,
        Bool.false_eq_true, if_false, ne_eq, not_true_eq_false,
        reduceCtorEq, not_false_eq_true, Option.bind_eq_bind,
        Option.some_bind]
      rw [hmv]
      simp only [Option.bind_eq_bind, Option.some_bind]
      rw [ht1]
      simp only [Option.bind_eq_bind, Option.some_bind, hkw2, hto, and_self,
        if_true, reduceIte, Bool.not_true, Bool.false_eq_true, if_false]
      rw [hmv2]
      simp only [Option.bind_eq_bind, Option.some_bind]
      rw [ht2]
      simp only [Option.bind_eq_bind, Option.some_bind]
      by_cases he3 : q3.errorCode = ErrorCode.NO_ERROR <;> simp [he3]
    constructor
    · intro he3
      rw [hbody, if_neg he3]
    · intro he3
      rw [hbody, if_pos he3]

/-- Closed instance of C1 discharging its hypotheses: on `(DEVICE )` the
inner EMPTY_DEVICE_LIST error survives `statement` unchanged, and with
`A` a declared DTYPE the failed second terminal of `CONNECT A.DATA to )`
yields EXPECT_DEVICE_TERMINAL_NAME because the sub-rule set no error. -/
theorem C1_error_precedence_witness :
    statement 20 c1P = some (false, c1P3) ∧
    connect 20 c1Q = some (false,
      { c1Q3 with errorCode := ErrorCode.EXPECT_DEVICE_TERMINAL_NAME }) :=
  ⟨(C1_error_precedence.1 20 c1P c1P0 c1P1 c1P2 c1P3 (by decide) (by decide)
      (by decide) (by decide) (by decide)).1 (by decide),
   (C1_error_precedence.2.1 20 c1Q c1Q0 c1Q1 c1Q2 c1Q3 (28, some 25)
      (by decide) (by decide) (by decide) (by decide) (by decide) (by decide)
      (by decide) (by decide) (by decide)).2 (by decide)⟩
theorem move_monitorsDict {fuel : Nat} {p p' : ParserSt}
    (h : move_to_next_symbol fuel p = some p') :
    p'.monitorsDict = p.monitorsDict := by
  unfold move_to_next_symbol at h
  cases hg : get_symbol fuel p.scanner with
  | none => rw [hg] at h; simp at h
  | some pr =>
    rw [hg] at h
    simp at h
    rw [← h]

theorem device_terminal_monitorsDict : ∀ (fuel : Nat) (mm : Bool)
    (p : ParserSt) (r : Option (Nat × Option Nat)) (p' : ParserSt),
    device_terminal fuel mm p = some (r, p') →
    p'.monitorsDict = p.monitorsDict := by
  intro fuel mm p r p' h
  unfold device_terminal at h
  split at h
  · simp at h
    rw [← h.2]
  · dsimp only at h
    split at h
    · simp at h
      rw [← h.2]
    · simp only [Option.bind_eq_bind] at h
      cases hmv : move_to_next_symbol fuel { p with deviceId := p.symbolId } with
      | none => rw [hmv] at h; simp at h
      | some pA =>
        rw [hmv] at h
        have hA := move_monitorsDict hmv
        simp only [Option.some_bind] at h
        split at h
        · -- is_dot branch
          cases hmv2 : move_to_next_symbol fuel pA with
          | none => rw [hmv2] at h; simp at h
          | some pB =>
            rw [hmv2] at h
            have hB := move_monitorsDict hmv2
            simp only [Option.some_bind] at h
            split at h
            · simp at h
              rw [← h.2]
              simpa [hB, hA] using rfl
            · split at h
              · simp at h
                rw [← h.2]
                simp [hB, hA]
              · split at h
                · simp at h
                  rw [← h.2]
                  simp [hB, hA]
                · split at h
                  · simp at h
                    rw [← h.2]
                    simp [hB, hA]
                  · simp only [Option.bind_eq_bind, Option.bind_eq_some] at h
                    obtain ⟨pC, hmv3, h⟩ := h
                    have hC := move_monitorsDict hmv3
                    by_cases hmm : mm = true <;> simp [hmm] at hC <;>
                      · simp at h
                        rw [← h.2, hC]
                        simp [hB, hA]
        · -- no-dot branch
          split at h
          · simp at h
            rw [← h.2]
            simp [hA]
          · split at h
            · split at h
              · simp at h
                rw [← h.2]
                simp [hA]
              · simp at h
                rw [← h.2]
                simp [hA]
            · simp at h
              rw [← h.2]
              simp [hA]
theorem make_monitor_subset (dict : List (Nat × Option Nat)) (d : Nat)
    (pt : Option Nat) : ∀ m ∈ dict, m ∈ (make_monitor dict d pt).2 := by
  intro m hm
  by_cases h : (d, pt) ∈ dict <;> simp [make_monitor, h, hm]

theorem monitorLoop_monotone : ∀ (fuel : Nat) (p : ParserSt) (b : Bool)
    (p' : ParserSt), monitorLoop fuel p = some (b, p') →
    ∀ m ∈ p.monitorsDict, m ∈ p'.monitorsDict := by
  intro fuel
  induction fuel with
  | zero => intro p b p' h; simp [monitorLoop] at h
  | succ f ih =>
    intro p b p' h
    rw [monitorLoop] at h
    simp only [Option.bind_eq_bind, Option.bind_eq_some] at h
    obtain ⟨⟨t, pA⟩, hdt, h⟩ := h
    have hA := device_terminal_monitorsDict f true p t pA hdt
    intro m hm
    cases t with
    | none =>
      try dsimp only at h
      split at h
      · simp at h
        rw [← h.2, hA]
        exact hm
      · simp at h
        rw [← h.2, hA]
        exact hm
    | some dp =>
      try dsimp only at h
      split at h
      · simp at h
        rw [← h.2, hA]
        exact hm
      · have hrec := ih _ _ _ h m
        simp only at hrec
        apply hrec
        exact make_monitor_subset pA.monitorsDict dp.1 dp.2 m (hA ▸ hm)

theorem monitor_monotone : ∀ (fuel : Nat) (p : ParserSt) (b : Bool)
    (p' : ParserSt), monitor fuel p = some (b, p') →
    ∀ m ∈ p.monitorsDict, m ∈ p'.monitorsDict := by
  intro fuel p b p' h m hm
  rw [monitor] at h
  split at h
  · simp at h
    rw [← h.2]
    exact hm
  · split at h
    · simp at h
      rw [← h.2]
      exact hm
    · simp only [Option.bind_eq_bind, Option.bind_eq_some] at h
      obtain ⟨pA, hmv, h⟩ := h
      have hA := move_monitorsDict hmv
      obtain ⟨⟨t, pB⟩, hdt, h⟩ := h
      have hB := device_terminal_monitorsDict fuel true pA t pB hdt
      have hm' : m ∈ pB.monitorsDict := by rw [hB, hA]; exact hm
      cases t with
      | none =>
        try dsimp only at h
        split at h
        · split at h
          · simp at h
            rw [← h.2]
            exact hm'
          · simp at h
            rw [← h.2]
            exact hm'
        · simp at h
          rw [← h.2]
          exact hm'
      | some dp =>
        try dsimp only at h
        split at h
        · simp at h
          rw [← h.2]
          exact hm'
        · exact monitorLoop_monotone fuel _ b p' h m
            (make_monitor_subset pB.monitorsDict dp.1 dp.2 m hm')

/-! ## C10 : MONITOR statements are not atomic -/

/-- C10.  MONITOR statements are not atomic: `monitor` registers each
accepted terminal immediately and never removes one, so every terminal in
the Monitors dictionary survives any later failure of the statement; in
particular, parsing `(DEVICE A B are XOR)` then `(MONITOR A B C)` fails
with DEVICE_UNDEFINED on `C` (line 2, column 14), yet the monitors for
`A` (id 22) and `B` (id 23) remain registered in the final state. -/
theorem C10_monitor_not_atomic :
    (∀ (fuel : Nat) (p : ParserSt) (b : Bool) (p' : ParserSt),
      monitor fuel p = some (b, p') →
      ∀ m ∈ p.monitorsDict, m ∈ p'.monitorsDict) ∧
    (runParse "(DEVICE A B are XOR)\n(MONITOR A B C)".toList true).map
        (fun r => (r.1, r.2.errorTuples, r.2.monitorsDict)) =
      some (false, [(ErrorCode.DEVICE_UNDEFINED, 2, 14)],
            [(22, none), (23, none)]) :=
  ⟨monitor_monotone, by rfl⟩

/-- Closed instance of C10 discharging its hypotheses: a monitor already
registered before the call is still registered afterwards. -/
theorem C10_monitor_not_atomic_witness :
    (5, (none : Option Nat)) ∈
      ((monitor 5 { dfltP with monitorsDict := [(5, none)] }).getD
        (false, dfltP)).2.monitorsDict :=
  C10_monitor_not_atomic.1 5 { dfltP with monitorsDict := [(5, none)] }
    false { dfltP with monitorsDict := [(5, none)] } (by decide)
    (5, none) (by decide)

/-! ## C5 : dual-mode diagnostic reporting -/

/-- C5 counterexample.  `(DEVICE A is NOT)` parses cleanly but leaves the
input `A.I1` unconnected: the post-check raises the error count to 1 and
fails the parse, yet in test mode the structured record list stays empty
and the summary is printed — refuting the claim that every diagnostic,
including the unconnected-inputs summary, is appended to the structured
list instead of being printed. -/
theorem C5_unconnected_not_recorded :
    (runParse "(DEVICE A is NOT)".toList true).map
        (fun r => (r.1, r.2.errorCount, r.2.errorTuples,
                   r.2.printedDiagnostics)) =
      some (false, 1, [], 1) := by
  rfl

/-- C5 (amended).  In test mode every diagnostic reported through
`error_display` is appended as an (error-kind, line, column) record and
nothing is printed, while in human mode it is printed and nothing is
recorded; the unconnected-inputs post-check contributes exactly one
diagnostic to the error count in both modes regardless of how many inputs
are unconnected — but it is printed directly even in test mode and never
appended to the structured list (shown here with one and with four
unconnected inputs, in both modes). -/
theorem C5_dual_mode_amended :
    (∀ p : ParserSt, p.testMode = true →
      ∃ ln ps, (error_display p).errorTuples =
          p.errorTuples ++ [(p.errorCode, ln, ps)] ∧
        (error_display p).printedDiagnostics = p.printedDiagnostics ∧
        (error_display p).errorCount = p.errorCount + 1) ∧
    (∀ p : ParserSt, p.testMode = false →
      (error_display p).errorTuples = p.errorTuples ∧
      (error_display p).printedDiagnostics = p.printedDiagnostics + 1 ∧
      (error_display p).errorCount = p.errorCount + 1) ∧
    (runParse "(DEVICE A is NOT)".toList true).map
        (fun r => (r.1, r.2.errorCount, r.2.errorTuples,
                   r.2.printedDiagnostics)) = some (false, 1, [], 1) ∧
    (runParse "(DEVICE A B are NAND 2)".toList true).map
        (fun r => (r.1, r.2.errorCount, r.2.errorTuples,
                   r.2.printedDiagnostics)) = some (false, 1, [], 1) ∧
    (runParse "(DEVICE A is NOT)".toList false).map
        (fun r => (r.1, r.2.errorCount, r.2.errorTuples,
                   r.2.printedDiagnostics)) = some (false, 1, [], 1) ∧
    (runParse "(DEVICE A B are NAND 2)".toList false).map
        (fun r => (r.1, r.2.errorCount, r.2.errorTuples,
                   r.2.printedDiagnostics)) = some (false, 1, [], 1) := by
  refine ⟨?_, ?_, by rfl, by rfl, by rfl, by rfl⟩
  · intro p htm
    unfold error_display
    by_cases hov : p.lastErrorPosOverwrite <;> simp [htm, hov]
  · intro p htm
    unfold error_display
    by_cases hov : p.lastErrorPosOverwrite <;> simp [htm, hov]

/-- Closed instance of the amended C5 discharging its hypotheses, at the
default state in each mode. -/
theorem C5_dual_mode_amended_witness :
    (∃ ln ps, (error_display dfltP).errorTuples =
        dfltP.errorTuples ++ [(dfltP.errorCode, ln, ps)] ∧
      (error_display dfltP).printedDiagnostics = dfltP.printedDiagnostics ∧
      (error_display dfltP).errorCount = dfltP.errorCount + 1) ∧
    ((error_display (initParserSt [] false)).errorTuples =
        (initParserSt [] false).errorTuples ∧
      (error_display (initParserSt [] false)).printedDiagnostics =
        (initParserSt [] false).printedDiagnostics + 1 ∧
      (error_display (initParserSt [] false)).errorCount =
        (initParserSt [] false).errorCount + 1) :=
  ⟨C5_dual_mode_amended.1 dfltP (by decide),
   C5_dual_mode_amended.2.1 (initParserSt [] false) (by decide)⟩

/-! ## C2 : termination and diagnostic bound — scanner layer -/

theorem wfSc_advance (s : ScannerSt) : wfSc (advance s) := by
  intro h
  rw [advance_cur] at h
  rw [advance_input]
  rcases hi : s.input with _ | ⟨c, r⟩
  · rfl
  · rw [hi] at h; simp at h

theorem meas_advance_le (s : ScannerSt) : meas (advance s) ≤ meas s := by
  unfold meas
  rw [advance_cur, advance_input]
  cases s.input with
  | nil => simp
  | cons c r => cases hc : s.cur <;> simp

theorem meas_advance_lt {s : ScannerSt} {c : Char} (h : s.cur = some c) :
    meas (advance s) < meas s := by
  unfold meas
  rw [advance_cur, advance_input, h]
  cases s.input with
  | nil => simp
  | cons d r => simp

theorem wfSc_initScanner (inp : List Char) : wfSc (initScanner inp) :=
  wfSc_advance _

theorem meas_initScanner (inp : List Char) :
    meas (initScanner inp) ≤ inp.length := by
  unfold initScanner
  have := meas_advance_le
    { input := inp, cur := none, curLine := [], lineNum := 0,
      prevLines := [], names := (namesLookupList
        (namesLookupList [] keywordsList).2 errorStringList).2 }
  simpa [meas] using this

theorem goodNames_initScanner (inp : List Char) : goodNames (initScanner inp) :=
  ⟨[], by rw [initScanner_names, List.append_nil]⟩

theorem initNames_expand : initNames = keywordsList ++ errorStringList := by
  decide

theorem goodNames_query {s : ScannerSt} {nm : String} (h : goodNames s)
    (hm : nm ∈ initNames) : ∃ i, namesQuery s.names nm = some i := by
  rcases h with ⟨ext, he⟩
  rw [he, namesQuery_append_of_mem hm]
  have hq : (namesQuery initNames nm).isSome := by
    simpa [namesQuery, hm] using namesIndex_isSome_of_mem hm
  exact Option.isSome_iff_exists.mp hq

theorem skip_spaces_run : ∀ (k : Nat) (s : ScannerSt), meas s ≤ k → wfSc s →
    ∃ s', wfSc s' ∧ s'.names = s.names ∧ meas s' ≤ meas s ∧
      ∀ fuel, meas s < fuel → skip_spaces fuel s = some s' := by
  intro k
  induction k with
  | zero =>
    intro s hk hw
    have hc : s.cur = none := by
      cases hc : s.cur with
      | none => rfl
      | some c => exfalso; unfold meas at hk; rw [hc] at hk; simp at hk
    refine ⟨s, hw, rfl, le_refl _, ?_⟩
    intro fuel hf
    cases fuel with
    | zero => omega
    | succ f => simp [skip_spaces, hc]
  | succ k ih =>
    intro s hk hw
    cases hc : s.cur with
    | none =>
      refine ⟨s, hw, rfl, le_refl _, ?_⟩
      intro fuel hf
      cases fuel with
      | zero => omega
      | succ f => simp [skip_spaces, hc]
    | some c =>
      by_cases hsp : pyIsSpace c
      · have hlt := meas_advance_lt hc
        obtain ⟨s', hw', hn', hm', hrun⟩ :=
          ih (advance s) (by omega) (wfSc_advance s)
        refine ⟨s', hw', by rw [hn', advance_names], by omega, ?_⟩
        intro fuel hf
        cases fuel with
        | zero => omega
        | succ f =>
          simp only [skip_spaces, hc, hsp, if_true]
          exact hrun f (by omega)
      · refine ⟨s, hw, rfl, le_refl _, ?_⟩
        intro fuel hf
        cases fuel with
        | zero => omega
        | succ f => simp [skip_spaces, hc, hsp]

theorem get_name_run : ∀ (k : Nat) (s : ScannerSt), meas s ≤ k → wfSc s →
    ∃ nm s', wfSc s' ∧ s'.names = s.names ∧ meas s' ≤ meas s ∧
      (∀ c, s.cur = some c → pyIsAlnum c = true → meas s' < meas s) ∧
      ∀ fuel, meas s < fuel → get_name fuel s = some (nm, s') := by
  intro k
  induction k with
  | zero =>
    intro s hk hw
    have hc : s.cur = none := by
      cases hc : s.cur with
      | none => rfl
      | some c => exfalso; unfold meas at hk; rw [hc] at hk; simp at hk
    refine ⟨[], s, hw, rfl, le_refl _, ?_, ?_⟩
    · intro c h _; simp [hc] at h
    · intro fuel hf
      cases fuel with
      | zero => omega
      | succ f => simp [get_name, hc]
  | succ k ih =>
    intro s hk hw
    cases hc : s.cur with
    | none =>
      refine ⟨[], s, hw, rfl, le_refl _, ?_, ?_⟩
      · intro c h _; simp [hc] at h
      · intro fuel hf
        cases fuel with
        | zero => omega
        | succ f => simp [get_name, hc]
    | some c =>
      by_cases hal : pyIsAlnum c
      · have hlt := meas_advance_lt hc
        obtain ⟨nm, s', hw', hn', hm', _, hrun⟩ :=
          ih (advance s) (by omega) (wfSc_advance s)
        refine ⟨c :: nm, s', hw', by rw [hn', advance_names], by omega,
          fun _ _ _ => by omega, ?_⟩
        intro fuel hf
        cases fuel with
        | zero => omega
        | succ f =>
          simp only [get_name, hc, hal, if_true]
          rw [Option.bind_eq_bind, hrun f (by omega)]
          rfl
      · refine ⟨[], s, hw, rfl, le_refl _, ?_, ?_⟩
        · intro d hd hdal
          injection hd with hcd
          subst hcd
          exact absurd hdal (by simpa using hal)
        · intro fuel hf
          cases fuel with
          | zero => omega
          | succ f => simp [get_name, hc, hal]

theorem read_digits_run : ∀ (k : Nat) (s : ScannerSt), meas s ≤ k → wfSc s →
    ∃ ds s', wfSc s' ∧ s'.names = s.names ∧ meas s' ≤ meas s ∧
      (∀ c, s.cur = some c → pyIsDigit c = true →
        meas s' < meas s ∧ ds ≠ []) ∧
      ∀ fuel, meas s < fuel → read_digits fuel s = some (ds, s') := by
  intro k
  induction k with
  | zero =>
    intro s hk hw
    have hc : s.cur = none := by
      cases hc : s.cur with
      | none => rfl
      | some c => exfalso; unfold meas at hk; rw [hc] at hk; simp at hk
    refine ⟨[], s, hw, rfl, le_refl _, ?_, ?_⟩
    · intro c h _; simp [hc] at h
    · intro fuel hf
      cases fuel with
      | zero => omega
      | succ f => simp [read_digits, hc]
  | succ k ih =>
    intro s hk hw
    cases hc : s.cur with
    | none =>
      refine ⟨[], s, hw, rfl, le_refl _, ?_, ?_⟩
      · intro c h _; simp [hc] at h
      · intro fuel hf
        cases fuel with
        | zero => omega
        | succ f => simp [read_digits, hc]
    | some c =>
      by_cases hdg : pyIsDigit c
      · have hlt := meas_advance_lt hc
        obtain ⟨ds, s', hw', hn', hm', _, hrun⟩ :=
          ih (advance s) (by omega) (wfSc_advance s)
        refine ⟨c :: ds, s', hw', by rw [hn', advance_names], by omega,
          fun _ _ _ => ⟨by omega, by simp⟩, ?_⟩
        intro fuel hf
        cases fuel with
        | zero => omega
        | succ f =>
          simp only [read_digits, hc, hdg, if_true]
          rw [Option.bind_eq_bind, hrun f (by omega)]
          rfl
      · refine ⟨[], s, hw, rfl, le_refl _, ?_, ?_⟩
        · intro d hd hddg
          injection hd with hcd
          subst hcd
          exact absurd hddg hdg
        · intro fuel hf
          cases fuel with
          | zero => omega
          | succ f => simp [read_digits, hc, hdg]

theorem get_number_run (s : ScannerSt) (c : Char) (hw : wfSc s)
    (hc : s.cur = some c) (hd : pyIsDigit c = true) :
    ∃ v s', wfSc s' ∧ s'.names = s.names ∧ meas s' < meas s ∧
      ∀ fuel, meas s < fuel → get_number fuel s = some (v, s') := by
  obtain ⟨ds, s', hw', hn', hm', hstrict, hrun⟩ :=
    read_digits_run (meas s) s (le_refl _) hw
  obtain ⟨hlt, hne⟩ := hstrict c hc hd
  rcases hds : ds with _ | ⟨d, rest⟩
  · exact absurd hds hne
  rw [hds] at hrun
  refine ⟨if d = '0' ∧ rest ≠ [] then -1
          else (digitsToNat (d :: rest) : Int), s', hw', hn', hlt, ?_⟩
  intro fuel hf
  unfold get_number
  rw [Option.bind_eq_bind, hrun fuel hf]
  simp only [Option.some_bind]
  split <;> rfl

theorem skip_line_comment_run : ∀ (k : Nat) (s : ScannerSt), meas s ≤ k →
    wfSc s →
    ∃ s', wfSc s' ∧ s'.names = s.names ∧ meas s' ≤ meas s ∧
      ∀ fuel, meas s < fuel → skip_line_comment fuel s = some s' := by
  intro k
  induction k with
  | zero =>
    intro s hk hw
    have hc : s.cur = none := by
      cases hc : s.cur with
      | none => rfl
      | some c => exfalso; unfold meas at hk; rw [hc] at hk; simp at hk
    refine ⟨s, hw, rfl, le_refl _, ?_⟩
    intro fuel hf
    cases fuel with
    | zero => omega
    | succ f => simp [skip_line_comment, hc]
  | succ k ih =>
    intro s hk hw
    cases hc : s.cur with
    | none =>
      refine ⟨s, hw, rfl, le_refl _, ?_⟩
      intro fuel hf
      cases fuel with
      | zero => omega
      | succ f => simp [skip_line_comment, hc]
    | some c =>
      by_cases hnl : c = '\n'
      · refine ⟨s, hw, rfl, le_refl _, ?_⟩
        intro fuel hf
        cases fuel with
        | zero => omega
        | succ f => simp [skip_line_comment, hc, hnl]
      · have hlt := meas_advance_lt hc
        obtain ⟨s', hw', hn', hm', hrun⟩ :=
          ih (advance s) (by omega) (wfSc_advance s)
        refine ⟨s', hw', by rw [hn', advance_names], by omega, ?_⟩
        intro fuel hf
        cases fuel with
        | zero => omega
        | succ f =>
          simp only [skip_line_comment, hc]
          rw [if_neg hnl]
          exact hrun f (by omega)

theorem skip_comment_star_run : ∀ (k : Nat) (prev : Option Char)
    (s : ScannerSt), meas s ≤ k → wfSc s →
    ∃ r s', wfSc s' ∧ s'.names = s.names ∧ meas s' ≤ meas s ∧
      ∀ fuel, meas s < fuel → skip_comment_star fuel prev s = some (r, s') := by
  intro k
  induction k with
  | zero =>
    intro prev s hk hw
    have hc : s.cur = none := by
      cases hc : s.cur with
      | none => rfl
      | some c => exfalso; unfold meas at hk; rw [hc] at hk; simp at hk
    have hin : s.input = [] := hw hc
    have hg : ¬ (prev = some '*' ∧ s.cur = some '/') := by
      rintro ⟨-, h2⟩; rw [hc] at h2; cases h2
    have hcur' : (advance s).cur = none := by
      rw [advance_cur, hin]; rfl
    refine ⟨2, advance s, wfSc_advance s, advance_names s,
      meas_advance_le s, ?_⟩
    intro fuel hf
    cases fuel with
    | zero => omega
    | succ f =>
      unfold skip_comment_star
      rw [if_neg hg]
      dsimp only
      rw [if_pos hcur']
  | succ k ih =>
    intro prev s hk hw
    by_cases hg : prev = some '*' ∧ s.cur = some '/'
    · refine ⟨1, advance s, wfSc_advance s, advance_names s,
        meas_advance_le s, ?_⟩
      intro fuel hf
      cases fuel with
      | zero => omega
      | succ f =>
        unfold skip_comment_star
        rw [if_pos hg]
    · by_cases hcur' : (advance s).cur = none
      · refine ⟨2, advance s, wfSc_advance s, advance_names s,
          meas_advance_le s, ?_⟩
        intro fuel hf
        cases fuel with
        | zero => omega
        | succ f =>
          unfold skip_comment_star
          rw [if_neg hg]
          dsimp only
          rw [if_pos hcur']
      · have hcsome : ∃ c, s.cur = some c := by
          cases hcs : s.cur with
          | some c => exact ⟨c, rfl⟩
          | none =>
            exfalso
            apply hcur'
            rw [advance_cur, hw hcs]
            rfl
        obtain ⟨c, hcs⟩ := hcsome
        have hlt := meas_advance_lt hcs
        obtain ⟨r, s', hw', hn', hm', hrun⟩ :=
          ih s.cur (advance s) (by omega) (wfSc_advance s)
        refine ⟨r, s', hw', by rw [hn', advance_names], by omega, ?_⟩
        intro fuel hf
        cases fuel with
        | zero => omega
        | succ f =>
          unfold skip_comment_star
          rw [if_neg hg]
          dsimp only
          rw [if_neg hcur']
          exact hrun f (by omega)

theorem skip_comment_run (s : ScannerSt) (c : Char) (hw : wfSc s)
    (hc : s.cur = some c) :
    ∃ r s', wfSc s' ∧ s'.names = s.names ∧ meas s' < meas s ∧
      ∀ fuel, meas s < fuel → skip_comment fuel s = some (r, s') := by
  have hlt1 := meas_advance_lt hc
  by_cases h3 : (advance s).cur ≠ some '/' ∧ (advance s).cur ≠ some '*'
  · refine ⟨3, advance s, wfSc_advance s, advance_names s, hlt1, ?_⟩
    intro fuel hf
    unfold skip_comment
    rw [if_pos h3]
  · by_cases hsl : (advance s).cur = some '/'
    · obtain ⟨s2, hw2, hn2, hm2, hrun2⟩ :=
        skip_line_comment_run (meas (advance s)) (advance s) (le_refl _)
          (wfSc_advance s)
      refine ⟨1, s2, hw2, by rw [hn2, advance_names], by omega, ?_⟩
      intro fuel hf
      unfold skip_comment
      rw [if_neg h3, if_pos hsl, Option.bind_eq_bind, hrun2 fuel (by omega)]
      rfl
    · have hlt2 := meas_advance_le (advance s)
      obtain ⟨r, s2, hw2, hn2, hm2, hrun2⟩ :=
        skip_comment_star_run (meas (advance (advance s))) (some '*')
          (advance (advance s)) (le_refl _) (wfSc_advance _)
      refine ⟨r, s2, hw2,
        by rw [hn2, advance_names, advance_names], by omega, ?_⟩
      intro fuel hf
      unfold skip_comment
      rw [if_neg h3, if_neg hsl]
      exact hrun2 fuel (by omega)

theorem meas_pos_of_cur {s : ScannerSt} {c : Char} (h : s.cur = some c) :
    1 ≤ meas s := by
  unfold meas; rw [h]; simp

theorem goodNames_extend {s s' : ScannerSt} (hg : goodNames s)
    (hn : s'.names = s.names) : goodNames s' := by
  rcases hg with ⟨e, he⟩; exact ⟨e, by rw [hn, he]⟩

theorem get_symbol_run : ∀ (k : Nat) (s : ScannerSt), meas s ≤ k → wfSc s →
    goodNames s →
    ∃ t i s', wfSc s' ∧ goodNames s' ∧ meas s' ≤ meas s ∧
      (t ≠ SymbolType.EOF → meas s' < meas s) ∧
      (t = SymbolType.EOF → meas s' = 0) ∧
      ∀ fuel, meas s + 1 < fuel → get_symbol fuel s = some ((t, i), s') := by
  intro k
  induction k with
  | zero =>
    intro s hk hw hg
    obtain ⟨s1, hw1, hn1, hm1, hrun1⟩ :=
      skip_spaces_run (meas s) s (le_refl _) hw
    have hc1 : s1.cur = none := by
      cases hc : s1.cur with
      | none => rfl
      | some c => exact absurd (meas_pos_of_cur hc) (by omega)
    refine ⟨SymbolType.EOF, 1, s1, hw1, goodNames_extend hg hn1, hm1,
      fun h => absurd rfl h, fun _ => by omega, ?_⟩
    intro fuel hf
    cases fuel with
    | zero => omega
    | succ f =>
      have e1 := hrun1 f (by omega)
      simp [get_symbol, e1, hc1]
  | succ k ih =>
    intro s hk hw hg
    obtain ⟨s1, hw1, hn1, hm1, hrun1⟩ :=
      skip_spaces_run (meas s) s (le_refl _) hw
    have hg1 : goodNames s1 := goodNames_extend hg hn1
    cases hc1 : s1.cur with
    | none =>
      have hm0 : meas s1 = 0 := by simp [meas, hw1 hc1, hc1]
      refine ⟨SymbolType.EOF, 1, s1, hw1, hg1, hm1,
        fun h => absurd rfl h, fun _ => hm0, ?_⟩
      intro fuel hf
      cases fuel with
      | zero => omega
      | succ f =>
        have e1 := hrun1 f (by omega)
        simp [get_symbol, e1, hc1]
    | some c =>
      have hc1le := meas_pos_of_cur hc1
      by_cases hal : pyIsAlpha c
      · -- a name or keyword
        obtain ⟨nm, s2, hw2, hn2, hm2, hstr2, hrun2⟩ :=
          get_name_run (meas s1) s1 (le_refl _) hw1
        have hlt2 : meas s2 < meas s1 :=
          hstr2 c hc1 (by simp [pyIsAlnum, hal])
        have hg2 : goodNames s2 := goodNames_extend hg1 hn2
        by_cases hkw : String.mk nm ∈ keywordsList
        · have hmem : String.mk nm ∈ initNames := by
            rw [initNames_expand]; exact List.mem_append_left _ hkw
          obtain ⟨i, hq⟩ := goodNames_query hg2 hmem
          refine ⟨SymbolType.KEYWORD, i, s2, hw2, hg2, by omega,
            fun _ => by omega, fun h => by simp at h, ?_⟩
          intro fuel hf
          cases fuel with
          | zero => omega
          | succ f =>
            have e1 := hrun1 f (by omega)
            have e2 := hrun2 f (by omega)
            simp [get_symbol, e1, hc1, hal, e2, hkw, hq]
        · obtain ⟨ext, hext⟩ := namesLookupOne_extends s2.names (String.mk nm)
          have hmeq : meas { s2 with
              names := (namesLookupOne s2.names (String.mk nm)).2 } =
              meas s2 := rfl
          have hgx : goodNames { s2 with
              names := (namesLookupOne s2.names (String.mk nm)).2 } := by
            rcases hg2 with ⟨e, he⟩
            refine ⟨e ++ ext, ?_⟩
            show (namesLookupOne s2.names (String.mk nm)).2 = _
            rw [hext, he, List.append_assoc]
          refine ⟨SymbolType.NAME, (namesLookupOne s2.names (String.mk nm)).1,
            { s2 with names := (namesLookupOne s2.names (String.mk nm)).2 },
            hw2, hgx, by omega, fun _ => by omega,
            fun h => by simp at h, ?_⟩
          intro fuel hf
          cases fuel with
          | zero => omega
          | succ f =>
            have e1 := hrun1 f (by omega)
            have e2 := hrun2 f (by omega)
            simp [get_symbol, e1, hc1, hal, e2, hkw]
      · by_cases hdg : pyIsDigit c
        · -- a number or a leading-zero error
          obtain ⟨v, s2, hw2, hn2, hlt2, hrun2⟩ :=
            get_number_run s1 c hw1 hc1 hdg
          have hg2 : goodNames s2 := goodNames_extend hg1 hn2
          by_cases hv : v = -1
          · obtain ⟨i, hq⟩ := goodNames_query hg2
              (show "Number starting with 0" ∈ initNames by decide)
            refine ⟨SymbolType.SYNTAX_ERROR, i, s2, hw2, hg2, by omega,
              fun _ => by omega, fun h => by simp at h, ?_⟩
            intro fuel hf
            cases fuel with
            | zero => omega
            | succ f =>
              have e1 := hrun1 f (by omega)
              have e2 := hrun2 f (by omega)
              simp [get_symbol, e1, hc1, hal, hdg, e2, hv, hq]
          · refine ⟨SymbolType.NUMBER, v.toNat, s2, hw2, hg2, by omega,
              fun _ => by omega, fun h => by simp at h, ?_⟩
            intro fuel hf
            cases fuel with
            | zero => omega
            | succ f =>
              have e1 := hrun1 f (by omega)
              have e2 := hrun2 f (by omega)
              simp [get_symbol, e1, hc1, hal, hdg, e2, hv]
        · by_cases hp : c = '(' ∨ c = ')' ∨ c = '.'
          · -- punctuation
            have hmem : String.mk [c] ∈ initNames := by
              rcases hp with h | h | h <;> subst h <;> decide
            obtain ⟨i, hq⟩ := goodNames_query hg1 hmem
            refine ⟨SymbolType.PUNCTUATION, i, advance s1, wfSc_advance s1,
              goodNames_extend hg1 (advance_names s1),
              by have := meas_advance_lt hc1; omega,
              fun _ => by have := meas_advance_lt hc1; omega,
              fun h => by simp at h, ?_⟩
            intro fuel hf
            cases fuel with
            | zero => omega
            | succ f =>
              have e1 := hrun1 f (by omega)
              simp [get_symbol, e1, hc1, hal, hdg, hp, hq]
          · by_cases hsl : c = '/'
            · -- a comment or a slash error
              subst hsl
              obtain ⟨r, s2, hw2, hn2, hlt2, hrun2⟩ :=
                skip_comment_run s1 _ hw1 hc1
              have hg2 : goodNames s2 := goodNames_extend hg1 hn2
              by_cases hr1 : r = 1
              · -- comment skipped: scan again
                obtain ⟨t, i, s3, hw3, hg3, hm3, _, hmz3, hrun3⟩ :=
                  ih s2 (by omega) hw2 hg2
                refine ⟨t, i, s3, hw3, hg3, by omega,
                  fun _ => by omega, hmz3, ?_⟩
                intro fuel hf
                cases fuel with
                | zero => omega
                | succ f =>
                  have e1 := hrun1 f (by omega)
                  have e2 := hrun2 f (by omega)
                  have e3 := hrun3 f (by omega)
                  simp [get_symbol, e1, hc1, hal, hdg, hp, e2, hr1, e3]
              · by_cases hr2 : r = 2
                · obtain ⟨i, hq⟩ := goodNames_query hg2
                    (show "Unterminated comment" ∈ initNames by decide)
                  refine ⟨SymbolType.SYNTAX_ERROR, i, s2, hw2, hg2, by omega,
                    fun _ => by omega, fun h => by simp at h, ?_⟩
                  intro fuel hf
                  cases fuel with
                  | zero => omega
                  | succ f =>
                    have e1 := hrun1 f (by omega)
                    have e2 := hrun2 f (by omega)
                    simp [get_symbol, e1, hc1, hal, hdg, hp, e2, hr1,
                      hr2, hq]
                · obtain ⟨i, hq⟩ := goodNames_query hg2
                    (show "Unrecogonized character" ∈ initNames by decide)
                  refine ⟨SymbolType.SYNTAX_ERROR, i, s2, hw2, hg2, by omega,
                    fun _ => by omega, fun h => by simp at h, ?_⟩
                  intro fuel hf
                  cases fuel with
                  | zero => omega
                  | succ f =>
                    have e1 := hrun1 f (by omega)
                    have e2 := hrun2 f (by omega)
                    simp [get_symbol, e1, hc1, hal, hdg, hp, e2, hr1,
                      hr2, hq]
            · -- unrecognized character
              obtain ⟨i, hq⟩ := goodNames_query hg1
                (show "Unrecogonized character" ∈ initNames by decide)
              refine ⟨SymbolType.SYNTAX_ERROR, i, advance s1, wfSc_advance s1,
                goodNames_extend hg1 (advance_names s1),
                by have := meas_advance_lt hc1; omega,
                fun _ => by have := meas_advance_lt hc1; omega,
                fun h => by simp at h, ?_⟩
              intro fuel hf
              cases fuel with
              | zero => omega
              | succ f =>
                have e1 := hrun1 f (by omega)
                simp [get_symbol, e1, hc1, hal, hdg, hp, hsl, hq]

theorem tokenCountF_succ (fuel : Nat) (s : ScannerSt) :
    tokenCountF (fuel + 1) s = (get_symbol fuel s).bind (fun x =>
      match x with
      | ((t, _), s') =>
        if t = SymbolType.EOF then some 1
        else (tokenCountF fuel s').bind (fun n => some (n + 1))) := rfl

theorem tokenCount_run : ∀ (k : Nat) (s : ScannerSt), meas s ≤ k → wfSc s →
    goodNames s →
    1 ≤ tokenCount s ∧
    (∀ fuel, meas s + 2 < fuel → tokenCountF fuel s = some (tokenCount s)) ∧
    (∀ fuel t i s', meas s + 1 < fuel →
      get_symbol fuel s = some ((t, i), s') →
      tokenCount s = if t = SymbolType.EOF then 1 else tokenCount s' + 1) := by
  intro k
  induction k with
  | zero =>
    intro s hk hw hg
    obtain ⟨t, i, s', hw', hg', hm', hstrict, -, hrun⟩ :=
      get_symbol_run 0 s (by omega) hw hg
    by_cases ht : t = SymbolType.EOF
    · have h1 : tokenCountF (meas s + 3) s = some 1 := by
        have e := hrun (meas s + 2) (by omega)
        simp [tokenCountF, e, ht]
      have htc : tokenCount s = 1 := by unfold tokenCount; rw [h1]; rfl
      refine ⟨by omega, ?_, ?_⟩
      · intro fuel hf
        cases fuel with
        | zero => omega
        | succ f =>
          have e := hrun f (by omega)
          simp [tokenCountF, e, ht, htc]
      · intro fuel t' i' s'' hf' hgs
        rw [hrun fuel hf'] at hgs
        simp only [Option.some.injEq, Prod.mk.injEq] at hgs
        obtain ⟨⟨rfl, rfl⟩, rfl⟩ := hgs
        rw [if_pos ht, htc]
    · exact absurd (hstrict ht) (by omega)
  | succ k ih =>
    intro s hk hw hg
    obtain ⟨t, i, s', hw', hg', hm', hstrict, -, hrun⟩ :=
      get_symbol_run (k + 1) s hk hw hg
    by_cases ht : t = SymbolType.EOF
    · have h1 : tokenCountF (meas s + 3) s = some 1 := by
        have e := hrun (meas s + 2) (by omega)
        simp [tokenCountF, e, ht]
      have htc : tokenCount s = 1 := by unfold tokenCount; rw [h1]; rfl
      refine ⟨by omega, ?_, ?_⟩
      · intro fuel hf
        cases fuel with
        | zero => omega
        | succ f =>
          have e := hrun f (by omega)
          simp [tokenCountF, e, ht, htc]
      · intro fuel t' i' s'' hf' hgs
        rw [hrun fuel hf'] at hgs
        simp only [Option.some.injEq, Prod.mk.injEq] at hgs
        obtain ⟨⟨rfl, rfl⟩, rfl⟩ := hgs
        rw [if_pos ht, htc]
    · have hlt := hstrict ht
      obtain ⟨hpos', hrunF', _⟩ := ih s' (by omega) hw' hg'
      have hstep : ∀ f, meas s + 1 < f →
          tokenCountF (f + 1) s = some (tokenCount s' + 1) := by
        intro f hfx
        rw [tokenCountF_succ, hrun f hfx]
        simp only [Option.some_bind]
        simp [ht, hrunF' f (by omega)]
      have htc : tokenCount s = tokenCount s' + 1 := by
        unfold tokenCount
        rw [show meas s + 3 = meas s + 2 + 1 from rfl,
          hstep (meas s + 2) (by omega)]
        rfl
      refine ⟨by omega, ?_, ?_⟩
      · intro fuel hf
        cases fuel with
        | zero => omega
        | succ f => rw [hstep f (by omega), htc]
      · intro fuel t' i' s'' hf' hgs
        rw [hrun fuel hf'] at hgs
        simp only [Option.some.injEq, Prod.mk.injEq] at hgs
        obtain ⟨⟨rfl, rfl⟩, rfl⟩ := hgs
        rw [if_neg ht, htc]

/-! The scanner's control flow never depends on the names table: every
helper commutes with replacing the table, and `get_symbol` returns the
same token type and position from any table extending the initial one. -/

theorem advance_setNames (s : ScannerSt) (l : List String) :
    advance { s with names := l } = { advance s with names := l } := by
  unfold advance
  cases hc : s.cur with
  | none => cases hi : s.input <;> simp [hc, hi]
  | some c =>
    by_cases hnl : c = '\n' <;> cases hi : s.input <;> simp [hc, hi, hnl]

theorem skip_spaces_setNames : ∀ (fuel : Nat) (s : ScannerSt)
    (l : List String), skip_spaces fuel { s with names := l } =
      (skip_spaces fuel s).map (fun s' => { s' with names := l }) := by
  intro fuel
  induction fuel with
  | zero => intro s l; rfl
  | succ f ih =>
    intro s l
    obtain ⟨inp, cur, cl, ln, pl, nm⟩ := s
    cases cur with
    | none => simp [skip_spaces]
    | some c =>
      by_cases hsp : pyIsSpace c
      · simp only [skip_spaces, hsp, if_true]
        rw [advance_setNames ⟨inp, some c, cl, ln, pl, nm⟩ l,
          ih (advance ⟨inp, some c, cl, ln, pl, nm⟩) l]
      · simp [skip_spaces, hsp]

theorem get_name_setNames : ∀ (fuel : Nat) (s : ScannerSt) (l : List String),
    get_name fuel { s with names := l } =
      (get_name fuel s).map (fun r => (r.1, { r.2 with names := l })) := by
  intro fuel
  induction fuel with
  | zero => intro s l; rfl
  | succ f ih =>
    intro s l
    obtain ⟨inp, cur, cl, ln, pl, nm⟩ := s
    cases cur with
    | none => simp [get_name]
    | some c =>
      by_cases hal : pyIsAlnum c
      · simp only [get_name, hal, if_true]
        rw [advance_setNames ⟨inp, some c, cl, ln, pl, nm⟩ l,
          ih (advance ⟨inp, some c, cl, ln, pl, nm⟩) l]
        cases get_name f (advance ⟨inp, some c, cl, ln, pl, nm⟩) with
        | none => rfl
        | some r => rfl
      · simp [get_name, hal]

theorem read_digits_setNames : ∀ (fuel : Nat) (s : ScannerSt)
    (l : List String), read_digits fuel { s with names := l } =
      (read_digits fuel s).map (fun r => (r.1, { r.2 with names := l })) := by
  intro fuel
  induction fuel with
  | zero => intro s l; rfl
  | succ f ih =>
    intro s l
    obtain ⟨inp, cur, cl, ln, pl, nm⟩ := s
    cases cur with
    | none => simp [read_digits]
    | some c =>
      by_cases hdg : pyIsDigit c
      · simp only [read_digits, hdg, if_true]
        rw [advance_setNames ⟨inp, some c, cl, ln, pl, nm⟩ l,
          ih (advance ⟨inp, some c, cl, ln, pl, nm⟩) l]
        cases read_digits f (advance ⟨inp, some c, cl, ln, pl, nm⟩) with
        | none => rfl
        | some r => rfl
      · simp [read_digits, hdg]

theorem get_number_setNames (fuel : Nat) (s : ScannerSt) (l : List String) :
    get_number fuel { s with names := l } =
      (get_number fuel s).map (fun r => (r.1, { r.2 with names := l })) := by
  unfold get_number
  rw [read_digits_setNames fuel s l]
  cases read_digits fuel s with
  | none => rfl
  | some r =>
    rcases r with ⟨ds, s'⟩
    cases ds with
    | nil => rfl
    | cons d rest =>
      by_cases hz : d = '0' ∧ rest ≠ [] <;> simp [hz]

theorem skip_line_comment_setNames : ∀ (fuel : Nat) (s : ScannerSt)
    (l : List String), skip_line_comment fuel { s with names := l } =
      (skip_line_comment fuel s).map (fun s' => { s' with names := l }) := by
  intro fuel
  induction fuel with
  | zero => intro s l; rfl
  | succ f ih =>
    intro s l
    obtain ⟨inp, cur, cl, ln, pl, nm⟩ := s
    cases cur with
    | none => simp [skip_line_comment]
    | some c =>
      by_cases hnl : c = '\n'
      · simp [skip_line_comment, hnl]
      · simp only [skip_line_comment, hnl, if_false]
        rw [advance_setNames ⟨inp, some c, cl, ln, pl, nm⟩ l,
          ih (advance ⟨inp, some c, cl, ln, pl, nm⟩) l]

theorem skip_comment_star_setNames : ∀ (fuel : Nat) (prev : Option Char)
    (s : ScannerSt) (l : List String),
    skip_comment_star fuel prev { s with names := l } =
      (skip_comment_star fuel prev s).map
        (fun r => (r.1, { r.2 with names := l })) := by
  intro fuel
  induction fuel with
  | zero => intro prev s l; rfl
  | succ f ih =>
    intro prev s l
    unfold skip_comment_star
    dsimp only
    by_cases hg : prev = some '*' ∧ s.cur = some '/'
    · rw [if_pos hg, if_pos hg, advance_setNames s l]
      rfl
    · rw [if_neg hg, if_neg hg, advance_setNames s l]
      by_cases he : (advance s).cur = none
      · rw [if_pos he, if_pos he]
        rfl
      · rw [if_neg he, if_neg he, ih s.cur (advance s) l]

theorem skip_comment_setNames (fuel : Nat) (s : ScannerSt) (l : List String) :
    skip_comment fuel { s with names := l } =
      (skip_comment fuel s).map (fun r => (r.1, { r.2 with names := l })) := by
  unfold skip_comment
  dsimp only
  rw [advance_setNames s l]
  by_cases h3 : (advance s).cur ≠ some '/' ∧ (advance s).cur ≠ some '*'
  · rw [if_pos h3, if_pos h3]
    rfl
  · rw [if_neg h3, if_neg h3]
    by_cases hsl : (advance s).cur = some '/'
    · rw [if_pos hsl, if_pos hsl,
        skip_line_comment_setNames fuel (advance s) l]
      cases skip_line_comment fuel (advance s) with
      | none => rfl
      | some s2 => rfl
    · rw [if_neg hsl, if_neg hsl, advance_setNames (advance s) l,
        skip_comment_star_setNames fuel (some '*') (advance (advance s)) l]

theorem namesQuery_isSome_init {nm : String} (hmem : nm ∈ initNames) :
    (namesQuery initNames nm).isSome := by
  simpa [namesQuery, hmem] using namesIndex_isSome_of_mem hmem

theorem get_symbol_setNames : ∀ (fuel : Nat) (s : ScannerSt)
    (l : List String) (t : SymbolType) (i : Nat) (s' : ScannerSt),
    (∃ ext, l = initNames ++ ext) →
    get_symbol fuel s = some ((t, i), s') →
    ∃ i' l', (∃ ext', l' = l ++ ext') ∧
      get_symbol fuel { s with names := l } =
        some ((t, i'), { s' with names := l' }) := by
  intro fuel
  induction fuel with
  | zero => intro s l t i s' hl h; cases h
  | succ f ih =>
    intro s l t i s' hl h
    simp only [get_symbol, Option.bind_eq_bind, Option.bind_eq_some] at h
    obtain ⟨s1, hs1, h⟩ := h
    simp only [get_symbol, Option.bind_eq_bind]
    rw [skip_spaces_setNames f s l, hs1]
    simp only [Option.map_some', Option.some_bind]
    obtain ⟨in1, cu1, cl1, ln1, pl1, nm1⟩ := s1
    cases cu1 with
    | none =>
      dsimp only at h ⊢
      simp only [Option.some.injEq, Prod.mk.injEq] at h
      obtain ⟨⟨rfl, rfl⟩, rfl⟩ := h
      exact ⟨1, l, ⟨[], by simp⟩, rfl⟩
    | some c =>
      dsimp only at h ⊢
      by_cases hal : pyIsAlpha c
      · -- name or keyword
        simp only [hal, if_true] at h ⊢
        rw [Option.bind_eq_some] at h
        obtain ⟨⟨nm, s2⟩, hgn, h⟩ := h
        rw [get_name_setNames f ⟨in1, some c, cl1, ln1, pl1, nm1⟩ l, hgn]
        simp only [Option.map_some', Option.some_bind]
        dsimp only at h ⊢
        by_cases hkw : String.mk nm ∈ keywordsList
        · simp only [hkw, if_true] at h ⊢
          cases hq : namesQuery s2.names (String.mk nm) with
          | none => rw [hq] at h; cases h
          | some j =>
            rw [hq] at h
            simp only [Option.some.injEq, Prod.mk.injEq] at h
            obtain ⟨⟨rfl, rfl⟩, rfl⟩ := h
            have hmem : String.mk nm ∈ initNames := by
              rw [initNames_expand]; exact List.mem_append_left _ hkw
            obtain ⟨ext, rfl⟩ := hl
            obtain ⟨j', hj'⟩ :=
              Option.isSome_iff_exists.mp (namesQuery_isSome_init hmem)
            rw [namesQuery_append_of_mem hmem, hj']
            exact ⟨j', initNames ++ ext, ⟨[], by simp⟩, rfl⟩
        · simp only [hkw, if_false] at h ⊢
          simp only [Option.some.injEq, Prod.mk.injEq] at h
          obtain ⟨⟨rfl, rfl⟩, rfl⟩ := h
          obtain ⟨ext', hext'⟩ := namesLookupOne_extends l (String.mk nm)
          exact ⟨(namesLookupOne l (String.mk nm)).1,
            (namesLookupOne l (String.mk nm)).2, ⟨ext', hext'⟩, rfl⟩
      · simp only [hal, Bool.false_eq_true, if_false] at h ⊢
        by_cases hdg : pyIsDigit c
        · -- number or leading-zero error
          simp only [hdg, if_true] at h ⊢
          rw [Option.bind_eq_some] at h
          obtain ⟨⟨v, s2⟩, hgn, h⟩ := h
          rw [get_number_setNames f ⟨in1, some c, cl1, ln1, pl1, nm1⟩ l, hgn]
          simp only [Option.map_some', Option.some_bind]
          dsimp only at h ⊢
          by_cases hv : v = -1
          · simp only [hv, if_true] at h ⊢
            cases hq : namesQuery s2.names "Number starting with 0" with
            | none => rw [hq] at h; cases h
            | some j =>
              rw [hq] at h
              simp only [Option.some.injEq, Prod.mk.injEq] at h
              obtain ⟨⟨rfl, rfl⟩, rfl⟩ := h
              obtain ⟨ext, rfl⟩ := hl
              have hmem : "Number starting with 0" ∈ initNames := by decide
              obtain ⟨j', hj'⟩ :=
                Option.isSome_iff_exists.mp (namesQuery_isSome_init hmem)
              rw [namesQuery_append_of_mem hmem, hj']
              exact ⟨j', initNames ++ ext, ⟨[], by simp⟩, rfl⟩
          · simp only [hv, if_false] at h ⊢
            simp only [Option.some.injEq, Prod.mk.injEq] at h
            obtain ⟨⟨rfl, rfl⟩, rfl⟩ := h
            exact ⟨v.toNat, l, ⟨[], by simp⟩, rfl⟩
        · simp only [hdg, Bool.false_eq_true, if_false] at h ⊢
          by_cases hp : c = '(' ∨ c = ')' ∨ c = '.'
          · -- punctuation
            simp only [hp, if_true] at h ⊢
            cases hq : namesQuery nm1 (String.mk [c]) with
            | none => rw [hq] at h; cases h
            | some j =>
              rw [hq] at h
              simp only [Option.some.injEq, Prod.mk.injEq] at h
              obtain ⟨⟨rfl, rfl⟩, rfl⟩ := h
              obtain ⟨ext, rfl⟩ := hl
              have hmem : String.mk [c] ∈ initNames := by
                rcases hp with h | h | h <;> subst h <;> decide
              obtain ⟨j', hj'⟩ :=
                Option.isSome_iff_exists.mp (namesQuery_isSome_init hmem)
              rw [namesQuery_append_of_mem hmem, hj',
                advance_setNames ⟨in1, some c, cl1, ln1, pl1, nm1⟩
                  (initNames ++ ext)]
              exact ⟨j', initNames ++ ext, ⟨[], by simp⟩, rfl⟩
          · simp only [hp, if_false] at h ⊢
            by_cases hsl : c = '/'
            · -- comment or lone slash
              simp only [hsl, if_true] at h ⊢
              rw [Option.bind_eq_some] at h
              obtain ⟨⟨r, s2⟩, hsc, h⟩ := h
              rw [skip_comment_setNames f ⟨in1, some '/', cl1, ln1, pl1, nm1⟩
                l, hsc]
              simp only [Option.map_some', Option.some_bind]
              dsimp only at h ⊢
              by_cases hr1 : r = 1
              · simp only [hr1, if_true] at h ⊢
                exact ih s2 l t i s' hl h
              · simp only [hr1, if_false] at h ⊢
                by_cases hr2 : r = 2
                · simp only [hr2, if_true] at h ⊢
                  cases hq : namesQuery s2.names "Unterminated comment" with
                  | none => rw [hq] at h; cases h
                  | some j =>
                    rw [hq] at h
                    simp only [Option.some.injEq, Prod.mk.injEq] at h
                    obtain ⟨⟨rfl, rfl⟩, rfl⟩ := h
                    obtain ⟨ext, rfl⟩ := hl
                    have hmem : "Unterminated comment" ∈ initNames := by
                      decide
                    obtain ⟨j', hj'⟩ :=
                      Option.isSome_iff_exists.mp (namesQuery_isSome_init hmem)
                    rw [namesQuery_append_of_mem hmem, hj']
                    exact ⟨j', initNames ++ ext, ⟨[], by simp⟩, rfl⟩
                · simp only [hr2, if_false] at h ⊢
                  cases hq : namesQuery s2.names "Unrecogonized character" with
                  | none => rw [hq] at h; cases h
                  | some j =>
                    rw [hq] at h
                    simp only [Option.some.injEq, Prod.mk.injEq] at h
                    obtain ⟨⟨rfl, rfl⟩, rfl⟩ := h
                    obtain ⟨ext, rfl⟩ := hl
                    have hmem : "Unrecogonized character" ∈ initNames := by
                      decide
                    obtain ⟨j', hj'⟩ :=
                      Option.isSome_iff_exists.mp (namesQuery_isSome_init hmem)
                    rw [namesQuery_append_of_mem hmem, hj']
                    exact ⟨j', initNames ++ ext, ⟨[], by simp⟩, rfl⟩
            · -- unrecognized character
              simp only [hsl, if_false] at h ⊢
              cases hq : namesQuery nm1 "Unrecogonized character" with
              | none => rw [hq] at h; cases h
              | some j =>
                rw [hq] at h
                simp only [Option.some.injEq, Prod.mk.injEq] at h
                obtain ⟨⟨rfl, rfl⟩, rfl⟩ := h
                obtain ⟨ext, rfl⟩ := hl
                have hmem : "Unrecogonized character" ∈ initNames := by
                  decide
                obtain ⟨j', hj'⟩ :=
                  Option.isSome_iff_exists.mp (namesQuery_isSome_init hmem)
                rw [namesQuery_append_of_mem hmem, hj',
                  advance_setNames ⟨in1, some c, cl1, ln1, pl1, nm1⟩
                    (initNames ++ ext)]
                exact ⟨j', initNames ++ ext, ⟨[], by simp⟩, rfl⟩

theorem tokenCount_setNames : ∀ (k : Nat) (s : ScannerSt) (l : List String),
    meas s ≤ k → wfSc s → goodNames s → (∃ ext, l = initNames ++ ext) →
    tokenCount { s with names := l } = tokenCount s := by
  intro k
  induction k with
  | zero =>
    intro s l hk hw hg hl
    obtain ⟨t, i, s', hw', hg', hm', hstr, -, hrun⟩ :=
      get_symbol_run (meas s) s (le_refl _) hw hg
    by_cases ht : t = SymbolType.EOF
    · obtain ⟨i', l', hl', hrun'⟩ :=
        get_symbol_setNames (meas s + 2) s l t i s' hl (hrun _ (by omega))
      obtain ⟨-, -, hstep⟩ := tokenCount_run (meas s) s (le_refl _) hw hg
      have h1 := hstep (meas s + 2) t i s' (by omega) (hrun _ (by omega))
      have hwl : wfSc { s with names := l } := hw
      have hgl : goodNames { s with names := l } := hl
      have hmeq : meas { s with names := l } = meas s := rfl
      obtain ⟨-, -, hstepl⟩ :=
        tokenCount_run (meas s) { s with names := l } (le_of_eq hmeq) hwl hgl
      have h2 := hstepl (meas s + 2) t i' { s' with names := l' }
        (by omega) hrun'
      rw [h1, h2, if_pos ht, if_pos ht]
    · exact absurd (hstr ht) (by omega)
  | succ k ih =>
    intro s l hk hw hg hl
    obtain ⟨t, i, s', hw', hg', hm', hstr, -, hrun⟩ :=
      get_symbol_run (meas s) s (le_refl _) hw hg
    obtain ⟨i', l', hl', hrun'⟩ :=
      get_symbol_setNames (meas s + 2) s l t i s' hl (hrun _ (by omega))
    obtain ⟨-, -, hstep⟩ := tokenCount_run (meas s) s (le_refl _) hw hg
    have h1 := hstep (meas s + 2) t i s' (by omega) (hrun _ (by omega))
    have hwl : wfSc { s with names := l } := hw
    have hgl : goodNames { s with names := l } := hl
    have hmeq : meas { s with names := l } = meas s := rfl
    obtain ⟨-, -, hstepl⟩ :=
      tokenCount_run (meas s) { s with names := l } (le_of_eq hmeq) hwl hgl
    have h2 := hstepl (meas s + 2) t i' { s' with names := l' }
      (by omega) hrun'
    by_cases ht : t = SymbolType.EOF
    · rw [h1, h2, if_pos ht, if_pos ht]
    · have hlt := hstr ht
      obtain ⟨ext, rfl⟩ := hl
      obtain ⟨ext', rfl⟩ := hl'
      have hih := ih s' (initNames ++ ext ++ ext') (by omega) hw' hg'
        ⟨ext ++ ext', by rw [List.append_assoc]⟩
      rw [h1, h2, if_neg ht, if_neg ht, hih]

/-! ## C2 : parser layer -/

theorem get_symbol_canon (s : ScannerSt) (hw : wfSc s) (hg : goodNames s) :
    ∃ t i s', wfSc s' ∧ goodNames s' ∧ meas s' ≤ meas s ∧
      (t ≠ SymbolType.EOF → meas s' < meas s) ∧
      (t = SymbolType.EOF → meas s' = 0) ∧
      tokenCount s = (if t = SymbolType.EOF then 1 else tokenCount s' + 1) ∧
      ∀ fuel, meas s + 1 < fuel → get_symbol fuel s = some ((t, i), s') := by
  obtain ⟨t, i, s', hw', hg', hm', hstr, hmz, hrun⟩ :=
    get_symbol_run (meas s) s (le_refl _) hw hg
  obtain ⟨-, -, hstep⟩ := tokenCount_run (meas s) s (le_refl _) hw hg
  exact ⟨t, i, s', hw', hg', hm', hstr, hmz,
    hstep (meas s + 2) t i s' (by omega) (hrun _ (by omega)), hrun⟩

theorem tokenCount_pos (s : ScannerSt) (hw : wfSc s) (hg : goodNames s) :
    1 ≤ tokenCount s :=
  (tokenCount_run (meas s) s (le_refl _) hw hg).1

theorem move_run (p : ParserSt) (hw : wfP p) :
    ∃ p', wfP p' ∧ pm p' ≤ meas p.scanner ∧
      remBudget p' ≤ tokenCount p.scanner ∧
      (meas p.scanner = 0 → remBudget p' = 0) ∧
      p'.errorCount = p.errorCount ∧
      ∀ fuel, meas p.scanner + 1 < fuel →
        move_to_next_symbol fuel p = some p' := by
  obtain ⟨t, i, s', hw', hg', hm', hstr, hmz, hstep, hrun⟩ :=
    get_symbol_canon p.scanner hw.1 hw.2.1
  refine ⟨{ p with scanner := s', symbolType := some t, symbolId := i,
                   lastErrorPos := p.scanner.curLine.length,
                   lastErrorLinum := p.scanner.lineNum },
    ⟨hw', hg', ?_⟩, ?_, ?_, ?_, rfl, ?_⟩
  · intro hEOF
    have ht : t = SymbolType.EOF := by
      have h2 : (some t = some SymbolType.EOF) := by
        have := of_decide_eq_true hEOF
        exact this
      injection h2
    exact hmz ht
  · by_cases ht : t = SymbolType.EOF
    · simp [pm, is_EOF, ht]
      omega
    · have := hstr ht
      simp [pm, is_EOF, ht]
      omega
  · by_cases ht : t = SymbolType.EOF
    · simp [remBudget, is_EOF, ht]
    · have := hstep
      rw [if_neg ht] at this
      simp [remBudget, is_EOF, ht]
      omega
  · intro hm0
    by_cases ht : t = SymbolType.EOF
    · simp [remBudget, is_EOF, ht]
    · exact absurd (hstr ht) (by omega)
  · intro fuel hf
    simp only [move_to_next_symbol, Option.bind_eq_bind, hrun fuel hf,
      Option.some_bind]

theorem RuleOk_of_eq {p q : ParserSt} (hw : wfP p) (hsc : q.scanner = p.scanner)
    (hst : q.symbolType = p.symbolType) (hec : q.errorCount = p.errorCount) :
    RuleOk p q := by
  have hEOFeq : is_EOF q = is_EOF p := by unfold is_EOF; rw [hst]
  refine ⟨⟨?_, ?_, ?_⟩, ?_, ?_, hec⟩
  · rw [hsc]; exact hw.1
  · rw [hsc]; exact hw.2.1
  · intro hEOF
    rw [hsc]
    exact hw.2.2 (hEOFeq ▸ hEOF)
  · unfold pm is_EOF; rw [hsc, hst]
  · unfold remBudget is_EOF; rw [hsc, hst]

theorem RuleOk_self (p : ParserSt) (hw : wfP p) : RuleOk p p :=
  RuleOk_of_eq hw rfl rfl rfl

theorem RuleProg_to_RuleOk {p q : ParserSt} (h : RuleProg p q) : RuleOk p q :=
  ⟨h.1, le_of_lt h.2.1, le_of_lt h.2.2.1, h.2.2.2⟩

theorem RuleOk_trans {p q r : ParserSt} (h1 : RuleOk p q) (h2 : RuleOk q r) :
    RuleOk p r :=
  ⟨h2.1, le_trans h2.2.1 h1.2.1, le_trans h2.2.2.1 h1.2.2.1,
    h2.2.2.2.trans h1.2.2.2⟩

theorem RuleOk_of_RuleProg_trans {p q r : ParserSt} (h1 : RuleProg p q)
    (h2 : RuleOk q r) : RuleProg p r :=
  ⟨h2.1, lt_of_le_of_lt h2.2.1 h1.2.1, lt_of_le_of_lt h2.2.2.1 h1.2.2.1,
    h2.2.2.2.trans h1.2.2.2⟩

theorem RuleOk_names {p q : ParserSt} (hw : wfP p)
    (hsc : q.scanner = { p.scanner with names := q.scanner.names })
    (hnm : ∃ ext, q.scanner.names = p.scanner.names ++ ext)
    (hst : q.symbolType = p.symbolType)
    (hec : q.errorCount = p.errorCount) : RuleOk p q := by
  have hEOFeq : is_EOF q = is_EOF p := by unfold is_EOF; rw [hst]
  have hgn : ∃ ext2, q.scanner.names = initNames ++ ext2 := by
    obtain ⟨e, he⟩ := hw.2.1
    obtain ⟨ext, hx⟩ := hnm
    exact ⟨e ++ ext, by rw [hx, he, List.append_assoc]⟩
  have htc : tokenCount q.scanner = tokenCount p.scanner := by
    rw [hsc]
    exact tokenCount_setNames (meas p.scanner) p.scanner q.scanner.names
      (le_refl _) hw.1 hw.2.1 hgn
  refine ⟨⟨?_, hgn, ?_⟩, ?_, ?_, hec⟩
  · rw [hsc]; exact hw.1
  · intro hEOF
    have hm0 := hw.2.2 (hEOFeq ▸ hEOF)
    rw [hsc]
    exact hm0
  · unfold pm is_EOF
    rw [hst, hsc]
    exact le_refl _
  · unfold remBudget is_EOF
    rw [hst, htc]

theorem devicePorts_names_ext (n : List String) (dk : DeviceKind)
    (q : Option Nat) : ∃ ext, (devicePorts n dk q).2 = n ++ ext := by
  cases dk
  case CLOCK => exact ⟨[], by simp [devicePorts]⟩
  case SWITCH => exact ⟨[], by simp [devicePorts]⟩
  case RC => exact ⟨[], by simp [devicePorts]⟩
  case AND => simpa [devicePorts] using
    namesLookupList_extends n (gateInputNames (q.getD 0))
  case NAND => simpa [devicePorts] using
    namesLookupList_extends n (gateInputNames (q.getD 0))
  case OR => simpa [devicePorts] using
    namesLookupList_extends n (gateInputNames (q.getD 0))
  case NOR => simpa [devicePorts] using
    namesLookupList_extends n (gateInputNames (q.getD 0))
  case XOR => simpa [devicePorts] using
    namesLookupList_extends n (gateInputNames 2)
  case NOT => simpa [devicePorts] using
    namesLookupList_extends n (gateInputNames 1)
  case D_TYPE =>
    obtain ⟨e1, h1⟩ :=
      namesLookupList_extends n ["CLK", "SET", "CLEAR", "DATA"]
    obtain ⟨e2, h2⟩ := namesLookupList_extends
      (namesLookupList n ["CLK", "SET", "CLEAR", "DATA"]).2 ["Q", "QBAR"]
    refine ⟨e1 ++ e2, ?_⟩
    simp only [devicePorts]
    rw [show ((let (ins, names') :=
        namesLookupList n ["CLK", "SET", "CLEAR", "DATA"]
      let (outs, names'') := namesLookupList names' ["Q", "QBAR"]
      ((ins, outs.map some), names'')) : (List Nat × List (Option Nat)) ×
        List String).2 = (namesLookupList (namesLookupList n
          ["CLK", "SET", "CLEAR", "DATA"]).2 ["Q", "QBAR"]).2 from rfl,
      h2, h1, List.append_assoc]

theorem make_device_names_ext (n : List String) (devs : List (Nat × Device))
    (d : Nat) (dk : DeviceKind) (q : Option Nat) :
    ∃ ext, (make_device n devs d dk q).2.1 = n ++ ext := by
  unfold make_device
  by_cases hv : qualifierValid dk q
  · simp only [hv, if_true]
    obtain ⟨ext, hx⟩ := devicePorts_names_ext n dk q
    rcases hdp : devicePorts n dk q with ⟨⟨ins, outs⟩, names'⟩
    rw [hdp] at hx
    refine ⟨ext, ?_⟩
    simp only [hdp]
    exact hx
  · simp only [hv, Bool.false_eq_true, if_false]
    exact ⟨[], by simp⟩

theorem is_EOF_false_of_name {p : ParserSt} (h : is_name p = true) :
    is_EOF p = false := by
  unfold is_name at h
  unfold is_EOF
  rw [of_decide_eq_true h]
  rfl

theorem is_EOF_false_of_keyword {p : ParserSt} (h : is_keyword p = true) :
    is_EOF p = false := by
  unfold is_keyword at h
  unfold is_EOF
  rw [of_decide_eq_true h]
  rfl

theorem is_EOF_false_of_number {p : ParserSt} (h : is_number p = true) :
    is_EOF p = false := by
  unfold is_number at h
  unfold is_EOF
  rw [of_decide_eq_true h]
  rfl

theorem is_EOF_false_of_left_paren {p : ParserSt} (h : is_left_paren p = true) :
    is_EOF p = false := by
  unfold is_left_paren at h
  unfold is_EOF
  rw [(of_decide_eq_true h).1]
  rfl

theorem is_EOF_false_of_dot {p : ParserSt} (h : is_dot p = true) :
    is_EOF p = false := by
  unfold is_dot at h
  unfold is_EOF
  rw [(of_decide_eq_true h).1]
  rfl

theorem pm_succ_of_not_EOF {p : ParserSt} (h : is_EOF p = false) :
    pm p = meas p.scanner + 1 := by
  unfold pm
  rw [h]
  rfl

theorem remBudget_succ_of_not_EOF {p : ParserSt} (h : is_EOF p = false) :
    remBudget p = tokenCount p.scanner + 1 := by
  unfold remBudget
  rw [h]
  rfl

theorem get_first_device_id_run (p : ParserSt) (ids : List Nat) (hw : wfP p)
    (fuel : Nat) (hf : pm p < fuel) :
    ∃ r ids' p', get_first_device_id fuel p ids = some (r, ids', p') ∧
      RuleOk p p' ∧ (r.isSome → RuleProg p p') := by
  by_cases hn : is_name p
  · have hne := is_EOF_false_of_name hn
    cases hd : devicesGet p.devices p.symbolId with
    | some dev =>
      refine ⟨none, ids, { p with errorCode := ErrorCode.DEVICE_REDEFINED },
        ?_, RuleOk_of_eq hw rfl rfl rfl, fun h => by simp at h⟩
      simp [get_first_device_id, hn, hd]
    | none =>
      obtain ⟨p', hwp', hpm, hrb, -, hec, hrun⟩ :=
        move_run (add_device_location p) hw
      have hpm' : pm p' ≤ meas p.scanner := hpm
      have hrb' : remBudget p' ≤ tokenCount p.scanner := hrb
      have hec' : p'.errorCount = p.errorCount := hec
      have hrun' : ∀ fuel, meas p.scanner + 1 < fuel →
          move_to_next_symbol fuel (add_device_location p) = some p' := hrun
      have hpmp := pm_succ_of_not_EOF hne
      have hrbp := remBudget_succ_of_not_EOF hne
      have hprog : RuleProg p p' :=
        ⟨hwp', by omega, by omega, hec'⟩
      refine ⟨some p.symbolId, addSet ids p.symbolId, p', ?_,
        RuleProg_to_RuleOk hprog, fun _ => hprog⟩
      simp [get_first_device_id, hn, hd, Option.bind_eq_bind,
        hrun' fuel (by omega), Option.some_bind]
  · by_cases hk : is_keyword p
    · by_cases ht : p.nameString = some "is" ∨ p.nameString = some "are"
      · refine ⟨none, ids, { p with errorCode := ErrorCode.EMPTY_DEVICE_LIST },
          ?_, RuleOk_of_eq hw rfl rfl rfl, fun h => by simp at h⟩
        simp [get_first_device_id, hn, hk, ht]
      · refine ⟨none, ids,
          { p with errorCode := ErrorCode.KEYWORD_AS_DEVICE_NAME },
          ?_, RuleOk_of_eq hw rfl rfl rfl, fun h => by simp at h⟩
        simp [get_first_device_id, hn, hk, ht]
    · by_cases hr : is_right_paren p ∨ is_EOF p
      · refine ⟨none, ids, { p with errorCode := ErrorCode.EMPTY_DEVICE_LIST },
          ?_, RuleOk_of_eq hw rfl rfl rfl, fun h => by simp at h⟩
        simp [get_first_device_id, hn, hk, hr]
      · refine ⟨none, ids,
          { p with errorCode := ErrorCode.INVALID_DEVICE_NAME },
          ?_, RuleOk_of_eq hw rfl rfl rfl, fun h => by simp at h⟩
        simp [get_first_device_id, hn, hk, hr]

theorem get_optional_device_id_run (p : ParserSt) (ids : List Nat)
    (hw : wfP p) (fuel : Nat) (hf : pm p < fuel) :
    ∃ r ids' p', get_optional_device_id fuel p ids = some (r, ids', p') ∧
      RuleOk p p' ∧ (r.isSome → RuleProg p p') := by
  by_cases hn : is_name p
  · have hne := is_EOF_false_of_name hn
    by_cases hd : (devicesGet p.devices p.symbolId).isSome ∨ p.symbolId ∈ ids
    · refine ⟨none, ids, { p with errorCode := ErrorCode.DEVICE_REDEFINED },
        ?_, RuleOk_of_eq hw rfl rfl rfl, fun h => by simp at h⟩
      simp [get_optional_device_id, hn, hd]
    · obtain ⟨p', hwp', hpm, hrb, -, hec, hrun⟩ :=
        move_run (add_device_location p) hw
      have hpm' : pm p' ≤ meas p.scanner := hpm
      have hrb' : remBudget p' ≤ tokenCount p.scanner := hrb
      have hec' : p'.errorCount = p.errorCount := hec
      have hrun' : ∀ fuel, meas p.scanner + 1 < fuel →
          move_to_next_symbol fuel (add_device_location p) = some p' := hrun
      have hpmp := pm_succ_of_not_EOF hne
      have hrbp := remBudget_succ_of_not_EOF hne
      have hprog : RuleProg p p' := ⟨hwp', by omega, by omega, hec'⟩
      refine ⟨some p.symbolId, addSet ids p.symbolId, p', ?_,
        RuleProg_to_RuleOk hprog, fun _ => hprog⟩
      simp [get_optional_device_id, hn, hd, Option.bind_eq_bind,
        hrun' fuel (by omega), Option.some_bind]
  · refine ⟨none, ids, p, ?_, RuleOk_self p hw, fun h => by simp at h⟩
    simp [get_optional_device_id, hn]

theorem deviceNameLoop_run : ∀ (fuel : Nat) (ids : List Nat) (p : ParserSt),
    wfP p → pm p + 1 < fuel →
    ∃ ok ids' p', deviceNameLoop fuel ids p = some (ok, ids', p') ∧
      RuleOk p p' := by
  intro fuel
  induction fuel with
  | zero => intro ids p hw hf; omega
  | succ f ih =>
    intro ids p hw hf
    obtain ⟨r, ids1, p1, hrun1, hok1, hprog1⟩ :=
      get_optional_device_id_run p ids hw f (by omega)
    cases r with
    | none =>
      by_cases he : p1.errorCode = ErrorCode.NO_ERROR
      · refine ⟨true, ids1, p1, ?_, hok1⟩
        simp [deviceNameLoop, Option.bind_eq_bind, hrun1, Option.some_bind, he]
      · refine ⟨false, ids1, p1, ?_, hok1⟩
        simp [deviceNameLoop, Option.bind_eq_bind, hrun1, Option.some_bind, he]
    | some d =>
      have hpr := hprog1 (by simp)
      have hlt := hpr.2.1
      obtain ⟨ok, ids2, p2, hrun2, hok2⟩ :=
        ih (addSet ids1 d) p1 hpr.1 (by omega)
      refine ⟨ok, ids2, p2, ?_,
        RuleOk_trans (RuleProg_to_RuleOk hpr) hok2⟩
      simp [deviceNameLoop, Option.bind_eq_bind, hrun1, Option.some_bind, hrun2]

theorem check_keyword_is_are_snd (p : ParserSt) (hw : wfP p) :
    RuleOk p (check_keyword_is_are p).2 := by
  unfold check_keyword_is_are
  repeat' split
  all_goals first
    | exact RuleOk_self p hw
    | exact RuleOk_of_eq hw rfl rfl rfl

theorem makeDevicesLoop_run : ∀ (ids : List Nat) (dk : DeviceKind)
    (q : Option Nat) (p : ParserSt), wfP p →
    RuleOk p (makeDevicesLoop dk q ids p).2 := by
  intro ids
  induction ids with
  | nil => intro dk q p hw; exact RuleOk_self p hw
  | cons d rest ih =>
    intro dk q p hw
    obtain ⟨ext, hext⟩ := make_device_names_ext p.scanner.names p.devices d dk q
    unfold makeDevicesLoop
    rcases hmd : make_device p.scanner.names p.devices d dk q with
      ⟨r, names', devs'⟩
    rw [hmd] at hext
    simp only [hmd]
    have hok1 : RuleOk p { p with scanner :=
        { p.scanner with names := names' }, devices := devs' } :=
      RuleOk_names hw rfl ⟨ext, hext⟩ rfl rfl
    cases r with
    | invalidQualifier =>
      exact RuleOk_trans hok1 (RuleOk_of_eq hok1.1 rfl rfl rfl)
    | noerr =>
      exact RuleOk_trans hok1 (ih dk q _ hok1.1)

theorem get_device_type_run (p : ParserSt) (hw : wfP p) (fuel : Nat)
    (hf : pm p < fuel) :
    ∃ r p', get_device_type fuel p = some (r, p') ∧ RuleOk p p' := by
  by_cases hrp : is_right_paren p
  · refine ⟨none, { p with errorCode := ErrorCode.DEVICE_TYPE_ABSENT,
                           lastErrorPosOverwrite := true },
      ?_, RuleOk_of_eq hw rfl rfl rfl⟩
    simp [get_device_type, hrp]
  · by_cases hk : is_keyword p
    · have hne := is_EOF_false_of_keyword hk
      have hpmp := pm_succ_of_not_EOF hne
      have hrbp := remBudget_succ_of_not_EOF hne
      cases hdwq : p.nameString.bind (fun nm => device_with_qualifier nm) with
      | some dk =>
        obtain ⟨p1, hwp1, hpm1, hrb1, -, hec1, hrun1⟩ := move_run p hw
        have hok1 : RuleOk p p1 := ⟨hwp1, by omega, by omega, hec1⟩
        by_cases hn : is_number p1
        · have hne1 := is_EOF_false_of_number hn
          have hpmp1 := pm_succ_of_not_EOF hne1
          have hrbp1 := remBudget_succ_of_not_EOF hne1
          obtain ⟨p2, hwp2, hpm2, hrb2, -, hec2, hrun2⟩ := move_run p1 hwp1
          have hok2 : RuleOk p1 p2 := ⟨hwp2, by omega, by omega, hec2⟩
          refine ⟨some (dk, some p1.symbolId), p2, ?_,
            RuleOk_trans hok1 hok2⟩
          simp [get_device_type, hrp, hk, hdwq, Option.bind_eq_bind,
            hrun1 fuel (by omega), Option.some_bind, hn,
            hrun2 fuel (by omega)]
        · refine ⟨none, { p1 with errorCode := ErrorCode.EXPECT_QUALIFIER,
                                  lastErrorPosOverwrite := true },
            ?_, RuleOk_trans hok1 (RuleOk_of_eq hwp1 rfl rfl rfl)⟩
          simp [get_device_type, hrp, hk, hdwq, Option.bind_eq_bind,
            hrun1 fuel (by omega), Option.some_bind, hn]
      | none =>
        cases hdnq : p.nameString.bind (fun nm => device_no_qualifier nm) with
        | some dk =>
          obtain ⟨p1, hwp1, hpm1, hrb1, -, hec1, hrun1⟩ := move_run p hw
          have hok1 : RuleOk p p1 := ⟨hwp1, by omega, by omega, hec1⟩
          by_cases hn : is_number p1
          · refine ⟨none, { p1 with errorCode :=
                ErrorCode.EXPECT_NO_QUALIFIER }, ?_,
              RuleOk_trans hok1 (RuleOk_of_eq hwp1 rfl rfl rfl)⟩
            simp [get_device_type, hrp, hk, hdwq, hdnq, Option.bind_eq_bind,
              hrun1 fuel (by omega), Option.some_bind, hn]
          · refine ⟨some (dk, none), p1, ?_, hok1⟩
            simp [get_device_type, hrp, hk, hdwq, hdnq, Option.bind_eq_bind,
              hrun1 fuel (by omega), Option.some_bind, hn]
        | none =>
          refine ⟨none, { p with errorCode := ErrorCode.INVALID_DEVICE_TYPE,
                                 scanner :=
                                   (complete_current_line p.scanner).2 },
            ?_, RuleOk_of_eq hw (complete_current_line_snd p.scanner) rfl rfl⟩
          simp [get_device_type, hrp, hk, hdwq, hdnq]
    · refine ⟨none, { p with errorCode := ErrorCode.INVALID_DEVICE_TYPE },
        ?_, RuleOk_of_eq hw rfl rfl rfl⟩
      simp [get_device_type, hrp, hk]

theorem device_run (p : ParserSt) (hw : wfP p) (fuel : Nat)
    (hf : pm p < fuel) :
    ∃ b p', device fuel p = some (b, p') ∧ RuleOk p p' := by
  by_cases he : p.errorCode ≠ ErrorCode.NO_ERROR
  · exact ⟨false, p, by simp [device, he], RuleOk_self p hw⟩
  · by_cases hk : is_keyword p ∧ is_target_name p "DEVICE"
    · have hne := is_EOF_false_of_keyword hk.1
      have hpmp := pm_succ_of_not_EOF hne
      have hrbp := remBudget_succ_of_not_EOF hne
      obtain ⟨p1, hwp1, hpm1, hrb1, -, hec1, hrun1⟩ := move_run p hw
      have hok1 : RuleOk p p1 := ⟨hwp1, by omega, by omega, hec1⟩
      obtain ⟨r, ids1, p2, hrun2, hok2, -⟩ :=
        get_first_device_id_run p1 [] hwp1 fuel (by omega)
      have hok12 := RuleOk_trans hok1 hok2
      cases r with
      | none =>
        refine ⟨false, p2, ?_, hok12⟩
        simp [device, he, hk, Option.bind_eq_bind, hrun1 fuel (by omega),
          Option.some_bind, hrun2]
      | some d =>
        obtain ⟨ok, ids2, p3, hrun3, hok3⟩ :=
          deviceNameLoop_run fuel ids1 p2 hok12.1 (by
            have := hok2.2.1
            omega)
        have hok13 := RuleOk_trans hok12 hok3
        cases ok with
        | false =>
          refine ⟨false, p3, ?_, hok13⟩
          simp [device, he, hk, Option.bind_eq_bind, hrun1 fuel (by omega),
            Option.some_bind, hrun2, hrun3]
        | true =>
          by_cases hck1 : is_keyword p3
          · by_cases hck2 : p3.nameString = some "is" ∨
                p3.nameString = some "are"
            · -- keyword is/are accepted: read the device type
              have hne3 := is_EOF_false_of_keyword hck1
              have hpmp3 := pm_succ_of_not_EOF hne3
              have hrbp3 := remBudget_succ_of_not_EOF hne3
              have hle3 := hok13.2.1
              obtain ⟨p5, hwp5, hpm5, hrb5, -, hec5, hrun5⟩ :=
                move_run p3 hok13.1
              have hok5 : RuleOk p3 p5 := ⟨hwp5, by omega, by omega, hec5⟩
              obtain ⟨dt, p6, hrun6, hok6⟩ :=
                get_device_type_run p5 hwp5 fuel (by
                  have := hok5.2.1
                  omega)
              have hok16 := RuleOk_trans hok13 (RuleOk_trans hok5 hok6)
              cases dt with
              | none =>
                refine ⟨false, p6, ?_, hok16⟩
                rcases hck2 with hia | hia <;>
                  simp [device, he, hk, Option.bind_eq_bind,
                    hrun1 fuel (by omega), Option.some_bind, hrun2, hrun3,
                    check_keyword_is_are, hck1, hia, hrun5 fuel (by omega),
                    hrun6]
              | some dkq =>
                rcases dkq with ⟨dk, q⟩
                rcases hml : makeDevicesLoop dk q ids2 p6 with ⟨bm, p7⟩
                have hok7 : RuleOk p6 p7 := by
                  have := makeDevicesLoop_run ids2 dk q p6 hok16.1
                  rw [hml] at this
                  exact this
                refine ⟨bm, p7, ?_, RuleOk_trans hok16 hok7⟩
                rcases hck2 with hia | hia <;>
                  simp [device, he, hk, Option.bind_eq_bind,
                    hrun1 fuel (by omega), Option.some_bind, hrun2, hrun3,
                    check_keyword_is_are, hck1, hia, hrun5 fuel (by omega),
                    hrun6, hml]
            · -- keyword but not is/are
              refine ⟨false, (check_keyword_is_are p3).2, ?_,
                RuleOk_trans hok13 (check_keyword_is_are_snd p3 hok13.1)⟩
              have hckv : (check_keyword_is_are p3).1 = false := by
                simp [check_keyword_is_are, hck1, hck2]
                repeat' split
                all_goals rfl
              rcases hck : check_keyword_is_are p3 with ⟨ok2, p4⟩
              rw [hck] at hckv
              simp at hckv
              subst hckv
              simp [device, he, hk, Option.bind_eq_bind,
                hrun1 fuel (by omega), Option.some_bind, hrun2, hrun3, hck]
          · -- not a keyword at the is/are position
            refine ⟨false, (check_keyword_is_are p3).2, ?_,
              RuleOk_trans hok13 (check_keyword_is_are_snd p3 hok13.1)⟩
            have hckv : (check_keyword_is_are p3).1 = false := by
              simp [check_keyword_is_are, hck1]
              repeat' split
              all_goals rfl
            rcases hck : check_keyword_is_are p3 with ⟨ok2, p4⟩
            rw [hck] at hckv
            simp at hckv
            subst hckv
            simp [device, he, hk, Option.bind_eq_bind,
              hrun1 fuel (by omega), Option.some_bind, hrun2, hrun3, hck]
    · exact ⟨false, p, by simp [device, he, hk], RuleOk_self p hw⟩

theorem meas_le_pm (p : ParserSt) : meas p.scanner ≤ pm p := by
  unfold pm
  split <;> omega

theorem device_terminal_run (mm : Bool) (p : ParserSt) (hw : wfP p)
    (fuel : Nat) (hf : pm p < fuel) :
    ∃ r p', device_terminal fuel mm p = some (r, p') ∧
      RuleOk p p' ∧ (r.isSome → RuleProg p p') := by
  by_cases hn : is_name p
  · have hne := is_EOF_false_of_name hn
    have hpmp := pm_succ_of_not_EOF hne
    have hrbp := remBudget_succ_of_not_EOF hne
    cases hd : devicesGet p.devices p.symbolId with
    | none =>
      refine ⟨none, { p with deviceId := p.symbolId,
                             errorCode := ErrorCode.DEVICE_UNDEFINED },
        ?_, RuleOk_of_eq hw rfl rfl rfl, fun h => by simp at h⟩
      simp [device_terminal, hn, hd]
    | some dev =>
      obtain ⟨p1, hwp1, hpm1, hrb1, -, hec1, hrun1⟩ :=
        move_run { p with deviceId := p.symbolId } hw
      have hpm1' : pm p1 ≤ meas p.scanner := hpm1
      have hrb1' : remBudget p1 ≤ tokenCount p.scanner := hrb1
      have hec1' : p1.errorCount = p.errorCount := hec1
      have hrun1' : ∀ f, meas p.scanner + 1 < f →
          move_to_next_symbol f { p with deviceId := p.symbolId } =
            some p1 := hrun1
      have hprog1 : RuleProg p p1 := ⟨hwp1, by omega, by omega, hec1'⟩
      by_cases hdot : is_dot p1
      · have hne1 := is_EOF_false_of_dot hdot
        have hpmp1 := pm_succ_of_not_EOF hne1
        have hrbp1 := remBudget_succ_of_not_EOF hne1
        obtain ⟨p2, hwp2, hpm2, hrb2, -, hec2, hrun2⟩ := move_run p1 hwp1
        have hprog2 : RuleProg p1 p2 := ⟨hwp2, by omega, by omega, hec2⟩
        have hprog12 := RuleOk_of_RuleProg_trans hprog1
          (RuleProg_to_RuleOk hprog2)
        by_cases hto : is_target_name p2 "to" ∨ is_right_paren p2
        · refine ⟨none, { p2 with errorCode := ErrorCode.EXPECT_PORT_NAME,
                                  lastErrorPosOverwrite := true }, ?_,
            RuleProg_to_RuleOk (RuleOk_of_RuleProg_trans hprog12
              (RuleOk_of_eq hwp2 rfl rfl rfl)), fun h => by simp at h⟩
          simp [device_terminal, hn, hd, Option.bind_eq_bind,
            hrun1' fuel (by omega), Option.some_bind, hdot,
            hrun2 fuel (by omega), hto]
        · by_cases hport : p2.symbolId ∈ dev.inputs ∨
              some p2.symbolId ∈ dev.outputs
          · have hcond : ¬ (p2.symbolId ∉ dev.inputs ∧
                some p2.symbolId ∉ dev.outputs) := by tauto
            by_cases hm1 : mm = true ∧ ¬ some p2.symbolId ∈ dev.outputs
            · have hin : p2.symbolId ∈ dev.inputs := by tauto
              refine ⟨none, { p2 with portId := some p2.symbolId,
                                      errorCode := ErrorCode.MONITOR_NOT_OUTPUT },
                ?_, RuleProg_to_RuleOk (RuleOk_of_RuleProg_trans hprog12
                  (RuleOk_of_eq hwp2 rfl rfl rfl)), fun h => by simp at h⟩
              simp [device_terminal, hn, hd, Option.bind_eq_bind,
                hrun1' fuel (by omega), Option.some_bind, hdot,
                hrun2 fuel (by omega), hto, hin, hm1]
            · by_cases hm2 : mm = true ∧
                  (p.symbolId, some p2.symbolId) ∈ p2.monitorsDict
              · have hout2 : some p2.symbolId ∈ dev.outputs := by tauto
                refine ⟨none, { p2 with portId := some p2.symbolId,
                                        errorCode := ErrorCode.MONITOR_PRESENT },
                  ?_, RuleProg_to_RuleOk (RuleOk_of_RuleProg_trans hprog12
                    (RuleOk_of_eq hwp2 rfl rfl rfl)), fun h => by simp at h⟩
                simp [device_terminal, hn, hd, Option.bind_eq_bind,
                  hrun1' fuel (by omega), Option.some_bind, hdot,
                  hrun2 fuel (by omega), hto, hcond, hout2, hm2]
              · have hble := meas_le_pm p2
                have hp2lt := hprog12.2.1
                have hrb2lt := hprog12.2.2.1
                have hfu : meas p2.scanner + 1 < fuel := by omega
                cases mm with
                | false =>
                  obtain ⟨p4, hwp4, hpm4, hrb4, hz4, hec4, hrun4⟩ :=
                    move_run { p2 with portId := some p2.symbolId } hwp2
                  have hpm4' : pm p4 ≤ meas p2.scanner := hpm4
                  have hrb4' : remBudget p4 ≤ tokenCount p2.scanner := hrb4
                  have hz4' : meas p2.scanner = 0 → remBudget p4 = 0 := hz4
                  have hec4' : p4.errorCount = p2.errorCount := hec4
                  have hrun4' : ∀ f, meas p2.scanner + 1 < f →
                      move_to_next_symbol f
                        { p2 with portId := some p2.symbolId } =
                          some p4 := hrun4
                  have hprogp4 : RuleProg p p4 := by
                    refine ⟨hwp4, by omega, ?_,
                      hec4'.trans hprog12.2.2.2⟩
                    cases hE : is_EOF p2 with
                    | true =>
                      have h0 := hz4' (hwp2.2.2 hE)
                      omega
                    | false =>
                      have hrb2' := remBudget_succ_of_not_EOF hE
                      omega
                  refine ⟨some (p.symbolId, some p2.symbolId), p4, ?_,
                    RuleProg_to_RuleOk hprogp4, fun _ => hprogp4⟩
                  simp [device_terminal, hn, hd, Option.bind_eq_bind,
                    hrun1' fuel (by omega), Option.some_bind, hdot,
                    hrun2 fuel (by omega), hto, hcond, hm1, hm2,
                    hrun4' fuel hfu]
                | true =>
                  have hout2 : some p2.symbolId ∈ dev.outputs := by tauto
                  have hnd : (p.symbolId, some p2.symbolId) ∉
                      p2.monitorsDict := by tauto
                  obtain ⟨p4, hwp4, hpm4, hrb4, hz4, hec4, hrun4⟩ :=
                    move_run { p2 with portId := some p2.symbolId,
                                       monitorLocations :=
                                         assocSet p2.monitorLocations
                                           (p.symbolId, some p2.symbolId)
                                           (p2.scanner.lineNum,
                                             p2.scanner.curLine.length) } hwp2
                  have hpm4' : pm p4 ≤ meas p2.scanner := hpm4
                  have hrb4' : remBudget p4 ≤ tokenCount p2.scanner := hrb4
                  have hz4' : meas p2.scanner = 0 → remBudget p4 = 0 := hz4
                  have hec4' : p4.errorCount = p2.errorCount := hec4
                  have hrun4' : ∀ f, meas p2.scanner + 1 < f →
                      move_to_next_symbol f
                        { p2 with portId := some p2.symbolId,
                                  monitorLocations :=
                                    assocSet p2.monitorLocations
                                      (p.symbolId, some p2.symbolId)
                                      (p2.scanner.lineNum,
                                        p2.scanner.curLine.length) } =
                          some p4 := hrun4
                  have hprogp4 : RuleProg p p4 := by
                    refine ⟨hwp4, by omega, ?_,
                      hec4'.trans hprog12.2.2.2⟩
                    cases hE : is_EOF p2 with
                    | true =>
                      have h0 := hz4' (hwp2.2.2 hE)
                      omega
                    | false =>
                      have hrb2' := remBudget_succ_of_not_EOF hE
                      omega
                  refine ⟨some (p.symbolId, some p2.symbolId), p4, ?_,
                    RuleProg_to_RuleOk hprogp4, fun _ => hprogp4⟩
                  simp [device_terminal, hn, hd, Option.bind_eq_bind,
                    hrun1' fuel (by omega), Option.some_bind, hdot,
                    hrun2 fuel (by omega), hto, hcond, hout2, hnd,
                    hrun4' fuel hfu]
          · have hcond2 : p2.symbolId ∉ dev.inputs ∧
                some p2.symbolId ∉ dev.outputs := by tauto
            refine ⟨none, { p2 with portId := some p2.symbolId,
                                    errorCode := ErrorCode.INVALID_PORT_NAME },
              ?_, RuleProg_to_RuleOk (RuleOk_of_RuleProg_trans hprog12
                (RuleOk_of_eq hwp2 rfl rfl rfl)), fun h => by simp at h⟩
            simp [device_terminal, hn, hd, Option.bind_eq_bind,
              hrun1' fuel (by omega), Option.some_bind, hdot,
              hrun2 fuel (by omega), hto, hcond2]
      · by_cases hout : (none : Option Nat) ∈ dev.outputs
        · cases mm with
          | false =>
            refine ⟨some (p.symbolId, none), { p1 with portId := none }, ?_,
              RuleProg_to_RuleOk (RuleOk_of_RuleProg_trans hprog1
                (RuleOk_of_eq hwp1 rfl rfl rfl)),
              fun _ => RuleOk_of_RuleProg_trans hprog1
                (RuleOk_of_eq hwp1 rfl rfl rfl)⟩
            simp [device_terminal, hn, hd, Option.bind_eq_bind,
              hrun1' fuel (by omega), Option.some_bind, hdot, hout]
          | true =>
            by_cases hdict : (p.symbolId, (none : Option Nat)) ∈
                p1.monitorsDict
            · refine ⟨none, { p1 with portId := none,
                                      errorCode := ErrorCode.MONITOR_PRESENT,
                                      lastErrorPosOverwrite := true }, ?_,
                RuleProg_to_RuleOk (RuleOk_of_RuleProg_trans hprog1
                  (RuleOk_of_eq hwp1 rfl rfl rfl)), fun h => by simp at h⟩
              simp [device_terminal, hn, hd, Option.bind_eq_bind,
                hrun1' fuel (by omega), Option.some_bind, hdot, hout, hdict]
            · refine ⟨some (p.symbolId, none),
                { p1 with portId := none,
                          monitorLocations :=
                            assocSet p1.monitorLocations (p.symbolId, none)
                              (p1.lastErrorLinum, p1.lastErrorPos) }, ?_,
                RuleProg_to_RuleOk (RuleOk_of_RuleProg_trans hprog1
                  (RuleOk_of_eq hwp1 rfl rfl rfl)),
                fun _ => RuleOk_of_RuleProg_trans hprog1
                  (RuleOk_of_eq hwp1 rfl rfl rfl)⟩
              simp [device_terminal, hn, hd, Option.bind_eq_bind,
                hrun1' fuel (by omega), Option.some_bind, hdot, hout, hdict]
        · refine ⟨none, { p1 with portId := none,
                                  errorCode := ErrorCode.EXPECT_PORT_NAME_DTYPE,
                                  lastErrorPosOverwrite := true }, ?_,
            RuleProg_to_RuleOk (RuleOk_of_RuleProg_trans hprog1
              (RuleOk_of_eq hwp1 rfl rfl rfl)), fun h => by simp at h⟩
          simp [device_terminal, hn, hd, Option.bind_eq_bind,
            hrun1' fuel (by omega), Option.some_bind, hdot, hout]
  · refine ⟨none, p, ?_, RuleOk_self p hw, fun h => by simp at h⟩
    simp [device_terminal, hn]

theorem connect_run (p : ParserSt) (hw : wfP p) (fuel : Nat)
    (hf : pm p < fuel) :
    ∃ b p', connect fuel p = some (b, p') ∧ RuleOk p p' := by
  by_cases he : p.errorCode ≠ ErrorCode.NO_ERROR
  · exact ⟨false, p, by simp [connect, he], RuleOk_self p hw⟩
  · by_cases hk : is_keyword p ∧ is_target_name p "CONNECT"
    · have hne := is_EOF_false_of_keyword hk.1
      have hpmp := pm_succ_of_not_EOF hne
      have hrbp := remBudget_succ_of_not_EOF hne
      obtain ⟨p1, hwp1, hpm1, hrb1, -, hec1, hrun1⟩ := move_run p hw
      have hok1 : RuleOk p p1 := ⟨hwp1, by omega, by omega, hec1⟩
      obtain ⟨t1, p2, hrun2, hok2, -⟩ :=
        device_terminal_run false p1 hwp1 fuel (by
          have := hok1.2.1
          omega)
      have hok12 := RuleOk_trans hok1 hok2
      cases t1 with
      | none =>
        by_cases he2 : p2.errorCode = ErrorCode.NO_ERROR
        · refine ⟨false, { p2 with
              errorCode := ErrorCode.EXPECT_DEVICE_TERMINAL_NAME }, ?_,
            RuleOk_trans hok12 (RuleOk_of_eq hok12.1 rfl rfl rfl)⟩
          simp [connect, he, hk, Option.bind_eq_bind, hrun1 fuel (by omega),
            Option.some_bind, hrun2, he2]
        · refine ⟨false, p2, ?_, hok12⟩
          simp [connect, he, hk, Option.bind_eq_bind, hrun1 fuel (by omega),
            Option.some_bind, hrun2, he2]
      | some t1v =>
        rcases t1v with ⟨d1, pt1⟩
        by_cases hto : is_keyword p2 ∧ is_target_name p2 "to"
        · have hne2 := is_EOF_false_of_keyword hto.1
          have hpmp2 := pm_succ_of_not_EOF hne2
          have hrbp2 := remBudget_succ_of_not_EOF hne2
          have hle2 := hok12.2.1
          have hle2b := hok12.2.2.1
          obtain ⟨p3, hwp3, hpm3, hrb3, -, hec3, hrun3⟩ := move_run p2 hok12.1
          have hok3 : RuleOk p2 p3 := ⟨hwp3, by omega, by omega, hec3⟩
          obtain ⟨t2, p4, hrun4, hok4, -⟩ :=
            device_terminal_run false p3 hwp3 fuel (by
              have := hok3.2.1
              omega)
          have hok14 := RuleOk_trans hok12 (RuleOk_trans hok3 hok4)
          cases t2 with
          | none =>
            by_cases he4 : p4.errorCode = ErrorCode.NO_ERROR
            · refine ⟨false, { p4 with
                  errorCode := ErrorCode.EXPECT_DEVICE_TERMINAL_NAME }, ?_,
                RuleOk_trans hok14 (RuleOk_of_eq hok14.1 rfl rfl rfl)⟩
              simp [connect, he, hk, Option.bind_eq_bind,
                hrun1 fuel (by omega), Option.some_bind, hrun2, hto,
                hrun3 fuel (by omega), hrun4, he4]
            · refine ⟨false, p4, ?_, hok14⟩
              simp [connect, he, hk, Option.bind_eq_bind,
                hrun1 fuel (by omega), Option.some_bind, hrun2, hto,
                hrun3 fuel (by omega), hrun4, he4]
          | some t2v =>
            rcases t2v with ⟨d2, pt2⟩
            rcases hmc : make_connection p4.devices p4.driven d1 pt1 d2 pt2
              with ⟨r, driven'⟩
            cases r with
            | noerr =>
              refine ⟨true, { p4 with
                  driven := driven',
                  connectLocations :=
                    assocSet
                      (assocSet p4.connectLocations (d1, pt1)
                        (p2.lastErrorLinum, p2.lastErrorPos))
                      (d2, pt2) (p4.lastErrorLinum, p4.lastErrorPos) }, ?_,
                RuleOk_trans hok14 (RuleOk_of_eq hok14.1 rfl rfl rfl)⟩
              simp [connect, he, hk, Option.bind_eq_bind,
                hrun1 fuel (by omega), Option.some_bind, hrun2, hto,
                hrun3 fuel (by omega), hrun4, hmc]
            | inputToInput =>
              refine ⟨false, { p4 with errorCode := ErrorCode.INPUT_TO_INPUT,
                                       lastErrorPosOverwrite := true }, ?_,
                RuleOk_trans hok14 (RuleOk_of_eq hok14.1 rfl rfl rfl)⟩
              simp [connect, he, hk, Option.bind_eq_bind,
                hrun1 fuel (by omega), Option.some_bind, hrun2, hto,
                hrun3 fuel (by omega), hrun4, hmc]
            | outputToOutput =>
              refine ⟨false, { p4 with
                  errorCode := ErrorCode.OUTPUT_TO_OUTPUT,
                  lastErrorPosOverwrite := true }, ?_,
                RuleOk_trans hok14 (RuleOk_of_eq hok14.1 rfl rfl rfl)⟩
              simp [connect, he, hk, Option.bind_eq_bind,
                hrun1 fuel (by omega), Option.some_bind, hrun2, hto,
                hrun3 fuel (by omega), hrun4, hmc]
            | inputConnected =>
              cases hfd : devicesGet p4.devices d1 with
              | none =>
                refine ⟨false, p4, ?_, hok14⟩
                simp [connect, he, hk, Option.bind_eq_bind,
                  hrun1 fuel (by omega), Option.some_bind, hrun2, hto,
                  hrun3 fuel (by omega), hrun4, hmc, hfd]
              | some fdev =>
                cases pt1 with
                | none =>
                  refine ⟨false, { p4 with
                      errorCode := ErrorCode.INPUT_CONNECTED,
                      deviceId := d2, portId := pt2,
                      lastErrorLinum := p4.lastErrorLinum,
                      lastErrorPos := p4.lastErrorPos,
                      lastErrorPosOverwrite := true }, ?_,
                    RuleOk_trans hok14 (RuleOk_of_eq hok14.1 rfl rfl rfl)⟩
                  simp [connect, he, hk, Option.bind_eq_bind,
                    hrun1 fuel (by omega), Option.some_bind, hrun2, hto,
                    hrun3 fuel (by omega), hrun4, hmc, hfd]
                | some x =>
                  by_cases hxi : x ∈ fdev.inputs
                  · refine ⟨false, { p4 with
                        errorCode := ErrorCode.INPUT_CONNECTED,
                        deviceId := d1, portId := some x,
                        lastErrorLinum := p2.lastErrorLinum,
                        lastErrorPos := p2.lastErrorPos,
                        lastErrorPosOverwrite := true }, ?_,
                      RuleOk_trans hok14 (RuleOk_of_eq hok14.1 rfl rfl rfl)⟩
                    simp [connect, he, hk, Option.bind_eq_bind,
                      hrun1 fuel (by omega), Option.some_bind, hrun2, hto,
                      hrun3 fuel (by omega), hrun4, hmc, hfd, hxi]
                  · refine ⟨false, { p4 with
                        errorCode := ErrorCode.INPUT_CONNECTED,
                        deviceId := d2, portId := pt2,
                        lastErrorLinum := p4.lastErrorLinum,
                        lastErrorPos := p4.lastErrorPos,
                        lastErrorPosOverwrite := true }, ?_,
                      RuleOk_trans hok14 (RuleOk_of_eq hok14.1 rfl rfl rfl)⟩
                    simp [connect, he, hk, Option.bind_eq_bind,
                      hrun1 fuel (by omega), Option.some_bind, hrun2, hto,
                      hrun3 fuel (by omega), hrun4, hmc, hfd, hxi]
        · refine ⟨false, { p2 with errorCode := ErrorCode.EXPECT_KEYWORD_TO },
            ?_, RuleOk_trans hok12 (RuleOk_of_eq hok12.1 rfl rfl rfl)⟩
          simp [connect, he, hk, Option.bind_eq_bind, hrun1 fuel (by omega),
            Option.some_bind, hrun2, hto]
    · exact ⟨false, p, by simp [connect, he, hk], RuleOk_self p hw⟩

theorem monitorLoop_run : ∀ (fuel : Nat) (p : ParserSt), wfP p →
    pm p + 1 < fuel →
    ∃ b p', monitorLoop fuel p = some (b, p') ∧ RuleOk p p' := by
  intro fuel
  induction fuel with
  | zero => intro p hw hf; omega
  | succ f ih =>
    intro p hw hf
    obtain ⟨t, p1, hrun1, hok1, hprog1⟩ :=
      device_terminal_run true p hw f (by omega)
    cases t with
    | none =>
      by_cases he : p1.errorCode = ErrorCode.NO_ERROR
      · refine ⟨true, p1, ?_, hok1⟩
        simp [monitorLoop, Option.bind_eq_bind, hrun1, Option.some_bind, he]
      · refine ⟨false, p1, ?_, hok1⟩
        simp [monitorLoop, Option.bind_eq_bind, hrun1, Option.some_bind, he]
    | some dp =>
      rcases dp with ⟨d, pt⟩
      have hpr := hprog1 (by simp)
      have hlt := hpr.2.1
      rcases hmm2 : make_monitor p1.monitorsDict d pt with ⟨r, dict'⟩
      cases r with
      | alreadyMonitored =>
        refine ⟨false, p1, ?_, RuleProg_to_RuleOk hpr⟩
        simp [monitorLoop, Option.bind_eq_bind, hrun1, Option.some_bind, hmm2]
      | noerr =>
        have hpmeq : pm { p1 with monitorsDict := dict' } = pm p1 := rfl
        obtain ⟨b, p2, hrun2, hok2⟩ :=
          ih { p1 with monitorsDict := dict' } (RuleOk_of_eq hpr.1 rfl rfl rfl).1
            (by omega)
        refine ⟨b, p2, ?_, RuleOk_trans (RuleProg_to_RuleOk hpr)
          (RuleOk_trans (RuleOk_of_eq hpr.1 rfl rfl rfl) hok2)⟩
        simp [monitorLoop, Option.bind_eq_bind, hrun1, Option.some_bind,
          hmm2, hrun2]

theorem monitor_run (p : ParserSt) (hw : wfP p) (fuel : Nat)
    (hf : pm p < fuel) :
    ∃ b p', monitor fuel p = some (b, p') ∧ RuleOk p p' := by
  by_cases he : p.errorCode ≠ ErrorCode.NO_ERROR
  · exact ⟨false, p, by simp [monitor, he], RuleOk_self p hw⟩
  · by_cases hk : is_keyword p ∧ is_target_name p "MONITOR"
    · have hne := is_EOF_false_of_keyword hk.1
      have hpmp := pm_succ_of_not_EOF hne
      have hrbp := remBudget_succ_of_not_EOF hne
      obtain ⟨p1, hwp1, hpm1, hrb1, -, hec1, hrun1⟩ := move_run p hw
      have hok1 : RuleOk p p1 := ⟨hwp1, by omega, by omega, hec1⟩
      obtain ⟨t, p2, hrun2, hok2, hprog2⟩ :=
        device_terminal_run true p1 hwp1 fuel (by
          have := hok1.2.1
          omega)
      have hok12 := RuleOk_trans hok1 hok2
      cases t with
      | none =>
        by_cases he2 : p2.errorCode = ErrorCode.NO_ERROR
        · by_cases hrp : is_right_paren p2
          · refine ⟨false, { p2 with
                errorCode := ErrorCode.EMPTY_MONITOR_LIST }, ?_,
              RuleOk_trans hok12 (RuleOk_of_eq hok12.1 rfl rfl rfl)⟩
            simp [monitor, he, hk, Option.bind_eq_bind, hrun1 fuel (by omega),
              Option.some_bind, hrun2, he2, hrp]
          · refine ⟨false, { p2 with
                errorCode := ErrorCode.INVALID_DEVICE_NAME }, ?_,
              RuleOk_trans hok12 (RuleOk_of_eq hok12.1 rfl rfl rfl)⟩
            simp [monitor, he, hk, Option.bind_eq_bind, hrun1 fuel (by omega),
              Option.some_bind, hrun2, he2, hrp]
        · refine ⟨false, p2, ?_, hok12⟩
          simp [monitor, he, hk, Option.bind_eq_bind, hrun1 fuel (by omega),
            Option.some_bind, hrun2, he2]
      | some dp =>
        rcases dp with ⟨d, pt⟩
        have hpr2 := hprog2 (by simp)
        rcases hmm2 : make_monitor p2.monitorsDict d pt with ⟨r, dict'⟩
        cases r with
        | alreadyMonitored =>
          refine ⟨false, p2, ?_, hok12⟩
          simp [monitor, he, hk, Option.bind_eq_bind, hrun1 fuel (by omega),
            Option.some_bind, hrun2, hmm2]
        | noerr =>
          have hpmeq : pm { p2 with monitorsDict := dict' } = pm p2 := rfl
          obtain ⟨b, p3, hrun3, hok3⟩ :=
            monitorLoop_run fuel { p2 with monitorsDict := dict' }
              (RuleOk_of_eq hok12.1 rfl rfl rfl).1 (by
                have h1 := hok1.2.1
                have h2 := hpr2.2.1
                omega)
          refine ⟨b, p3, ?_, RuleOk_trans hok12
            (RuleOk_trans (RuleOk_of_eq hok12.1 rfl rfl rfl) hok3)⟩
          simp [monitor, he, hk, Option.bind_eq_bind, hrun1 fuel (by omega),
            Option.some_bind, hrun2, hmm2, hrun3]
    · exact ⟨false, p, by simp [monitor, he, hk], RuleOk_self p hw⟩

theorem is_EOF_false_of_right_paren {p : ParserSt}
    (h : is_right_paren p = true) : is_EOF p = false := by
  unfold is_right_paren at h
  unfold is_EOF
  rw [(of_decide_eq_true h).1]
  rfl

theorem wfP_of_eq {p q : ParserSt} (hw : wfP p) (hsc : q.scanner = p.scanner)
    (hst : q.symbolType = p.symbolType) : wfP q := by
  have hEOFeq : is_EOF q = is_EOF p := by unfold is_EOF; rw [hst]
  refine ⟨?_, ?_, ?_⟩
  · rw [hsc]; exact hw.1
  · rw [hsc]; exact hw.2.1
  · intro hEOF
    rw [hsc]
    exact hw.2.2 (hEOFeq ▸ hEOF)

theorem pm_congr {p q : ParserSt} (hsc : q.scanner = p.scanner)
    (hst : q.symbolType = p.symbolType) : pm q = pm p := by
  unfold pm is_EOF
  rw [hsc, hst]

theorem remBudget_congr {p q : ParserSt} (hsc : q.scanner = p.scanner)
    (hst : q.symbolType = p.symbolType) : remBudget q = remBudget p := by
  unfold remBudget is_EOF
  rw [hsc, hst]

theorem is_left_paren_congr {p q : ParserSt} (hsc : q.scanner = p.scanner)
    (hst : q.symbolType = p.symbolType) (hid : q.symbolId = p.symbolId) :
    is_left_paren q = is_left_paren p := by
  unfold is_left_paren
  rw [hsc, hst, hid]

theorem is_EOF_congr {p q : ParserSt} (hst : q.symbolType = p.symbolType) :
    is_EOF q = is_EOF p := by
  unfold is_EOF
  rw [hst]

theorem error_display_props (q : ParserSt) :
    (error_display q).scanner = q.scanner ∧
    (error_display q).symbolType = q.symbolType ∧
    (error_display q).symbolId = q.symbolId ∧
    (error_display q).errorCount = q.errorCount + 1 := by
  refine ⟨?_, ?_, ?_, ?_⟩ <;>
    · unfold error_display
      dsimp only
      repeat' split
      all_goals simp [complete_current_line_snd]

theorem statement_run (p : ParserSt) (hw : wfP p) (fuel : Nat)
    (hf : pm p < fuel) :
    ∃ b p', statement fuel p = some (b, p') ∧ wfP p' ∧
      p'.errorCount = p.errorCount ∧
      (if is_left_paren p then pm p' < pm p ∧ remBudget p' < remBudget p
       else b = false ∧
         p' = { p with errorCode := ErrorCode.EXPECT_LEFT_PAREN }) := by
  by_cases hlp : is_left_paren p
  · have hne := is_EOF_false_of_left_paren hlp
    have hpmp := pm_succ_of_not_EOF hne
    have hrbp := remBudget_succ_of_not_EOF hne
    obtain ⟨p1, hwp1, hpm1, hrb1, -, hec1, hrun1⟩ := move_run p hw
    have hok1 : RuleOk p p1 := ⟨hwp1, by omega, by omega, hec1⟩
    obtain ⟨b1, q1, hrund, hokd⟩ := device_run p1 hwp1 fuel (by
      have := hok1.2.1
      omega)
    have hokq1 := RuleOk_trans hok1 hokd
    cases b1 with
    | true =>
      by_cases hrp : is_right_paren q1
      · have hneq := is_EOF_false_of_right_paren hrp
        have hpmq := pm_succ_of_not_EOF hneq
        have hrbq := remBudget_succ_of_not_EOF hneq
        have hq1 := hokq1.2.1
        have hq1b := hokq1.2.2.1
        obtain ⟨p9, hwp9, hpm9, hrb9, -, hec9, hrun9⟩ := move_run q1 hokq1.1
        refine ⟨true, p9, ?_, hwp9, hec9.trans hokq1.2.2.2, ?_⟩
        · simp [statement, hlp, Option.bind_eq_bind, hrun1 fuel (by omega),
            Option.some_bind, hrund, hrp, hrun9 fuel (by omega)]
        · rw [if_pos hlp]
          constructor <;> omega
      · refine ⟨false, { q1 with errorCode := ErrorCode.EXPECT_RIGHT_PAREN,
                                 lastErrorPosOverwrite := true,
                                 lastErrorPos := q1.lastErrorPos + 1 }, ?_,
          (RuleOk_of_eq hokq1.1 rfl rfl rfl).1, hokq1.2.2.2, ?_⟩
        · simp [statement, hlp, Option.bind_eq_bind, hrun1 fuel (by omega),
            Option.some_bind, hrund, hrp]
        · rw [if_pos hlp]
          have h1 := hokd.2.1
          have h2 := hokd.2.2.1
          have e1 : pm { q1 with
            errorCode := ErrorCode.EXPECT_RIGHT_PAREN,
            lastErrorPosOverwrite := true,
            lastErrorPos := q1.lastErrorPos + 1 } = pm q1 := rfl
          have e2 : remBudget { q1 with
            errorCode := ErrorCode.EXPECT_RIGHT_PAREN,
            lastErrorPosOverwrite := true,
            lastErrorPos := q1.lastErrorPos + 1 } = remBudget q1 := rfl
          constructor <;> omega
    | false =>
      obtain ⟨b2, q2, hrunc, hokc⟩ := connect_run q1 hokq1.1 fuel (by
        have h1 := hok1.2.1
        have h2 := hokq1.2.1
        omega)
      have hokq2 := RuleOk_trans hokq1 hokc
      cases b2 with
      | true =>
        by_cases hrp : is_right_paren q2
        · have hneq := is_EOF_false_of_right_paren hrp
          have hpmq := pm_succ_of_not_EOF hneq
          have hrbq := remBudget_succ_of_not_EOF hneq
          have hq1 := hokq2.2.1
          have hq1b := hokq2.2.2.1
          obtain ⟨p9, hwp9, hpm9, hrb9, -, hec9, hrun9⟩ := move_run q2 hokq2.1
          refine ⟨true, p9, ?_, hwp9, hec9.trans hokq2.2.2.2, ?_⟩
          · simp [statement, hlp, Option.bind_eq_bind, hrun1 fuel (by omega),
              Option.some_bind, hrund, hrunc, hrp, hrun9 fuel (by omega)]
          · rw [if_pos hlp]
            constructor <;> omega
        · refine ⟨false, { q2 with errorCode := ErrorCode.EXPECT_RIGHT_PAREN,
                                   lastErrorPosOverwrite := true,
                                   lastErrorPos := q2.lastErrorPos + 1 }, ?_,
            (RuleOk_of_eq hokq2.1 rfl rfl rfl).1, hokq2.2.2.2, ?_⟩
          · simp [statement, hlp, Option.bind_eq_bind, hrun1 fuel (by omega),
              Option.some_bind, hrund, hrunc, hrp]
          · rw [if_pos hlp]
            have h1 := (RuleOk_trans hokd hokc).2.1
            have h2 := (RuleOk_trans hokd hokc).2.2.1
            have e1 : pm { q2 with
              errorCode := ErrorCode.EXPECT_RIGHT_PAREN,
              lastErrorPosOverwrite := true,
              lastErrorPos := q2.lastErrorPos + 1 } = pm q2 := rfl
            have e2 : remBudget { q2 with
              errorCode := ErrorCode.EXPECT_RIGHT_PAREN,
              lastErrorPosOverwrite := true,
              lastErrorPos := q2.lastErrorPos + 1 } = remBudget q2 := rfl
            constructor <;> omega
      | false =>
        obtain ⟨b3, q3, hrunm, hokm⟩ := monitor_run q2 hokq2.1 fuel (by
          have h1 := hok1.2.1
          have h2 := hokq2.2.1
          omega)
        have hokq3 := RuleOk_trans hokq2 hokm
        have hok13 := RuleOk_trans hokd (RuleOk_trans hokc hokm)
        have h1 := hok13.2.1
        have h2 := hok13.2.2.1
        cases b3 with
        | false =>
          by_cases he3 : q3.errorCode = ErrorCode.NO_ERROR
          · by_cases hrp3 : is_right_paren q3
            · refine ⟨false, { q3 with
                  errorCode := ErrorCode.EMPTY_STATEMENT }, ?_,
                (RuleOk_of_eq hokq3.1 rfl rfl rfl).1, hokq3.2.2.2, ?_⟩
              · simp [statement, hlp, Option.bind_eq_bind,
                  hrun1 fuel (by omega), Option.some_bind, hrund, hrunc,
                  hrunm, he3, hrp3]
              · rw [if_pos hlp]
                have e1 : pm { q3 with
                    errorCode := ErrorCode.EMPTY_STATEMENT } = pm q3 := rfl
                have e2 : remBudget { q3 with
                    errorCode := ErrorCode.EMPTY_STATEMENT } =
                      remBudget q3 := rfl
                constructor <;> omega
            · refine ⟨false, { q3 with
                  errorCode := ErrorCode.INVALID_FUNCTION_NAME }, ?_,
                (RuleOk_of_eq hokq3.1 rfl rfl rfl).1, hokq3.2.2.2, ?_⟩
              · simp [statement, hlp, Option.bind_eq_bind,
                  hrun1 fuel (by omega), Option.some_bind, hrund, hrunc,
                  hrunm, he3, hrp3]
              · rw [if_pos hlp]
                have e1 : pm { q3 with
                    errorCode := ErrorCode.INVALID_FUNCTION_NAME } =
                      pm q3 := rfl
                have e2 : remBudget { q3 with
                    errorCode := ErrorCode.INVALID_FUNCTION_NAME } =
                      remBudget q3 := rfl
                constructor <;> omega
          · refine ⟨false, q3, ?_, hokq3.1, hokq3.2.2.2, ?_⟩
            · simp [statement, hlp, Option.bind_eq_bind,
                hrun1 fuel (by omega), Option.some_bind, hrund, hrunc,
                hrunm, he3]
            · rw [if_pos hlp]
              constructor <;> omega
        | true =>
          by_cases hrp : is_right_paren q3
          · have hneq := is_EOF_false_of_right_paren hrp
            have hpmq := pm_succ_of_not_EOF hneq
            have hrbq := remBudget_succ_of_not_EOF hneq
            obtain ⟨p9, hwp9, hpm9, hrb9, -, hec9, hrun9⟩ :=
              move_run q3 hokq3.1
            refine ⟨true, p9, ?_, hwp9, hec9.trans hokq3.2.2.2, ?_⟩
            · simp [statement, hlp, Option.bind_eq_bind,
                hrun1 fuel (by omega), Option.some_bind, hrund, hrunc,
                hrunm, hrp, hrun9 fuel (by omega)]
            · rw [if_pos hlp]
              constructor <;> omega
          · refine ⟨false, { q3 with
                errorCode := ErrorCode.EXPECT_RIGHT_PAREN,
                lastErrorPosOverwrite := true,
                lastErrorPos := q3.lastErrorPos + 1 }, ?_,
              (RuleOk_of_eq hokq3.1 rfl rfl rfl).1, hokq3.2.2.2, ?_⟩
            · simp [statement, hlp, Option.bind_eq_bind,
                hrun1 fuel (by omega), Option.some_bind, hrund, hrunc,
                hrunm, hrp]
            · rw [if_pos hlp]
              have e1 : pm { q3 with
                  errorCode := ErrorCode.EXPECT_RIGHT_PAREN,
                  lastErrorPosOverwrite := true,
                  lastErrorPos := q3.lastErrorPos + 1 } = pm q3 := rfl
              have e2 : remBudget { q3 with
                  errorCode := ErrorCode.EXPECT_RIGHT_PAREN,
                  lastErrorPosOverwrite := true,
                  lastErrorPos := q3.lastErrorPos + 1 } = remBudget q3 := rfl
              constructor <;> omega
  · refine ⟨false, { p with errorCode := ErrorCode.EXPECT_LEFT_PAREN }, ?_,
      (RuleOk_of_eq hw rfl rfl rfl).1, rfl, ?_⟩
    · simp [statement, hlp]
    · rw [if_neg hlp]
      exact ⟨rfl, rfl⟩

theorem recoveryLoop_run : ∀ (fuel : Nat) (p : ParserSt), wfP p →
    pm p + 1 < fuel →
    ∃ p', recoveryLoop fuel p = some p' ∧ wfP p' ∧ pm p' ≤ pm p ∧
      remBudget p' ≤ remBudget p ∧ p'.errorCount = p.errorCount ∧
      (is_left_paren p = false ∧ is_EOF p = false →
        pm p' < pm p ∧ remBudget p' < remBudget p) := by
  intro fuel
  induction fuel with
  | zero => intro p hw hf; omega
  | succ f ih =>
    intro p hw hf
    by_cases hc : ¬ is_left_paren p ∧ ¬ is_EOF p
    · have hEOFf : is_EOF p = false := by
        cases h : is_EOF p
        · rfl
        · exact absurd h hc.2
      have hpmp := pm_succ_of_not_EOF hEOFf
      have hrbp := remBudget_succ_of_not_EOF hEOFf
      obtain ⟨p1, hwp1, hpm1, hrb1, -, hec1, hrun1⟩ := move_run p hw
      obtain ⟨p2, hrun2, hwp2, hpm2, hrb2, hec2, -⟩ :=
        ih p1 hwp1 (by omega)
      refine ⟨p2, ?_, hwp2, by omega, by omega, hec2.trans hec1,
        fun _ => ⟨by omega, by omega⟩⟩
      simp [recoveryLoop, hc, Option.bind_eq_bind, hrun1 f (by omega),
        Option.some_bind, hrun2]
    · refine ⟨p, ?_, hw, le_refl _, le_refl _, rfl, ?_⟩
      · show recoveryLoop (f + 1) p = some p
        simp only [recoveryLoop]
        rw [if_neg hc]
      · rintro ⟨h1, h2⟩
        exact absurd ⟨by simp [h1], by simp [h2]⟩ hc

theorem reclassify_props (p : ParserSt) :
    (reclassify p).scanner = p.scanner ∧
    (reclassify p).symbolType = p.symbolType ∧
    (reclassify p).symbolId = p.symbolId ∧
    (reclassify p).errorCount = p.errorCount := by
  unfold reclassify
  dsimp only
  repeat' split
  all_goals exact ⟨rfl, rfl, rfl, rfl⟩

theorem parseLoop_fail_tail (f : Nat) (p2 : ParserSt) (hw2 : wfP p2)
    (hf : pm p2 + 2 ≤ f)
    (hcase : pm p2 + 2 < f ∨
      (is_left_paren p2 = false ∧ is_EOF p2 = false))
    (ih : ∀ q : ParserSt, wfP q → pm q + 2 < f →
      ∃ q', parseLoop f q = some q' ∧ wfP q' ∧
        q'.errorCount ≤ q.errorCount + remBudget q) :
    ∃ p', ((recoveryLoop f
        { error_display (reclassify p2) with
          errorCode := ErrorCode.NO_ERROR }).bind
        fun q => parseLoop f q) = some p' ∧ wfP p' ∧
      p'.errorCount ≤ p2.errorCount + 1 + remBudget p2 ∧
      (is_left_paren p2 = false ∧ is_EOF p2 = false →
        p'.errorCount ≤ p2.errorCount + remBudget p2) := by
  obtain ⟨hrsc, hrst, hrid, hrec⟩ := reclassify_props p2
  obtain ⟨hdsc, hdst, hdid, hdec⟩ := error_display_props (reclassify p2)
  set q0 : ParserSt :=
    { error_display (reclassify p2) with
      errorCode := ErrorCode.NO_ERROR } with hq0
  have hqsc : q0.scanner = p2.scanner := by
    rw [hq0]
    exact hdsc.trans hrsc
  have hqst : q0.symbolType = p2.symbolType := by
    rw [hq0]
    exact hdst.trans hrst
  have hqid : q0.symbolId = p2.symbolId := by
    rw [hq0]
    exact hdid.trans hrid
  have hqec : q0.errorCount = p2.errorCount + 1 := by
    rw [hq0]
    show (error_display (reclassify p2)).errorCount = p2.errorCount + 1
    rw [hdec, hrec]
  have hwq : wfP q0 := wfP_of_eq hw2 hqsc hqst
  have hpmq : pm q0 = pm p2 := pm_congr hqsc hqst
  have hrbq : remBudget q0 = remBudget p2 := remBudget_congr hqsc hqst
  have hlpq : is_left_paren q0 = is_left_paren p2 :=
    is_left_paren_congr hqsc hqst hqid
  have hEOFq : is_EOF q0 = is_EOF p2 := is_EOF_congr hqst
  obtain ⟨p3, hrunR, hwp3, hpm3, hrb3, hec3, hstrictR⟩ :=
    recoveryLoop_run f q0 hwq (by omega)
  have hih : pm p3 + 2 < f := by
    rcases hcase with h | h
    · omega
    · have hs := hstrictR ⟨by rw [hlpq]; exact h.1, by rw [hEOFq]; exact h.2⟩
      omega
  obtain ⟨p', hrunP, hwp', hecP⟩ := ih p3 hwp3 hih
  refine ⟨p', ?_, hwp', by omega, ?_⟩
  · rw [hrunR]
    exact hrunP
  · rintro ⟨h1, h2⟩
    have hs := hstrictR ⟨by rw [hlpq]; exact h1, by rw [hEOFq]; exact h2⟩
    omega

theorem parseLoop_run : ∀ (fuel : Nat) (p : ParserSt), wfP p →
    pm p + 2 < fuel →
    ∃ p', parseLoop fuel p = some p' ∧ wfP p' ∧
      p'.errorCount ≤ p.errorCount + remBudget p := by
  intro fuel
  induction fuel with
  | zero => intro p hw hf; omega
  | succ f ih =>
    intro p hw hf
    by_cases hEOF : is_EOF p
    · refine ⟨p, ?_, hw, by omega⟩
      simp [parseLoop, hEOF]
    · have hEOFf : is_EOF p = false := by simpa using hEOF
      obtain ⟨b, p2, hS, hwp2, hecS, hdich⟩ := statement_run p hw f (by omega)
      by_cases hlp : is_left_paren p
      · rw [if_pos hlp] at hdich
        obtain ⟨hpmS, hrbS⟩ := hdich
        cases b with
        | true =>
          obtain ⟨p', hP, hwp', hecP⟩ := ih p2 hwp2 (by omega)
          refine ⟨p', ?_, hwp', by omega⟩
          simp [parseLoop, hEOFf, Option.bind_eq_bind, hS,
            Option.some_bind, hP]
        | false =>
          obtain ⟨p', htail, hwp', hb1, hb2⟩ :=
            parseLoop_fail_tail f p2 hwp2 (by omega) (Or.inl (by omega)) ih
          refine ⟨p', ?_, hwp', by omega⟩
          rw [← htail]
          simp [parseLoop, hEOFf, Option.bind_eq_bind, hS, Option.some_bind]
      · rw [if_neg hlp] at hdich
        obtain ⟨hb, hp2⟩ := hdich
        subst hb
        have hlpf : is_left_paren p = false := by simpa using hlp
        have h5 : is_left_paren p2 = is_left_paren p := by
          rw [hp2]
          exact is_left_paren_congr rfl rfl rfl
        have h6 : is_EOF p2 = is_EOF p := by
          rw [hp2]
          exact is_EOF_congr rfl
        have h7 : pm p2 = pm p := by
          rw [hp2]
          exact pm_congr rfl rfl
        have h8 : remBudget p2 = remBudget p := by
          rw [hp2]
          exact remBudget_congr rfl rfl
        obtain ⟨p', htail, hwp', hb1, hb2⟩ :=
          parseLoop_fail_tail f p2 hwp2 (by omega)
            (Or.inr ⟨by rw [h5]; exact hlpf, by rw [h6]; exact hEOFf⟩) ih
        have hb2' := hb2 ⟨by rw [h5]; exact hlpf, by rw [h6]; exact hEOFf⟩
        refine ⟨p', ?_, hwp', by omega⟩
        rw [← htail]
        simp [parseLoop, hEOFf, Option.bind_eq_bind, hS, Option.some_bind]

theorem parse_network_run (inp : List Char) (tm : Bool) :
    ∃ b p', parse_network (bigFuel inp) (initParserSt inp tm) =
        some (b, p') ∧
      p'.errorCount ≤ tokenCount (initScanner inp) := by
  have hw0 : wfP (initParserSt inp tm) := ⟨wfSc_initScanner inp,
    goodNames_initScanner inp, by intro h; simp [is_EOF, initParserSt] at h⟩
  have hmeq : meas (initParserSt inp tm).scanner =
      meas (initScanner inp) := rfl
  have hms := meas_initScanner inp
  have hbig : bigFuel inp = inp.length + 5 := rfl
  have htc1 : 1 ≤ tokenCount (initScanner inp) :=
    tokenCount_pos _ (wfSc_initScanner inp) (goodNames_initScanner inp)
  obtain ⟨p1, hwp1, hpm1, hrb1, -, hec1, hrun1⟩ :=
    move_run (initParserSt inp tm) hw0
  have hrunM : move_to_next_symbol (bigFuel inp) (initParserSt inp tm) =
      some p1 := hrun1 (bigFuel inp) (by omega)
  have he0 : p1.errorCount = 0 := hec1.trans rfl
  have hrb1' : remBudget p1 ≤ tokenCount (initScanner inp) := hrb1
  by_cases hE : is_EOF p1
  · refine ⟨false,
      error_display { p1 with errorCode := ErrorCode.EMPTY_FILE }, ?_, ?_⟩
    · simp [parse_network, Option.bind_eq_bind, hrunM, Option.some_bind, hE]
    · have h := (error_display_props
        { p1 with errorCode := ErrorCode.EMPTY_FILE }).2.2.2
      have hx : ({ p1 with errorCode := ErrorCode.EMPTY_FILE } :
          ParserSt).errorCount = p1.errorCount := rfl
      omega
  · have hEf : is_EOF p1 = false := by simpa using hE
    obtain ⟨pL, hrunL, hwL, hecL⟩ :=
      parseLoop_run (bigFuel inp) p1 hwp1 (by omega)
    by_cases hc0 : pL.errorCount = 0
    · by_cases hun : (find_unconnected_inputs pL.devices pL.driven).length > 0
      · refine ⟨false, { pL with
            printedDiagnostics := pL.printedDiagnostics + 1,
            errorCount := 1 }, ?_, ?_⟩
        · simp [parse_network, Option.bind_eq_bind, hrunM, Option.some_bind,
            hEf, Bool.false_eq_true, if_false, hrunL, hc0, hun]
        · have hx : ({ pL with
              printedDiagnostics := pL.printedDiagnostics + 1,
              errorCount := 1 } : ParserSt).errorCount = 1 := rfl
          omega
      · refine ⟨true, pL, ?_, by omega⟩
        simp [parse_network, Option.bind_eq_bind, hrunM, Option.some_bind,
          hEf, Bool.false_eq_true, if_false, hrunL, hc0, hun]
    · refine ⟨false, pL, ?_, by omega⟩
      have hpos : 0 < pL.errorCount := Nat.pos_of_ne_zero hc0
      simp [parse_network, Option.bind_eq_bind, hrunM, Option.some_bind,
        hEf, Bool.false_eq_true, if_false, hrunL, hc0, hpos]

/-- C2: Termination and diagnostic bound.  On every finite input and in
both reporting modes, `parse_network` run with fuel `bigFuel inp` (linear
in the input length) terminates with a result, and the diagnostic count of
the final parser state is at most the number of tokens of the input —
`tokenCount (initScanner inp)`, which the fuelled token counter computes
at that same fuel.  Error recovery and every non-recovery path consume at
least one token between consecutive diagnostics, which is what the
per-rule budget lemmas feeding this theorem formalise. -/
theorem C2_termination_and_diagnostic_bound (inp : List Char) (tm : Bool) :
    ∃ b p', runParse inp tm = some (b, p') ∧
      tokenCountF (bigFuel inp) (initScanner inp) =
        some (tokenCount (initScanner inp)) ∧
      p'.errorCount ≤ tokenCount (initScanner inp) := by
  obtain ⟨b, p', hrun, hbound⟩ := parse_network_run inp tm
  refine ⟨b, p', hrun, ?_, hbound⟩
  have h := (tokenCount_run (meas (initScanner inp)) (initScanner inp)
    (le_refl _) (wfSc_initScanner inp) (goodNames_initScanner inp)).2.1
  exact h (bigFuel inp) (by
    have hms := meas_initScanner inp
    have hb : bigFuel inp = inp.length + 5 := rfl
    omega)
